import Mathlib

/-!
# Signup request workflow (`apps/mobile/utils/signupRequests.js`)

A shallow embedding of the signup-request module of the attendance application.

The module keeps one JSON array of request records in two places: an
AsyncStorage item (the *cache*) and a file in the document directory (the
*mirror*).  Every exported function is an `async` function whose body is a
`try`/`catch`; the calls it awaits (storage reads and writes, the two helpers
of `./auth`) are external.  In the embedding

* the two storage layers are an explicit `Store` value that is passed in and
  returned;
* what each awaited external call does (return a value, or throw an error with
  a message) is an explicit argument of the operation, an *environment* record
  with one field per call the source makes;
* every operation returns its JavaScript result together with the store after
  the call and the list of external calls it made, in order.
-/

namespace SignupRequests

/-! ## Data model -/

/-- One element of the persisted JSON array (source lines 35-47).

* `password` is `none` when the property is absent (after `delete`).
* `requestedAt` is the time value of `new Date(req.requestedAt)` in
  milliseconds; `none` stands for a string that is not a date (`NaN`).
* `approvedAt`, `approvedBy`, `rejectionReason` are `none` for JSON `null`.
* `department`, `position`, `workMode`, `hireDate` are never written by this
  module but are read by `approveSignupRequest`; `none` is an absent property. -/
structure Request where
  id : String
  username : String
  password : Option String
  name : String
  email : String
  role : String
  status : String
  requestedAt : Option Int
  approvedAt : Option Int
  approvedBy : Option String
  rejectionReason : Option String
  department : Option String
  position : Option String
  workMode : Option String
  hireDate : Option String
deriving DecidableEq, Repr

/-- The two persistence layers.  `cache` is the AsyncStorage item
`@signup_requests` (`none`: no item), `mirror` the file `signup_requests.json`
(`none`: the file does not exist).  Both hold a serialised array of requests. -/
structure Store where
  cache : Option (List Request)
  mirror : Option (List Request)
deriving DecidableEq, Repr

/-- The store before anything was written. -/
def Store.empty : Store := { cache := none, mirror := none }

/-- The argument of `createSignupRequest`; `none` is an absent (`undefined`)
property. -/
structure UserData where
  username : Option String
  password : Option String
  name : Option String
  email : Option String
  role : Option String
deriving DecidableEq, Repr

/-- The object passed to `addUserToFile` (source lines 143-153). -/
structure NewUser where
  username : String
  password : Option String
  email : String
  name : String
  role : String
  department : String
  position : String
  workMode : String
  hireDate : String
deriving DecidableEq, Repr

/-- The value `addUserToFile` resolves to. -/
structure AddResult where
  success : Bool
  error : Option String
deriving DecidableEq, Repr

/-- The object the three mutating operations resolve to. -/
structure Result where
  success : Bool
  requestId : Option String
  error : Option String
deriving DecidableEq, Repr

/-- An awaited external call, as it appears in the trace of an operation. -/
inductive Event where
  | getItem
  | getInfo
  | readFile
  | checkUsernameExists (username : String)
  | addUserToFile (user : NewUser)
  | setItem (requests : List Request)
  | writeFile (requests : List Request)
deriving DecidableEq, Repr

/-- What an operation leaves behind: its value, the store after it, and the
external calls it made, oldest first. -/
structure Outcome (α : Type) where
  result : α
  store : Store
  trace : List Event

/-- An awaited call either completes (`none`) or throws an error whose
`message` is the given string (`some msg`). -/
abbrev Fault := Option String

/-- Behaviour of the storage calls of one `getSignupRequests` call: `true`
means the call throws.  `getItemFails` also covers `JSON.parse` throwing on the
item, `readFileFails` covers `JSON.parse` throwing on the file content. -/
structure ReadEnv where
  getItemFails : Bool
  getInfoFails : Bool
  readFileFails : Bool
deriving DecidableEq, Repr

/-- All storage reads complete. -/
def ReadEnv.ok : ReadEnv :=
  { getItemFails := false, getInfoFails := false, readFileFails := false }

/-- Environment of one `createSignupRequest` call. -/
structure CreateEnv where
  /-- storage behaviour during `getSignupRequestByUsername` (line 23) -/
  lookup : ReadEnv
  /-- outcome of `checkUsernameExists(username)` (lines 29-30): throws, or its value -/
  usernameExists : Except String Bool
  /-- value of `Date.now()` (line 36) -/
  now : Nat
  /-- time value of `new Date()` (line 43) -/
  requestedAt : Nat
  /-- storage behaviour during `getSignupRequests` (line 50) -/
  reload : ReadEnv
  /-- outcome of `AsyncStorage.setItem` (line 52) -/
  setItem : Fault
  /-- outcome of `FileSystem.writeAsStringAsync` (line 56) -/
  writeFile : Fault

/-- Environment of one `approveSignupRequest` call. -/
structure ApproveEnv where
  /-- storage behaviour during `getSignupRequests` (line 125) -/
  read : ReadEnv
  /-- time value of `new Date()` (line 138) -/
  now : Nat
  /-- the value of `new Date().toISOString().split('T')[0]` (line 152) -/
  today : String
  /-- outcome of `addUserToFile(...)` (lines 142-153): throws, or its value -/
  addUser : Except String AddResult
  /-- outcome of `AsyncStorage.setItem` (line 163) -/
  setItem : Fault
  /-- outcome of `FileSystem.writeAsStringAsync` (line 165) -/
  writeFile : Fault

/-- Environment of one `rejectSignupRequest` call. -/
structure RejectEnv where
  /-- storage behaviour during `getSignupRequests` (line 184) -/
  read : ReadEnv
  /-- time value of `new Date()` (line 197) -/
  now : Nat
  /-- outcome of `AsyncStorage.setItem` (line 205) -/
  setItem : Fault
  /-- outcome of `FileSystem.writeAsStringAsync` (line 207) -/
  writeFile : Fault

/-! ## JavaScript helpers -/

/-- JavaScript `!x` on a property holding a string or `undefined`. -/
def falsy : Option String → Bool
  | none => true
  | some s => s == ""

/-- JavaScript `x || d` on a string-or-absent value. -/
def orElse (x : Option String) (d : String) : String :=
  match x with
  | none => d
  | some s => if s == "" then d else s

/-- The comparator of line 93, `new Date(b.requestedAt) - new Date(a.requestedAt)`,
as "the comparator's value is not positive": `a` may stay in front of `b`.
A `NaN` value is treated as `+0` by `Array.prototype.sort`. -/
def newestFirst (a b : Request) : Prop :=
  match a.requestedAt, b.requestedAt with
  | some ta, some tb => tb ≤ ta
  | _, _ => True

instance : DecidableRel newestFirst := fun a b => by
  unfold newestFirst
  cases a.requestedAt <;> cases b.requestedAt <;> infer_instance

/-- The in-place stable sort of line 93. -/
def sortRequests (requests : List Request) : List Request :=
  requests.insertionSort newestFirst

/-- In-place update of the element that `requests.find(p)` returns: the first
element satisfying `p` is replaced by `f` of it, the others stay. -/
def updateFirst (p : Request → Bool) (f : Request → Request) :
    List Request → List Request
  | [] => []
  | r :: rs => if p r then f r :: rs else r :: updateFirst p f rs

/-! ## Reading -/

/-- Lines 73-85 of `getSignupRequests`: the array read from the cache or, when
that is empty, from the mirror, with the storage calls made.  `none` means an
exception was thrown. -/
def loadRequests (s : Store) (env : ReadEnv) : Option (List Request) × List Event :=
  if env.getItemFails then (none, [Event.getItem])
  else
    match s.cache.getD [] with
    | [] =>
      if env.getInfoFails then (none, [Event.getItem, Event.getInfo])
      else
        match s.mirror with
        | none => (some [], [Event.getItem, Event.getInfo])
        | some content =>
          if env.readFileFails then
            (none, [Event.getItem, Event.getInfo, Event.readFile])
          else (some content, [Event.getItem, Event.getInfo, Event.readFile])
    | r :: rs => (some (r :: rs), [Event.getItem])

/-- The array the read path of lines 73-85 yields when no storage call throws:
the cache's array, or the mirror's when the cache is empty. -/
def Store.requests (s : Store) : List Request :=
  match s.cache.getD [] with
  | [] => s.mirror.getD []
  | r :: rs => r :: rs

/-- The status filter of lines 87-90; `none` and the empty string are falsy. -/
def filterStatus (status : Option String) (requests : List Request) : List Request :=
  if falsy status then requests
  else requests.filter (fun req => some req.status == status)

/-- Embedding of `getSignupRequests(status)` (lines 71-100). -/
def getSignupRequests (s : Store) (env : ReadEnv) (status : Option String) :
    Outcome (List Request) :=
  match loadRequests s env with
  | (none, t) => { result := [], store := s, trace := t }
  | (some requests, t) =>
    { result := sortRequests (filterStatus status requests), store := s, trace := t }

/-- Embedding of `getSignupRequestByUsername(username)` (lines 107-115). -/
def getSignupRequestByUsername (s : Store) (env : ReadEnv) (username : String) :
    Outcome (Option Request) :=
  let got := getSignupRequests s env none
  { result := got.result.find? (fun req => req.username == username),
    store := got.store, trace := got.trace }

/-- Embedding of `getPendingSignupCount()` (lines 221-229). -/
def getPendingSignupCount (s : Store) (env : ReadEnv) : Outcome Nat :=
  let got := getSignupRequests s env (some "pending")
  { result := got.result.length, store := got.store, trace := got.trace }

/-! ## Writing -/

/-- The value of a `catch` block: `error.message || fallback`. -/
def caught (msg fallback : String) : Result :=
  { success := false, requestId := none, error := some (orElse (some msg) fallback) }

/-- A `return { success: false, error }`. -/
def failure (msg : String) : Result :=
  { success := false, requestId := none, error := some msg }

/-- The two writes that end each mutating operation (lines 52-56, 163-165,
205-207), followed by the `return` of `done`; a write that throws is caught by
the operation's `catch`, whose fallback message is `fallback`. -/
def persist (s : Store) (trace : List Event) (requests : List Request)
    (setItem writeFile : Fault) (fallback : String) (done : Result) : Outcome Result :=
  match setItem with
  | some msg =>
    { result := caught msg fallback, store := s,
      trace := trace ++ [Event.setItem requests] }
  | none =>
    match writeFile with
    | some msg =>
      { result := caught msg fallback,
        store := { cache := some requests, mirror := s.mirror },
        trace := trace ++ [Event.setItem requests, Event.writeFile requests] }
    | none =>
      { result := done,
        store := { cache := some requests, mirror := some requests },
        trace := trace ++ [Event.setItem requests, Event.writeFile requests] }

/-- The record built at lines 35-47. -/
def newRequest (env : CreateEnv) (username password name email : String)
    (role : Option String) : Request :=
  { id := toString env.now, username := username, password := some password,
    name := name, email := email, role := role.getD "employee",
    status := "pending", requestedAt := some (env.requestedAt : Int),
    approvedAt := none, approvedBy := none, rejectionReason := none,
    department := none, position := none, workMode := none, hireDate := none }

/-- Embedding of `createSignupRequest(userData)` (lines 13-64). -/
def createSignupRequest (s : Store) (env : CreateEnv) (userData : UserData) :
    Outcome Result :=
  match userData.username, userData.password, userData.name, userData.email with
  | some username, some password, some name, some email =>
    if username == "" || password == "" || name == "" || email == "" then
      { result := failure "All fields are required", store := s, trace := [] }
    else
      let existing := getSignupRequestByUsername s env.lookup username
      if existing.result.isSome then
        { result := failure "Username already exists or has a pending request",
          store := s, trace := existing.trace }
      else
        let t1 := existing.trace ++ [Event.checkUsernameExists username]
        match env.usernameExists with
        | Except.error msg =>
          { result := caught msg "Failed to create signup request", store := s, trace := t1 }
        | Except.ok true =>
          { result := failure "Username already exists", store := s, trace := t1 }
        | Except.ok false =>
          let request := newRequest env username password name email userData.role
          let got := getSignupRequests s env.reload none
          persist s (t1 ++ got.trace) (got.result ++ [request]) env.setItem env.writeFile
            "Failed to create signup request"
            { success := true, requestId := some request.id, error := none }
  | _, _, _, _ =>
    { result := failure "All fields are required", store := s, trace := [] }

/-- The assignments of lines 137-139. -/
def markApproved (env : ApproveEnv) (approvedBy : String) (request : Request) : Request :=
  { request with status := "approved", approvedAt := some (env.now : Int),
                 approvedBy := some approvedBy }

/-- The argument of `addUserToFile` at lines 143-153, read from the request
after the assignments of lines 137-139. -/
def newUserOf (env : ApproveEnv) (request : Request) : NewUser :=
  { username := request.username, password := request.password,
    email := request.email, name := request.name, role := request.role,
    department := orElse request.department "",
    position := orElse request.position "",
    workMode := orElse request.workMode "in_office",
    hireDate := orElse request.hireDate env.today }

/-- The record after lines 137-139 and the `delete` of line 160. -/
def approved (env : ApproveEnv) (approvedBy : String) (request : Request) : Request :=
  { markApproved env approvedBy request with password := none }

/-- Embedding of `approveSignupRequest(requestId, approvedBy)` (lines 123-173). -/
def approveSignupRequest (s : Store) (env : ApproveEnv) (requestId approvedBy : String) :
    Outcome Result :=
  let got := getSignupRequests s env.read none
  match got.result.find? (fun req => req.id == requestId) with
  | none => { result := failure "Signup request not found", store := s, trace := got.trace }
  | some request =>
    if request.status != "pending" then
      { result := failure ("Request is already " ++ request.status),
        store := s, trace := got.trace }
    else
      let t1 := got.trace ++
        [Event.addUserToFile (newUserOf env (markApproved env approvedBy request))]
      match env.addUser with
      | Except.error msg =>
        { result := caught msg "Failed to approve signup request", store := s, trace := t1 }
      | Except.ok added =>
        if !added.success then
          { result := failure (orElse added.error "Failed to add user to system"),
            store := s, trace := t1 }
        else
          persist s t1
            (updateFirst (fun req => req.id == requestId) (approved env approvedBy) got.result)
            env.setItem env.writeFile "Failed to approve signup request"
            { success := true, requestId := none, error := none }

/-- The record after lines 196-199 and the `delete` of line 202. -/
def rejected (env : RejectEnv) (rejectedBy reason : String) (request : Request) : Request :=
  { request with status := "rejected", approvedAt := some (env.now : Int),
                 approvedBy := some rejectedBy, rejectionReason := some reason,
                 password := none }

/-- Embedding of `rejectSignupRequest(requestId, rejectedBy, reason)`
(lines 182-215). -/
def rejectSignupRequest (s : Store) (env : RejectEnv) (requestId rejectedBy reason : String) :
    Outcome Result :=
  let got := getSignupRequests s env.read none
  match got.result.find? (fun req => req.id == requestId) with
  | none => { result := failure "Signup request not found", store := s, trace := got.trace }
  | some request =>
    if request.status != "pending" then
      { result := failure ("Request is already " ++ request.status),
        store := s, trace := got.trace }
    else
      persist s got.trace
        (updateFirst (fun req => req.id == requestId) (rejected env rejectedBy reason) got.result)
        env.setItem env.writeFile "Failed to reject signup request"
        { success := true, requestId := none, error := none }

/-! ## Sequences of calls -/

/-- One call of a mutating operation, with its arguments and environment. -/
inductive Call where
  | create (env : CreateEnv) (userData : UserData)
  | approve (env : ApproveEnv) (requestId approvedBy : String)
  | reject (env : RejectEnv) (requestId rejectedBy reason : String)

/-- Executes one call. -/
def Call.exec (s : Store) : Call → Outcome Result
  | Call.create env userData => createSignupRequest s env userData
  | Call.approve env requestId approvedBy => approveSignupRequest s env requestId approvedBy
  | Call.reject env requestId rejectedBy reason =>
    rejectSignupRequest s env requestId rejectedBy reason

/-- The store after executing the calls one after another. -/
def run (s : Store) (calls : List Call) : Store :=
  calls.foldl (fun st c => (c.exec st).store) s

/-- The storage reads of the call complete. -/
def Call.readsWork : Call → Prop
  | Call.create env _ => env.lookup = ReadEnv.ok ∧ env.reload = ReadEnv.ok
  | Call.approve env _ _ => env.read = ReadEnv.ok
  | Call.reject env _ _ _ => env.read = ReadEnv.ok

/-- The storage reads and writes of the call complete. -/
def Call.storageWorks : Call → Prop
  | Call.create env _ =>
    env.lookup = ReadEnv.ok ∧ env.reload = ReadEnv.ok ∧ env.setItem = none ∧ env.writeFile = none
  | Call.approve env _ _ => env.read = ReadEnv.ok ∧ env.setItem = none ∧ env.writeFile = none
  | Call.reject env _ _ _ => env.read = ReadEnv.ok ∧ env.setItem = none ∧ env.writeFile = none

/-! ## Vocabulary of the statements -/

/-- The call writes to a storage layer. -/
def Event.isWrite : Event → Bool
  | Event.setItem _ => true
  | Event.writeFile _ => true
  | _ => false

/-- The environment of the read that gives the array the call goes on to
update and write (for `createSignupRequest`, the read of line 50). -/
def Call.readEnv : Call → ReadEnv
  | Call.create env _ => env.reload
  | Call.approve env _ _ => env.read
  | Call.reject env _ _ _ => env.read

/-- The call is an approval or a rejection of request `requestId`. -/
def Call.resolves (requestId : String) : Call → Prop
  | Call.create _ _ => False
  | Call.approve _ rid _ => rid = requestId
  | Call.reject _ rid _ _ => rid = requestId

/-- A later call that leaves a resolved request `requestId` where it is: any
approval or rejection, and a submission whose re-read of the store (line 50)
completes and whose new id, `Date.now().toString()`, is not `requestId`. -/
def Call.keeps (requestId : String) : Call → Prop
  | Call.create env _ => env.reload = ReadEnv.ok ∧ toString env.now ≠ requestId
  | Call.approve _ _ _ => True
  | Call.reject _ _ _ _ => True

/-- What a call may do to one stored record `r`, giving `r'`: leave every field
as it is, or, for an approval, move it from `'pending'` to `'approved'` and,
for a rejection, from `'pending'` to `'rejected'`. -/
def Call.allows : Call → Request → Request → Prop
  | Call.create _ _, r, r' => r' = r
  | Call.approve _ _ _, r, r' => r' = r ∨ (r.status = "pending" ∧ r'.status = "approved")
  | Call.reject _ _ _ _, r, r' => r' = r ∨ (r.status = "pending" ∧ r'.status = "rejected")

/-- No two records of the cache carry the same username, and no two records
of the mirror do. -/
def UsernamesDistinct (s : Store) : Prop :=
  ((s.cache.getD []).map Request.username).Nodup ∧
    ((s.mirror.getD []).map Request.username).Nodup

/-- Every record of either layer that is approved or rejected has no password. -/
def Scrubbed (s : Store) : Prop :=
  ∀ r, (r ∈ s.cache.getD [] ∨ r ∈ s.mirror.getD []) →
    (r.status = "approved" ∨ r.status = "rejected") → r.password = none

/-- Both records carry a valid `requestedAt` and `a` is not older than `b`. -/
def NotOlder (a b : Request) : Prop :=
  ∃ ta tb : Int, a.requestedAt = some ta ∧ b.requestedAt = some tb ∧ tb ≤ ta

/-- The call asks the Identity Directory whether a username exists. -/
def Event.isCheck : Event → Bool
  | Event.checkUsernameExists _ => true
  | _ => false

/-- The call asks the Identity Directory to create an account. -/
def Event.isAddUser : Event → Bool
  | Event.addUserToFile _ => true
  | _ => false

/-- The outcome of `AsyncStorage.setItem` in the environment of the call. -/
def Call.setItem : Call → Fault
  | Call.create env _ => env.setItem
  | Call.approve env _ _ => env.setItem
  | Call.reject env _ _ _ => env.setItem

/-- The outcome of `FileSystem.writeAsStringAsync` in the environment of the call. -/
def Call.writeFile : Call → Fault
  | Call.create env _ => env.writeFile
  | Call.approve env _ _ => env.writeFile
  | Call.reject env _ _ _ => env.writeFile

/-- The fallback message of the `catch` block of the operation called. -/
def Call.fallback : Call → String
  | Call.create _ _ => "Failed to create signup request"
  | Call.approve _ _ _ => "Failed to approve signup request"
  | Call.reject _ _ _ _ => "Failed to reject signup request"

/-- A read environment in which `AsyncStorage.getItem` throws. -/
def cacheReadFails : ReadEnv :=
  { getItemFails := true, getInfoFails := false, readFileFails := false }

/-- The fields that a resolution leaves alone. -/
def SameIdentity (r r' : Request) : Prop :=
  r'.id = r.id ∧ r'.username = r.username ∧ r'.name = r.name ∧ r'.email = r.email ∧
    r'.role = r.role ∧ r'.requestedAt = r.requestedAt ∧ r'.department = r.department ∧
    r'.position = r.position ∧ r'.workMode = r.workMode ∧ r'.hireDate = r.hireDate

/-- The resolution stamp of a record agrees with its status: `approvedAt` is
`null` exactly when the status is `'pending'`, and so is `approvedBy`. -/
def Stamped (r : Request) : Prop :=
  (r.approvedAt = none ↔ r.status = "pending") ∧ (r.approvedBy = none ↔ r.status = "pending")

/-- Every record of either layer is `Stamped`. -/
def AllStamped (s : Store) : Prop :=
  ∀ r, (r ∈ s.cache.getD [] ∨ r ∈ s.mirror.getD []) → Stamped r

/-- What a call may do to one stored record `r`, giving `r'`: leave every field
as it is, or, for an approval or a rejection, take a pending record without
stamp to the resolved status, stamped with the time and the actor of the
call. -/
def Call.stamps : Call → Request → Request → Prop
  | Call.create _ _, r, r' => r' = r
  | Call.approve env _ actor, r, r' =>
    r' = r ∨ (r.status = "pending" ∧ r.approvedAt = none ∧ r.approvedBy = none ∧
      r'.status = "approved" ∧ r'.approvedAt = some (env.now : Int) ∧ r'.approvedBy = some actor)
  | Call.reject env _ actor _, r, r' =>
    r' = r ∨ (r.status = "pending" ∧ r.approvedAt = none ∧ r.approvedBy = none ∧
      r'.status = "rejected" ∧ r'.approvedAt = some (env.now : Int) ∧ r'.approvedBy = some actor)

/-- The number a string of decimal digits stands for. -/
def decimalValue (l : List Char) : Nat :=
  l.foldl (fun acc c => 10 * acc + (c.toNat - 48)) 0

/-- The value of `Date.now()` that a submission reads; `none` for an approval
or a rejection, which assign no id. -/
def Call.submittedAt : Call → Option Nat
  | Call.create env _ => some env.now
  | Call.approve _ _ _ => none
  | Call.reject _ _ _ _ => none

/-- No two records of the cache carry the same id, and no two records of the
mirror do. -/
def IdsDistinct (s : Store) : Prop :=
  ((s.cache.getD []).map Request.id).Nodup ∧ ((s.mirror.getD []).map Request.id).Nodup

/-- Every id in the store is `Date.now().toString()` for a clock value of `ts`. -/
def IdsFrom (ts : List Nat) (s : Store) : Prop :=
  ∀ r, (r ∈ s.cache.getD [] ∨ r ∈ s.mirror.getD []) → ∃ t ∈ ts, r.id = toString t

/-- `createSignupRequest(userData)` for an argument that may be `null` or
`undefined` (`none`): the destructuring of line 15 then throws a `TypeError`
inside the `try`, whose message is `typeError`, and the `catch` of lines 60-63
returns it. -/
def createSignupRequestOrNull (s : Store) (env : CreateEnv) (typeError : String) :
    Option UserData → Outcome Result
  | none =>
    { result := caught typeError "Failed to create signup request", store := s, trace := [] }
  | some userData => createSignupRequest s env userData

/-- A result that, when it reports a failure, carries a non-empty reason. -/
def HasReason (r : Result) : Prop :=
  r.success = false → ∃ msg, r.error = some msg ∧ msg ≠ ""

/-! ## The two parts of a resolution

An `async` function runs until its next `await` and may be resumed after other
calls have run.  For two resolutions of one request it matters whether the
second reads the store before the first has written; for that the resolutions
are cut at the point between the status guard and the writes. -/

/-- The local variables of a resolution that has read the store, found its
request and passed the status guard (lines 125-134, 184-193), and is suspended
at an `await` before its writes: the array `requests`, the found `request`,
and the calls made so far. -/
structure Suspended where
  requests : List Request
  request : Request
  trace : List Event

/-- Lines 125-134 of `approveSignupRequest`, the same as lines 184-193 of
`rejectSignupRequest`: the read of the store and the two guards.  Either the
operation returns at once, or it goes on with its local variables. -/
def resolveRead (s : Store) (read : ReadEnv) (requestId : String) :
    Outcome Result ⊕ Suspended :=
  let got := getSignupRequests s read none
  match got.result.find? (fun req => req.id == requestId) with
  | none =>
    Sum.inl { result := failure "Signup request not found", store := s, trace := got.trace }
  | some request =>
    if request.status != "pending" then
      Sum.inl { result := failure ("Request is already " ++ request.status),
                store := s, trace := got.trace }
    else Sum.inr { requests := got.result, request := request, trace := got.trace }

/-- Lines 136-168 of `approveSignupRequest`, run on the local variables `k` of
the suspended call against the store `s` as it is when the call resumes. -/
def approveCommit (s : Store) (env : ApproveEnv) (requestId approvedBy : String)
    (k : Suspended) : Outcome Result :=
  let t1 := k.trace ++
    [Event.addUserToFile (newUserOf env (markApproved env approvedBy k.request))]
  match env.addUser with
  | Except.error msg =>
    { result := caught msg "Failed to approve signup request", store := s, trace := t1 }
  | Except.ok added =>
    if !added.success then
      { result := failure (orElse added.error "Failed to add user to system"),
        store := s, trace := t1 }
    else
      persist s t1
        (updateFirst (fun req => req.id == requestId) (approved env approvedBy) k.requests)
        env.setItem env.writeFile "Failed to approve signup request"
        { success := true, requestId := none, error := none }

/-- Lines 195-210 of `rejectSignupRequest`, run on the local variables `k` of
the suspended call against the store `s` as it is when the call resumes. -/
def rejectCommit (s : Store) (env : RejectEnv) (requestId rejectedBy reason : String)
    (k : Suspended) : Outcome Result :=
  persist s k.trace
    (updateFirst (fun req => req.id == requestId) (rejected env rejectedBy reason) k.requests)
    env.setItem env.writeFile "Failed to reject signup request"
    { success := true, requestId := none, error := none }

/-- The directory call of the call, if it makes one, creates the account. -/
def Call.accountCreated : Call → Prop
  | Call.create _ _ => True
  | Call.approve env _ _ => ∃ added, env.addUser = Except.ok added ∧ added.success = true
  | Call.reject _ _ _ _ => True

/-! ## Sample data for the witnesses -/

/-- A complete signup form for `username`. -/
def signupData (username : String) : UserData :=
  { username := some username, password := some "s3cret", name := some "Some Body",
    email := some "somebody@example.org", role := none }

/-- An environment of `createSignupRequest` in which storage works and the
directory answers `known` to `checkUsernameExists`; the clock shows `t`. -/
def createEnv (known : Bool) (t : Nat) : CreateEnv :=
  { lookup := ReadEnv.ok, usernameExists := Except.ok known, now := t, requestedAt := t,
    reload := ReadEnv.ok, setItem := none, writeFile := none }

/-- An environment of `approveSignupRequest` in which storage works and
`addUserToFile` resolves to `added`; the clock shows `t`. -/
def approveEnv (added : AddResult) (t : Nat) : ApproveEnv :=
  { read := ReadEnv.ok, now := t, today := "2024-01-01", addUser := Except.ok added,
    setItem := none, writeFile := none }

/-- An environment of `rejectSignupRequest` in which storage works; the clock
shows `t`. -/
def rejectEnv (t : Nat) : RejectEnv :=
  { read := ReadEnv.ok, now := t, setItem := none, writeFile := none }

/-- The record `createSignupRequest` builds for `username` at time `t`. -/
def signupRecord (username : String) (t : Nat) : Request :=
  newRequest (createEnv false t) username "s3cret" "Some Body" "somebody@example.org" none

/-- The pending record of `aliceStore`. -/
def aliceRequest : Request :=
  newRequest (createEnv false 1000) "alice" "s3cret" "Some Body" "somebody@example.org" none

/-- The store holding one pending request, `alice`, with id `"1000"`. -/
def aliceStore : Store :=
  (createSignupRequest Store.empty (createEnv false 1000) (signupData "alice")).store

/-- The store after `alice` was submitted and approved. -/
def approvedStore : Store :=
  (approveSignupRequest aliceStore (approveEnv { success := true, error := none } 1001)
    "1000" "admin").store

/-- The store after `alice`, `bob` and `carol` signed up at times 1000, 2000
and 3000. -/
def threeStore : Store :=
  run Store.empty
    [Call.create (createEnv false 1000) (signupData "alice"),
     Call.create (createEnv false 2000) (signupData "bob"),
     Call.create (createEnv false 3000) (signupData "carol")]

end SignupRequests

/-! # Address display (`apps/mobile/utils/location.js`)

Strings are given as their sequences of UTF-16 code units, so that `length`,
`lastIndexOf` and `substring` count as in JavaScript. -/

namespace Location

/-- The JavaScript `haystack.lastIndexOf(needle, fromIndex)` for a non-empty
`needle`: the largest index not above `fromIndex` at which `needle` occurs;
`none` stands for -1. -/
def lastIndexOf (haystack needle : List Char) (fromIndex : Nat) : Option Nat :=
  (List.range (fromIndex + 1)).reverse.find? (fun i => needle.isPrefixOf (haystack.drop i))

/-- The break points of line 103. -/
def breakPoints : List (List Char) := [[',', ' '], [' '], ['-']]

/-- The loop of lines 104-112 over the break points still to try.  The argument
`exceeds i m` stands for the floating-point comparison `i > m * 0.7` of line
108, which is false for -1. -/
def bestBreak (exceeds : Nat → Nat → Bool) (address : List Char) (maxLength : Nat) :
    List (List Char) → Nat
  | [] => maxLength
  | breakPoint :: rest =>
    match lastIndexOf address breakPoint maxLength with
    | some lastIndex =>
      if exceeds lastIndex maxLength then lastIndex
      else bestBreak exceeds address maxLength rest
    | none => bestBreak exceeds address maxLength rest

/-- Embedding of `formatAddressForDisplay(address, maxLength)` (lines 95-115)
for a string `address` and a natural number `maxLength`. -/
def formatAddressForDisplay (exceeds : Nat → Nat → Bool) (address : List Char)
    (maxLength : Nat) : List Char :=
  if address.isEmpty then "Location not available".data
  else if address.length ≤ maxLength then address
  else address.take (bestBreak exceeds address maxLength breakPoints) ++ ['.', '.', '.']

end Location

/-! # The similarity threshold (`utils/faceVerification.js`) -/

namespace FaceVerification

/-- The state of the module that the two functions touch: the value of the
binding `SIMILARITY_THRESHOLD` (line 7).  A threshold is only ever compared
with 0 and 1, so a rational number stands for it. -/
structure Module where
  similarityThreshold : ℚ

/-- The module as loaded: `const SIMILARITY_THRESHOLD = 0.6`. -/
def Module.initial : Module := { similarityThreshold := 6 / 10 }

/-- How a call ends: normally, or by throwing a `TypeError`. -/
inductive Completion where
  | normal
  | typeError
deriving DecidableEq, Repr

/-- Embedding of `getSimilarityThreshold()` (lines 276-278). -/
def getSimilarityThreshold (m : Module) : ℚ := m.similarityThreshold

/-- Embedding of `setSimilarityThreshold(threshold)` (lines 284-291).
`SIMILARITY_THRESHOLD` is declared with `const`, so the assignment of line 286
throws a `TypeError` and the binding keeps its value; outside the range the
function only warns. -/
def setSimilarityThreshold (m : Module) (threshold : ℚ) : Completion × Module :=
  if 0 ≤ threshold ∧ threshold ≤ 1 then (Completion.typeError, m)
  else (Completion.normal, m)

end FaceVerification

namespace MigrateUsers

/-! ## The user list parser of `migrateUsers.js`

`parseUsers` of `src/utils/migrateUsers.js` (the copy in
`src/apps/mobile/scripts/migrate-users-to-firebase.mjs` has the same body and
the same table). Strings are worked on as lists of characters; the operations
used here never cut a character in two, so code points stand for code units. -/

/-- The characters that `String.prototype.trim` removes: white space and line
terminators. -/
def isSpace (c : Char) : Bool :=
  c ∈ [' ', '\t', '\n', '\x0b', '\x0c', '\r', '\u00a0', '\u1680', '\u2000', '\u2001',
    '\u2002', '\u2003', '\u2004', '\u2005', '\u2006', '\u2007', '\u2008', '\u2009',
    '\u200a', '\u2028', '\u2029', '\u202f', '\u205f', '\u3000', '\ufeff']

/-- The line terminators, which `.` of a regular expression does not match. -/
def isLineTerminator (c : Char) : Bool := c ∈ ['\n', '\r', '\u2028', '\u2029']

/-- JavaScript `s.trim()` on the characters of `s`. -/
def trimChars (s : List Char) : List Char :=
  ((s.dropWhile isSpace).reverse.dropWhile isSpace).reverse

/-- JavaScript `s.trim()`. -/
def trim (s : String) : String := String.mk (trimChars s.data)

/-- JavaScript `s.split(sep)` for a separator of one character, on the
characters of `s`. -/
def splitChars (sep : Char) : List Char → List (List Char)
  | [] => [[]]
  | c :: cs =>
    if c = sep then [] :: splitChars sep cs
    else
      match splitChars sep cs with
      | [] => [[c]]
      | part :: parts => (c :: part) :: parts

/-- JavaScript `s.split(sep)` for a separator of one character. -/
def split (s : String) (sep : Char) : List String := (splitChars sep s.data).map String.mk

/-- The capture of `.match(/key(.+)/)` on the characters of a string, for a
literal `key`: at the leftmost place where `key` is followed by a character
other than a line terminator, the longest run of such characters. -/
def captureChars (key : List Char) : List Char → Option (List Char)
  | [] => none
  | c :: cs =>
    if key.isPrefixOf (c :: cs) ∧
        ((c :: cs).drop key.length).takeWhile (fun x => !isLineTerminator x) ≠ [] then
      some (((c :: cs).drop key.length).takeWhile (fun x => !isLineTerminator x))
    else captureChars key cs

/-- The first group of `s.match(/key(.+)/)`, `none` when the match is null. -/
def capture (key s : String) : Option String := (captureChars key.data s.data).map String.mk

/-- A character of the class `\w`. -/
def isWordChar (c : Char) : Bool := c.isAlphanum || c = '_'

/-- The replacement `.replace(/\b\w/g, l => l.toUpperCase())`: a word character
that does not follow a word character is put in upper case. -/
def capitalizeWords : Bool → List Char → List Char
  | _, [] => []
  | afterWord, c :: cs =>
    (if isWordChar c && !afterWord then c.toUpper else c) :: capitalizeWords (isWordChar c) cs

/-- The default display name:
`username.replace(/\./g, ' ').replace(/\b\w/g, l => l.toUpperCase())`. -/
def displayName (username : String) : String :=
  String.mk (capitalizeWords false (username.data.map (fun c => if c = '.' then ' ' else c)))

/-- `WORK_MODES.IN_OFFICE`. -/
def IN_OFFICE : String := "in_office"

/-- `WORK_MODES.SEMI_REMOTE`. -/
def SEMI_REMOTE : String := "semi_remote"

/-- `WORK_MODES.FULLY_REMOTE`. -/
def FULLY_REMOTE : String := "fully_remote"

/-- The employee data of a user: an entry of `userEmployeeMap`, or the default
object built by `parseUsers`. -/
structure Employee where
  name : String
  email : String
  role : String
  department : String
  position : String
  workMode : String
  hireDate : String
  deriving DecidableEq, Repr

/-- The own properties of the object `userEmployeeMap`, in source order. -/
def userEmployeeMap : List (String × Employee) := [
  ("testuser",
    { name := "Test User", email := "testuser@company.com", role := "employee",
      department := "Engineering", position := "AI Engineer",
      workMode := IN_OFFICE, hireDate := "2023-01-15" }),
  ("testadmin",
    { name := "Test Admin", email := "testadmin@company.com", role := "super_admin",
      department := "Management", position := "System Administrator",
      workMode := IN_OFFICE, hireDate := "2023-01-01" }),
  ("john.doe",
    { name := "John Doe", email := "john.doe@company.com", role := "employee",
      department := "Engineering", position := "Senior AI Engineer",
      workMode := SEMI_REMOTE, hireDate := "2022-06-10" }),
  ("jane.smith",
    { name := "Jane Smith", email := "jane.smith@company.com", role := "employee",
      department := "Design", position := "UI/UX Designer",
      workMode := FULLY_REMOTE, hireDate := "2022-08-20" }),
  ("mike.johnson",
    { name := "Mike Johnson", email := "mike.johnson@company.com", role := "employee",
      department := "Sales", position := "Sales Manager",
      workMode := IN_OFFICE, hireDate := "2022-03-15" }),
  ("sarah.williams",
    { name := "Sarah Williams", email := "sarah.williams@company.com", role := "employee",
      department := "Marketing", position := "Marketing Specialist",
      workMode := SEMI_REMOTE, hireDate := "2023-02-01" }),
  ("david.brown",
    { name := "David Brown", email := "david.brown@company.com", role := "employee",
      department := "Engineering", position := "DevOps Engineer",
      workMode := FULLY_REMOTE, hireDate := "2022-11-05" }),
  ("emily.davis",
    { name := "Emily Davis", email := "emily.davis@company.com", role := "employee",
      department := "HR", position := "HR Coordinator",
      workMode := IN_OFFICE, hireDate := "2023-04-12" }),
  ("hrmanager",
    { name := "HR Manager", email := "hrmanager@company.com", role := "manager",
      department := "HR", position := "HR Manager",
      workMode := IN_OFFICE, hireDate := "2022-03-01" }),
  ("techmanager",
    { name := "Tech Manager", email := "techmanager@company.com", role := "manager",
      department := "Engineering", position := "Engineering Manager",
      workMode := IN_OFFICE, hireDate := "2022-02-15" }),
  ("salesmanager",
    { name := "Sales Manager", email := "salesmanager@company.com", role := "manager",
      department := "Sales", position := "Sales Manager",
      workMode := IN_OFFICE, hireDate := "2022-01-20" })]

/-- The property names every object literal inherits from `Object.prototype`;
`userEmployeeMap[name]` is a function (or, for `__proto__`, the prototype
itself) for each of them. -/
def inheritedKeys : List String :=
  ["constructor", "__defineGetter__", "__defineSetter__", "hasOwnProperty",
    "__lookupGetter__", "__lookupSetter__", "isPrototypeOf", "propertyIsEnumerable",
    "toString", "valueOf", "__proto__", "toLocaleString"]

/-- An element of the array `parseUsers` returns: `username`, `password`, and
the properties the spread `...employeeData` adds, which are the seven of an
`Employee` or, when `employeeData` is an inherited function, none. -/
structure User where
  username : String
  password : String
  data : Option Employee
  deriving DecidableEq, Repr

/-- The default object of `parseUsers`, `today` being
`new Date().toISOString().split('T')[0]`. -/
def defaultEmployee (today username role : String) : Employee :=
  { name := displayName username, email := username ++ "@company.com", role := role,
    department := "", position := "", workMode := IN_OFFICE, hireDate := today }

/-- What the spread of `userEmployeeMap[username] || { ...defaults }` adds: an
own entry wins; an inherited property is truthy as well and has no enumerable
property of its own; otherwise the default object. -/
def employeeData (today username role : String) : Option Employee :=
  match userEmployeeMap.lookup username with
  | some entry => some entry
  | none => if username ∈ inheritedKeys then none else some (defaultEmployee today username role)

/-- The body of the loop of `parseUsers`: the users that one line adds. -/
def parseLine (today line : String) : List User :=
  if trim line = "" then []
  else
    match split line ',' with
    | part0 :: part1 :: part2 :: _ =>
      match capture "password:" (trim part1), capture "role:" (trim part2) with
      | some password, some role =>
        [{ username := trim part0, password := password,
           data := employeeData today (trim part0) role }]
      | _, _ => []
    | _ => []

/-- `parseUsers(content)`. -/
def parseUsers (today content : String) : List User :=
  (split (trim content) '\n').flatMap (parseLine today)

/-- Whether the first character of `s` is one that `trim` removes. -/
def startsWithSpace (s : String) : Bool :=
  match s.data.head? with
  | some c => isSpace c
  | none => false

/-- Whether the last character of `s` is one that `trim` removes. -/
def endsWithSpace (s : String) : Bool :=
  match s.data.getLast? with
  | some c => isSpace c
  | none => false

/-- The line `u,password:p,role:r` of a user list. -/
def userLine (u p r : String) : String := u ++ ",password:" ++ p ++ ",role:" ++ r

end MigrateUsers

namespace SignupRequests

/-! ## Basic facts about the embedding -/

theorem loadRequests_cases (s : Store) (env : ReadEnv) :
    (loadRequests s env).1 = none ∨ (loadRequests s env).1 = some s.requests := by
  unfold loadRequests Store.requests
  cases env.getItemFails <;> simp
  cases s.cache.getD [] <;> simp
  cases env.getInfoFails <;> simp
  cases s.mirror <;> simp
  cases env.readFileFails <;> simp

theorem loadRequests_ok (s : Store) : (loadRequests s ReadEnv.ok).1 = some s.requests := by
  unfold loadRequests Store.requests ReadEnv.ok
  simp
  cases s.cache.getD [] <;> simp
  cases s.mirror <;> simp

theorem getSignupRequests_store (s : Store) (env : ReadEnv) (status : Option String) :
    (getSignupRequests s env status).store = s := by
  unfold getSignupRequests
  split <;> rfl

theorem getSignupRequests_cases (s : Store) (env : ReadEnv) (status : Option String) :
    (getSignupRequests s env status).result = [] ∨
      (getSignupRequests s env status).result = sortRequests (filterStatus status s.requests) := by
  unfold getSignupRequests
  rcases loadRequests_cases s env with h | h
  · left
    split
    · rfl
    · rename_i heq
      rw [heq] at h
      simp at h
  · right
    split
    · rename_i heq
      rw [heq] at h
      simp at h
    · rename_i heq
      rw [heq] at h
      simp at h
      rw [h]

theorem getSignupRequests_ok (s : Store) (status : Option String) :
    (getSignupRequests s ReadEnv.ok status).result
      = sortRequests (filterStatus status s.requests) := by
  have h := loadRequests_ok s
  unfold getSignupRequests
  split
  · rename_i heq
    rw [heq] at h
    simp at h
  · rename_i heq
    rw [heq] at h
    simp at h
    rw [h]

theorem sortRequests_perm (l : List Request) : (sortRequests l).Perm l :=
  List.perm_insertionSort _ l

theorem mem_sortRequests {r : Request} {l : List Request} : r ∈ sortRequests l ↔ r ∈ l :=
  (sortRequests_perm l).mem_iff

theorem filterStatus_none (l : List Request) : filterStatus none l = l := by
  simp [filterStatus, falsy]

theorem persist_store (s : Store) (t : List Event) (w : List Request) (si wf : Fault)
    (fb : String) (done : Result) :
    (persist s t w si wf fb done).store = s ∨
      (persist s t w si wf fb done).store = { cache := some w, mirror := s.mirror } ∨
      (persist s t w si wf fb done).store = { cache := some w, mirror := some w } := by
  unfold persist
  cases si <;> cases wf <;> simp

theorem updateFirst_map {β : Type} (g : Request → β) (p : Request → Bool)
    (f : Request → Request) (hf : ∀ r, g (f r) = g r) (l : List Request) :
    (updateFirst p f l).map g = l.map g := by
  induction l with
  | nil => rfl
  | cons a l ih =>
    unfold updateFirst
    split
    · simp [hf]
    · simp [ih]

theorem find_updateFirst (p : Request → Bool) (f : Request → Request) (l : List Request)
    (r : Request) (h : l.find? p = some r) (hp : p (f r) = true) :
    (updateFirst p f l).find? p = some (f r) := by
  induction l with
  | nil => simp at h
  | cons a l ih =>
    unfold updateFirst
    by_cases ha : p a = true
    · simp [List.find?, ha] at h
      subst h
      simp [ha, List.find?, hp]
    · simp [List.find?, ha] at h
      simp [ha, List.find?, ih h]

theorem mem_updateFirst {p : Request → Bool} {f : Request → Request} {l : List Request}
    {r' : Request} (h : r' ∈ updateFirst p f l) :
    r' ∈ l ∨ ∃ r ∈ l, p r = true ∧ r' = f r := by
  induction l with
  | nil => simp [updateFirst] at h
  | cons a l ih =>
    unfold updateFirst at h
    by_cases ha : p a = true
    · simp [ha] at h
      rcases h with h | h
      · right
        exact ⟨a, by simp, ha, h⟩
      · left
        simp [h]
    · simp [ha] at h
      rcases h with h | h
      · left
        simp [h]
      · rcases ih h with h1 | ⟨r, hr, hpr, he⟩
        · left
          simp [h1]
        · right
          exact ⟨r, by simp [hr], hpr, he⟩

/-- The store after `createSignupRequest`: untouched, or the reloaded array
with the new record appended was written to the cache (and to the mirror). -/
theorem createSignupRequest_store (s : Store) (env : CreateEnv) (ud : UserData) :
    (createSignupRequest s env ud).store = s ∨
    ∃ u pw n e, ud.username = some u ∧ ud.password = some pw ∧ ud.name = some n ∧
      ud.email = some e ∧ u ≠ "" ∧ pw ≠ "" ∧ n ≠ "" ∧ e ≠ "" ∧
      (getSignupRequestByUsername s env.lookup u).result = none ∧
      ∃ w, w = (getSignupRequests s env.reload none).result ++ [newRequest env u pw n e ud.role] ∧
        ((createSignupRequest s env ud).store = { cache := some w, mirror := s.mirror } ∨
         (createSignupRequest s env ud).store = { cache := some w, mirror := some w }) := by
  unfold createSignupRequest
  cases hu : ud.username <;> cases hpw : ud.password <;> cases hn : ud.name <;>
    cases he : ud.email <;> try (left; rfl)
  rename_i u pw n e
  dsimp only
  by_cases hne : (u == "" || pw == "" || n == "" || e == "") = true
  · left; rw [if_pos hne]
  · rw [if_neg hne]
    simp only [Bool.or_eq_true, beq_iff_eq, not_or] at hne
    by_cases hex : (getSignupRequestByUsername s env.lookup u).result.isSome = true
    · left; rw [if_pos hex]
    · rw [if_neg hex]
      cases hd : env.usernameExists with
      | error msg => left; rfl
      | ok b =>
        cases b with
        | true => left; rfl
        | false =>
          dsimp only
          rcases persist_store s
            ((getSignupRequestByUsername s env.lookup u).trace ++ [Event.checkUsernameExists u]
              ++ (getSignupRequests s env.reload none).trace)
            ((getSignupRequests s env.reload none).result ++ [newRequest env u pw n e ud.role])
            env.setItem env.writeFile "Failed to create signup request"
            { success := true, requestId := some (newRequest env u pw n e ud.role).id,
              error := none } with h | h | h
          · left; exact h
          · right
            refine ⟨u, pw, n, e, rfl, rfl, rfl, rfl, hne.1.1.1, hne.1.1.2, hne.1.2, hne.2, ?_, _,
              rfl, Or.inl h⟩
            simpa using hex
          · right
            refine ⟨u, pw, n, e, rfl, rfl, rfl, rfl, hne.1.1.1, hne.1.1.2, hne.1.2, hne.2, ?_, _,
              rfl, Or.inr h⟩
            simpa using hex

/-- The store after `approveSignupRequest`: untouched, or the array read, with
the found pending record replaced by its approved form, was written. -/
theorem approveSignupRequest_store (s : Store) (env : ApproveEnv) (rid by_ : String) :
    (approveSignupRequest s env rid by_).store = s ∨
    ∃ r, (getSignupRequests s env.read none).result.find? (fun req => req.id == rid) = some r ∧
      r.status = "pending" ∧
      ∃ w, w = updateFirst (fun req => req.id == rid) (approved env by_)
            (getSignupRequests s env.read none).result ∧
        ((approveSignupRequest s env rid by_).store = { cache := some w, mirror := s.mirror } ∨
         (approveSignupRequest s env rid by_).store = { cache := some w, mirror := some w }) := by
  unfold approveSignupRequest
  simp only
  split
  · left; rfl
  · rename_i r hr
    split
    · left; rfl
    · rename_i hst
      simp only [bne_iff_ne, ne_eq, Decidable.not_not] at hst
      split
      · left; rfl
      · split
        · left; rfl
        · rename_i added _
          rcases persist_store s
            ((getSignupRequests s env.read none).trace ++
              [Event.addUserToFile (newUserOf env (markApproved env by_ r))])
            (updateFirst (fun req => req.id == rid) (approved env by_)
              (getSignupRequests s env.read none).result)
            env.setItem env.writeFile "Failed to approve signup request"
            { success := true, requestId := none, error := none } with h | h | h
          · left; exact h
          · right; exact ⟨r, hr, hst, _, rfl, Or.inl h⟩
          · right; exact ⟨r, hr, hst, _, rfl, Or.inr h⟩

/-- The store after `rejectSignupRequest`: untouched, or the array read, with
the found pending record replaced by its rejected form, was written. -/
theorem rejectSignupRequest_store (s : Store) (env : RejectEnv) (rid by_ reason : String) :
    (rejectSignupRequest s env rid by_ reason).store = s ∨
    ∃ r, (getSignupRequests s env.read none).result.find? (fun req => req.id == rid) = some r ∧
      r.status = "pending" ∧
      ∃ w, w = updateFirst (fun req => req.id == rid) (rejected env by_ reason)
            (getSignupRequests s env.read none).result ∧
        ((rejectSignupRequest s env rid by_ reason).store = { cache := some w, mirror := s.mirror } ∨
         (rejectSignupRequest s env rid by_ reason).store = { cache := some w, mirror := some w }) := by
  unfold rejectSignupRequest
  simp only
  split
  · left; rfl
  · rename_i r hr
    split
    · left; rfl
    · rename_i hst
      simp only [bne_iff_ne, ne_eq, Decidable.not_not] at hst
      rcases persist_store s (getSignupRequests s env.read none).trace
        (updateFirst (fun req => req.id == rid) (rejected env by_ reason)
          (getSignupRequests s env.read none).result)
        env.setItem env.writeFile "Failed to reject signup request"
        { success := true, requestId := none, error := none } with h | h | h
      · left; exact h
      · right; exact ⟨r, hr, hst, _, rfl, Or.inl h⟩
      · right; exact ⟨r, hr, hst, _, rfl, Or.inr h⟩

/-! ## Uniqueness of usernames -/

theorem requests_eq_cache_or_mirror (s : Store) :
    s.requests = s.cache.getD [] ∨ s.requests = s.mirror.getD [] := by
  unfold Store.requests
  cases h : s.cache.getD [] <;> simp

theorem UsernamesDistinct.requests {s : Store} (h : UsernamesDistinct s) :
    (s.requests.map Request.username).Nodup := by
  rcases requests_eq_cache_or_mirror s with e | e <;> rw [e]
  · exact h.1
  · exact h.2

theorem read_nodup (s : Store) (env : ReadEnv) (h : UsernamesDistinct s) :
    (((getSignupRequests s env none).result).map Request.username).Nodup := by
  rcases getSignupRequests_cases s env none with e | e <;> rw [e]
  · simp
  · rw [filterStatus_none]
    exact ((sortRequests_perm s.requests).map _).nodup_iff.mpr h.requests

theorem usernamesDistinct_of_written {s s' : Store} {w : List Request}
    (h : UsernamesDistinct s) (hw : (w.map Request.username).Nodup)
    (hs : s' = { cache := some w, mirror := s.mirror } ∨ s' = { cache := some w, mirror := some w }) :
    UsernamesDistinct s' := by
  rcases hs with e | e <;> subst e
  · exact ⟨by simpa using hw, h.2⟩
  · exact ⟨by simpa using hw, by simpa using hw⟩

theorem exec_usernamesDistinct (s : Store) (c : Call) (hc : c.readsWork)
    (h : UsernamesDistinct s) : UsernamesDistinct (c.exec s).store := by
  cases c with
  | create env ud =>
    obtain ⟨hl, hr⟩ := hc
    rcases createSignupRequest_store s env ud with e | ⟨u, pw, n, e, _, _, _, _, _, _, _, _, hnone, w, hw, hs⟩
    · simp only [Call.exec]; rw [e]; exact h
    · refine usernamesDistinct_of_written h ?_ hs
      subst hw
      rw [List.map_append, List.nodup_append]
      refine ⟨read_nodup s _ h, by simp, ?_⟩
      simp only [getSignupRequestByUsername, hl, hr] at hnone ⊢
      rw [List.find?_eq_none] at hnone
      intro a ha hb
      simp only [List.map_cons, List.map_nil, List.mem_singleton] at hb
      rw [List.mem_map] at ha
      obtain ⟨r, hr1, hr2⟩ := ha
      have := hnone r hr1
      simp [newRequest] at hb
      simp [hr2, hb] at this
  | approve env rid by_ =>
    rcases approveSignupRequest_store s env rid by_ with e | ⟨r, _, _, w, hw, hs⟩
    · simp only [Call.exec]; rw [e]; exact h
    · refine usernamesDistinct_of_written h ?_ hs
      subst hw
      rw [updateFirst_map Request.username _ (approved env by_) (fun _ => rfl)]
      exact read_nodup s _ h
  | reject env rid by_ reason =>
    rcases rejectSignupRequest_store s env rid by_ reason with e | ⟨r, _, _, w, hw, hs⟩
    · simp only [Call.exec]; rw [e]; exact h
    · refine usernamesDistinct_of_written h ?_ hs
      subst hw
      rw [updateFirst_map Request.username _ (rejected env by_ reason) (fun _ => rfl)]
      exact read_nodup s _ h

theorem run_usernamesDistinct (calls : List Call) (s : Store) (hc : ∀ c ∈ calls, c.readsWork)
    (h : UsernamesDistinct s) : UsernamesDistinct (run s calls) := by
  induction calls generalizing s with
  | nil => exact h
  | cons c cs ih =>
    simp only [run, List.foldl_cons]
    exact ih _ (fun c' hc' => hc c' (by simp [hc'])) (exec_usernamesDistinct s c (hc c (by simp)) h)

theorem countP_le_one_of_nodup (l : List Request) (u : String) (q : Request → Bool)
    (h : (l.map Request.username).Nodup) :
    l.countP (fun r => r.username == u && q r) ≤ 1 := by
  induction l with
  | nil => simp
  | cons a l ih =>
    simp only [List.map_cons, List.nodup_cons] at h
    rw [List.countP_cons]
    by_cases ha : a.username = u
    · have : l.countP (fun r => r.username == u && q r) = 0 := by
        rw [List.countP_eq_zero]
        intro r hr
        have : r.username ≠ u := by
          intro e
          exact h.1 (by rw [ha, ← e]; exact List.mem_map_of_mem _ hr)
        simp [this]
      rw [this]
      split <;> simp
    · have := ih h.2
      simp [ha]
      exact this

/-- When every storage read completes: in every state reached from the empty
store by a sequence of `createSignupRequest`, `approveSignupRequest` and
`rejectSignupRequest` calls executed one after another, for every username `U`
at most one stored request has username `U` and status `'pending'`: in the
array a read yields, in the cache and in the mirror. -/
theorem pending_request_unique_per_username (calls : List Call)
    (hreads : ∀ c ∈ calls, c.readsWork) (U : String) :
    (run Store.empty calls).requests.countP
        (fun r => r.username == U && r.status == "pending") ≤ 1 ∧
    ((run Store.empty calls).cache.getD []).countP
        (fun r => r.username == U && r.status == "pending") ≤ 1 ∧
    ((run Store.empty calls).mirror.getD []).countP
        (fun r => r.username == U && r.status == "pending") ≤ 1 := by
  have h : UsernamesDistinct (run Store.empty calls) :=
    run_usernamesDistinct calls Store.empty hreads (by simp [UsernamesDistinct, Store.empty])
  exact ⟨countP_le_one_of_nodup _ U _ h.requests, countP_le_one_of_nodup _ U _ h.1,
    countP_le_one_of_nodup _ U _ h.2⟩

/-- An instance of the uniqueness of pending requests: two submissions for
`alice` followed by the rejection of the first. -/
theorem pending_request_unique_per_username_witness :
    (∀ c ∈ [Call.create (createEnv false 1000) (signupData "alice"),
            Call.create (createEnv false 1001) (signupData "alice"),
            Call.reject (rejectEnv 1002) "1000" "admin" "duplicate"], c.readsWork) ∧
    ((run Store.empty
        [Call.create (createEnv false 1000) (signupData "alice"),
         Call.create (createEnv false 1001) (signupData "alice"),
         Call.reject (rejectEnv 1002) "1000" "admin" "duplicate"]).requests.countP
        (fun r => r.username == "alice" && r.status == "pending") ≤ 1 ∧
     ((run Store.empty
        [Call.create (createEnv false 1000) (signupData "alice"),
         Call.create (createEnv false 1001) (signupData "alice"),
         Call.reject (rejectEnv 1002) "1000" "admin" "duplicate"]).cache.getD []).countP
        (fun r => r.username == "alice" && r.status == "pending") ≤ 1 ∧
     ((run Store.empty
        [Call.create (createEnv false 1000) (signupData "alice"),
         Call.create (createEnv false 1001) (signupData "alice"),
         Call.reject (rejectEnv 1002) "1000" "admin" "duplicate"]).mirror.getD []).countP
        (fun r => r.username == "alice" && r.status == "pending") ≤ 1) :=
  have h : ∀ c ∈ [Call.create (createEnv false 1000) (signupData "alice"),
            Call.create (createEnv false 1001) (signupData "alice"),
            Call.reject (rejectEnv 1002) "1000" "admin" "duplicate"], c.readsWork := by
    intro c hc
    simp only [List.mem_cons, List.mem_singleton, List.not_mem_nil, or_false] at hc
    rcases hc with rfl | rfl | rfl <;> simp [Call.readsWork, createEnv, rejectEnv]
  ⟨h, pending_request_unique_per_username _ h "alice"⟩

/-! ## Erasure of the password -/

theorem mem_requests {s : Store} {r : Request} (h : r ∈ s.requests) :
    r ∈ s.cache.getD [] ∨ r ∈ s.mirror.getD [] := by
  rcases requests_eq_cache_or_mirror s with e | e <;> rw [e] at h
  · exact Or.inl h
  · exact Or.inr h

theorem mem_read {s : Store} {env : ReadEnv} {r : Request}
    (h : r ∈ (getSignupRequests s env none).result) :
    r ∈ s.cache.getD [] ∨ r ∈ s.mirror.getD [] := by
  rcases getSignupRequests_cases s env none with e | e <;> rw [e] at h
  · simp at h
  · rw [filterStatus_none, mem_sortRequests] at h
    exact mem_requests h

theorem scrubbed_of_written {s s' : Store} {w : List Request} (h : Scrubbed s)
    (hw : ∀ r ∈ w, (r.status = "approved" ∨ r.status = "rejected") → r.password = none)
    (hs : s' = { cache := some w, mirror := s.mirror } ∨ s' = { cache := some w, mirror := some w }) :
    Scrubbed s' := by
  rcases hs with e | e <;> subst e
  · intro r hr hst
    rcases hr with hr | hr
    · exact hw r (by simpa using hr) hst
    · exact h r (Or.inr hr) hst
  · intro r hr hst
    exact hw r (by simpa using hr) hst

theorem exec_scrubbed (s : Store) (c : Call) (h : Scrubbed s) : Scrubbed (c.exec s).store := by
  cases c with
  | create env ud =>
    rcases createSignupRequest_store s env ud with e | ⟨u, pw, n, e, _, _, _, _, _, _, _, _, _, w, hw, hs⟩
    · simp only [Call.exec]; rw [e]; exact h
    · refine scrubbed_of_written h ?_ hs
      subst hw
      intro r hr hst
      rw [List.mem_append, List.mem_singleton] at hr
      rcases hr with hr | hr
      · exact h r (mem_read hr) hst
      · subst hr
        simp [newRequest] at hst
  | approve env rid by_ =>
    rcases approveSignupRequest_store s env rid by_ with e | ⟨r, _, _, w, hw, hs⟩
    · simp only [Call.exec]; rw [e]; exact h
    · refine scrubbed_of_written h ?_ hs
      subst hw
      intro r' hr hst
      rcases mem_updateFirst hr with hr | ⟨r0, _, _, he⟩
      · exact h r' (mem_read hr) hst
      · subst he
        rfl
  | reject env rid by_ reason =>
    rcases rejectSignupRequest_store s env rid by_ reason with e | ⟨r, _, _, w, hw, hs⟩
    · simp only [Call.exec]; rw [e]; exact h
    · refine scrubbed_of_written h ?_ hs
      subst hw
      intro r' hr hst
      rcases mem_updateFirst hr with hr | ⟨r0, _, _, he⟩
      · exact h r' (mem_read hr) hst
      · subst he
        rfl

theorem run_scrubbed (calls : List Call) (s : Store) (h : Scrubbed s) :
    Scrubbed (run s calls) := by
  induction calls generalizing s with
  | nil => exact h
  | cons c cs ih =>
    simp only [run, List.foldl_cons]
    exact ih _ (exec_scrubbed s c h)

/-- C5. In every state reached from the empty store by
`createSignupRequest`, `approveSignupRequest` and `rejectSignupRequest` calls
(whatever the storage and directory calls do), every record of the cache and
of the mirror whose status is `'approved'` or `'rejected'` has no password
field. -/
theorem resolved_requests_hold_no_password (calls : List Call) (r : Request)
    (hr : r ∈ (run Store.empty calls).cache.getD [] ∨ r ∈ (run Store.empty calls).mirror.getD [])
    (hst : r.status = "approved" ∨ r.status = "rejected") : r.password = none :=
  run_scrubbed calls Store.empty (by intro r hr; simp [Store.empty] at hr) r hr hst

/-- Witness for C5: `alice` signs up and is approved; the approved record, held
in the cache, has no password. -/
theorem resolved_requests_hold_no_password_witness :
    (approved (approveEnv { success := true, error := none } 1001) "admin" aliceRequest
      ∈ (run Store.empty
          [Call.create (createEnv false 1000) (signupData "alice"),
           Call.approve (approveEnv { success := true, error := none } 1001)
             "1000" "admin"]).cache.getD []) ∧
    (approved (approveEnv { success := true, error := none } 1001) "admin" aliceRequest).status
      = "approved" ∧
    (approved (approveEnv { success := true, error := none } 1001) "admin" aliceRequest).password
      = none :=
  have hmem : approved (approveEnv { success := true, error := none } 1001) "admin" aliceRequest
      ∈ (run Store.empty
          [Call.create (createEnv false 1000) (signupData "alice"),
           Call.approve (approveEnv { success := true, error := none } 1001)
             "1000" "admin"]).cache.getD [] := by
    decide
  ⟨hmem, rfl,
    resolved_requests_hold_no_password
      [Call.create (createEnv false 1000) (signupData "alice"),
       Call.approve (approveEnv { success := true, error := none } 1001) "1000" "admin"]
      _ (Or.inl hmem) (Or.inl rfl)⟩

/-! ## Traces and the sort -/

theorem loadRequests_trace (s : Store) (env : ReadEnv) :
    ∀ ev ∈ (loadRequests s env).2, ev.isWrite = false := by
  unfold loadRequests
  cases env.getItemFails <;> simp [Event.isWrite]
  cases s.cache.getD [] <;> simp [Event.isWrite]
  cases env.getInfoFails <;> simp [Event.isWrite]
  cases s.mirror <;> simp [Event.isWrite]
  cases env.readFileFails <;> simp [Event.isWrite]

theorem getSignupRequests_trace (s : Store) (env : ReadEnv) (status : Option String) :
    (getSignupRequests s env status).trace = (loadRequests s env).2 := by
  unfold getSignupRequests
  split <;> (rename_i heq; rw [heq])

theorem getSignupRequests_no_write (s : Store) (env : ReadEnv) (status : Option String) :
    ∀ ev ∈ (getSignupRequests s env status).trace, ev.isWrite = false := by
  rw [getSignupRequests_trace]
  exact loadRequests_trace s env

/-! ### The sort is idempotent -/

theorem newestFirst_total (a b : Request) : newestFirst a b ∨ newestFirst b a := by
  unfold newestFirst
  cases a.requestedAt <;> cases b.requestedAt <;> simp
  exact le_total _ _

theorem head?_orderedInsert (a : Request) (l : List Request) :
    (l.orderedInsert newestFirst a).head? = some a ∨
      ((l.orderedInsert newestFirst a).head? = l.head? ∧
        ∃ b, l.head? = some b ∧ ¬ newestFirst a b) := by
  cases l with
  | nil => left; rfl
  | cons b l =>
    rw [List.orderedInsert]
    by_cases h : newestFirst a b
    · left; simp [h]
    · right; simp [h]

theorem chain'_orderedInsert (a : Request) (l : List Request)
    (h : l.Chain' newestFirst) : (l.orderedInsert newestFirst a).Chain' newestFirst := by
  induction l with
  | nil => simp
  | cons b l ih =>
    rw [List.orderedInsert]
    by_cases hab : newestFirst a b
    · simp only [hab, if_true]
      exact List.Chain'.cons hab h
    · simp only [hab, if_false]
      rw [List.chain'_cons'] at h ⊢
      refine ⟨?_, ih h.2⟩
      intro y hy
      rcases head?_orderedInsert a l with e | ⟨e, _⟩
      · rw [e] at hy
        simp only [Option.mem_def, Option.some.injEq] at hy
        subst hy
        exact (newestFirst_total a b).resolve_left hab
      · rw [e] at hy
        exact h.1 y hy

theorem chain'_sortRequests (l : List Request) : (sortRequests l).Chain' newestFirst := by
  induction l with
  | nil => simp [sortRequests]
  | cons a l ih => exact chain'_orderedInsert a _ ih

theorem sortRequests_of_chain' (l : List Request) (h : l.Chain' newestFirst) :
    sortRequests l = l := by
  induction l with
  | nil => rfl
  | cons a l ih =>
    rw [List.chain'_cons'] at h
    show (sortRequests l).orderedInsert newestFirst a = a :: l
    rw [ih h.2]
    cases l with
    | nil => rfl
    | cons b l =>
      have hab : newestFirst a b := h.1 b (by simp)
      simp [List.orderedInsert, hab]

theorem chain'_updateFirst (p : Request → Bool) (f : Request → Request)
    (hf : ∀ r, (f r).requestedAt = r.requestedAt) (l : List Request)
    (h : l.Chain' newestFirst) : (updateFirst p f l).Chain' newestFirst := by
  have key : ∀ l : List Request, l.Chain' newestFirst ↔
      (l.map Request.requestedAt).Chain'
        (fun x y => match x, y with
          | some ta, some tb => tb ≤ ta
          | _, _ => True) := fun l =>
    (List.chain'_map (R := fun x y => match x, y with
          | some ta, some tb => tb ≤ ta
          | _, _ => True) Request.requestedAt).symm
  rw [key] at h ⊢
  rwa [updateFirst_map Request.requestedAt p f hf]

theorem read_chain' (s : Store) (env : ReadEnv) :
    (getSignupRequests s env none).result.Chain' newestFirst := by
  rcases getSignupRequests_cases s env none with e | e <;> rw [e]
  · simp
  · exact chain'_sortRequests _

/-! ## Refusals -/

theorem getSignupRequestByUsername_ok (s : Store) (u : String) :
    (getSignupRequestByUsername s ReadEnv.ok u).result
      = (sortRequests s.requests).find? (fun req => req.username == u) := by
  simp only [getSignupRequestByUsername, getSignupRequests_ok, filterStatus_none]

theorem getSignupRequestByUsername_trace (s : Store) (env : ReadEnv) (u : String) :
    (getSignupRequestByUsername s env u).trace = (getSignupRequests s env none).trace := rfl

/-- When the lookup read completes: for every store that holds a request with
username `U` and status `'pending'`, `createSignupRequest` called with username
`U` (password, name and email present) returns `success: false` with the
error `'Username already exists or has a pending request'`, leaves the cache
and the mirror unchanged and makes no storage write. -/
theorem create_refused_while_pending (s : Store) (env : CreateEnv) (userData : UserData)
    (U password name email : String)
    (hu : userData.username = some U) (hp : userData.password = some password)
    (hn : userData.name = some name) (he : userData.email = some email)
    (hpresent : U ≠ "" ∧ password ≠ "" ∧ name ≠ "" ∧ email ≠ "")
    (hread : env.lookup = ReadEnv.ok)
    (hpending : ∃ r ∈ s.requests, r.username = U ∧ r.status = "pending") :
    (createSignupRequest s env userData).result
        = { success := false, requestId := none,
            error := some "Username already exists or has a pending request" } ∧
      (createSignupRequest s env userData).store = s ∧
      ∀ ev ∈ (createSignupRequest s env userData).trace, ev.isWrite = false := by
  obtain ⟨r, hr, hru, _⟩ := hpending
  have hsome : (getSignupRequestByUsername s env.lookup U).result.isSome = true := by
    rw [hread, getSignupRequestByUsername_ok, List.find?_isSome]
    exact ⟨r, mem_sortRequests.mpr hr, by simp [hru]⟩
  have hne : ¬ ((U == "" || password == "" || name == "" || email == "") = true) := by
    simp [hpresent.1, hpresent.2.1, hpresent.2.2.1, hpresent.2.2.2]
  unfold createSignupRequest
  rw [hu, hp, hn, he]
  dsimp only
  rw [if_neg hne, if_pos hsome]
  refine ⟨rfl, rfl, ?_⟩
  exact getSignupRequests_no_write s env.lookup none

/-- An instance of the refusal: a second submission for `alice` while the first
is pending. -/
theorem create_refused_while_pending_witness :
    (∃ r ∈ (createSignupRequest Store.empty (createEnv false 1000) (signupData "alice")).store.requests,
        r.username = "alice" ∧ r.status = "pending") ∧
    ((createSignupRequest
        (createSignupRequest Store.empty (createEnv false 1000) (signupData "alice")).store
        (createEnv false 1001) (signupData "alice")).result
        = { success := false, requestId := none,
            error := some "Username already exists or has a pending request" } ∧
      (createSignupRequest
        (createSignupRequest Store.empty (createEnv false 1000) (signupData "alice")).store
        (createEnv false 1001) (signupData "alice")).store
        = (createSignupRequest Store.empty (createEnv false 1000) (signupData "alice")).store ∧
      ∀ ev ∈ (createSignupRequest
        (createSignupRequest Store.empty (createEnv false 1000) (signupData "alice")).store
        (createEnv false 1001) (signupData "alice")).trace, ev.isWrite = false) :=
  have h : ∃ r ∈ (createSignupRequest Store.empty (createEnv false 1000)
      (signupData "alice")).store.requests, r.username = "alice" ∧ r.status = "pending" :=
    ⟨newRequest (createEnv false 1000) "alice" "s3cret" "Some Body" "somebody@example.org" none,
      by decide, rfl, rfl⟩
  ⟨h, create_refused_while_pending _ (createEnv false 1001) (signupData "alice")
    "alice" "s3cret" "Some Body" "somebody@example.org" rfl rfl rfl rfl
    (by decide) rfl h⟩

/-- C6. For every store and every id under which a pending request `r` is
found: if `addUserToFile` resolves to `success: false` during
`approveSignupRequest`, the operation returns `success: false` with
`addResult.error || 'Failed to add user to system'`, which is the directory's
error whenever it reports a non-empty one; the cache and the mirror are
unchanged and no write is made, so the request found under the id is still
`r`, pending and with its password. -/
theorem approve_fails_when_account_creation_fails (s : Store) (env : ApproveEnv)
    (requestId approvedBy : String) (r : Request) (e : Option String)
    (hread : env.read = ReadEnv.ok)
    (hfind : (getSignupRequests s ReadEnv.ok none).result.find?
        (fun req => req.id == requestId) = some r)
    (hpending : r.status = "pending")
    (hadd : env.addUser = Except.ok { success := false, error := e }) :
    (approveSignupRequest s env requestId approvedBy).result.success = false ∧
      (approveSignupRequest s env requestId approvedBy).result.error
        = some (orElse e "Failed to add user to system") ∧
      (∀ msg, e = some msg → msg ≠ "" →
        (approveSignupRequest s env requestId approvedBy).result.error = some msg) ∧
      (approveSignupRequest s env requestId approvedBy).store = s ∧
      (getSignupRequests (approveSignupRequest s env requestId approvedBy).store
        ReadEnv.ok none).result.find? (fun req => req.id == requestId) = some r ∧
      (∀ ev ∈ (approveSignupRequest s env requestId approvedBy).trace, ev.isWrite = false) ∧
      Event.addUserToFile (newUserOf env (markApproved env approvedBy r))
        ∈ (approveSignupRequest s env requestId approvedBy).trace := by
  have hst : ¬ ((r.status != "pending") = true) := by simp [hpending]
  have hout : approveSignupRequest s env requestId approvedBy =
      { result := failure (orElse e "Failed to add user to system"), store := s,
        trace := (getSignupRequests s ReadEnv.ok none).trace ++
          [Event.addUserToFile (newUserOf env (markApproved env approvedBy r))] } := by
    unfold approveSignupRequest
    rw [hread]
    simp only [hfind, hadd]
    rw [if_neg hst]
    simp
  rw [hout]
  refine ⟨rfl, rfl, ?_, rfl, hfind, ?_, by simp⟩
  · intro msg hm hne
    subst hm
    simp [failure, orElse, hne]
  · intro ev hev
    simp only [List.mem_append, List.mem_singleton] at hev
    rcases hev with hev | hev
    · exact getSignupRequests_no_write s _ _ ev hev
    · subst hev
      rfl

/-! ## Resolved requests stay resolved -/

theorem persist_success (s : Store) (t : List Event) (w : List Request) (si wf : Fault)
    (fb : String) (done : Result)
    (h : (persist s t w si wf fb done).result.success = true) :
    si = none ∧ wf = none ∧
      (persist s t w si wf fb done).store = { cache := some w, mirror := some w } := by
  unfold persist at h ⊢
  cases si with
  | some m => simp [caught] at h
  | none =>
    cases wf with
    | some m => simp [caught] at h
    | none => simp

/-- A successful `approveSignupRequest` found a pending record and wrote the
updated array to both layers. -/
theorem approveSignupRequest_success (s : Store) (env : ApproveEnv) (rid by_ : String)
    (h : (approveSignupRequest s env rid by_).result.success = true) :
    ∃ r, (getSignupRequests s env.read none).result.find? (fun req => req.id == rid) = some r ∧
      r.status = "pending" ∧
      (approveSignupRequest s env rid by_).store =
        { cache := some (updateFirst (fun req => req.id == rid) (approved env by_)
            (getSignupRequests s env.read none).result),
          mirror := some (updateFirst (fun req => req.id == rid) (approved env by_)
            (getSignupRequests s env.read none).result) } := by
  unfold approveSignupRequest at h ⊢
  cases hfind : (getSignupRequests s env.read none).result.find? (fun req => req.id == rid) with
  | none => simp [hfind, failure] at h
  | some r =>
    simp only [hfind] at h ⊢
    by_cases hst : (r.status != "pending") = true
    · simp [hst, failure] at h
    · rw [if_neg hst] at h ⊢
      cases hadd : env.addUser with
      | error msg => simp [hadd, caught] at h
      | ok added =>
        simp only [hadd] at h ⊢
        by_cases hs : (!added.success) = true
        · simp [hs, failure] at h
        · rw [if_neg hs] at h ⊢
          refine ⟨r, rfl, by simpa using hst, ?_⟩
          exact (persist_success _ _ _ _ _ _ _ h).2.2

theorem requests_of_written (w : List Request) (m : Option (List Request)) (hw : w ≠ []) :
    ({ cache := some w, mirror := m } : Store).requests = w := by
  unfold Store.requests
  cases w with
  | nil => exact absurd rfl hw
  | cons a l => rfl

/-- Reading back an array written by a resolution returns it as it is. -/
theorem read_written (s : Store) (env : ReadEnv) (p : Request → Bool) (f : Request → Request)
    (hf : ∀ r, (f r).requestedAt = r.requestedAt) (m : Option (List Request))
    (r : Request) (hfind : (getSignupRequests s env none).result.find? p = some r) :
    (getSignupRequests
        { cache := some (updateFirst p f (getSignupRequests s env none).result), mirror := m }
        ReadEnv.ok none).result
      = updateFirst p f (getSignupRequests s env none).result := by
  have hne : updateFirst p f (getSignupRequests s env none).result ≠ [] := by
    intro e
    have h1 := congrArg (List.map Request.requestedAt) e
    rw [updateFirst_map Request.requestedAt p f hf] at h1
    simp only [List.map_nil, List.map_eq_nil_iff] at h1
    rw [h1] at hfind
    simp at hfind
  rw [getSignupRequests_ok, filterStatus_none, requests_of_written _ _ hne]
  exact sortRequests_of_chain' _ (chain'_updateFirst p f hf _ (read_chain' s env))

theorem approveSignupRequest_resolved (s : Store) (env : ApproveEnv) (rid by_ : String)
    (r : Request) (hread : env.read = ReadEnv.ok)
    (hfind : (getSignupRequests s ReadEnv.ok none).result.find?
      (fun req => req.id == rid) = some r)
    (hst : r.status ≠ "pending") :
    (approveSignupRequest s env rid by_).result = failure ("Request is already " ++ r.status) ∧
      (approveSignupRequest s env rid by_).store = s := by
  have hb : (r.status != "pending") = true := by simpa using hst
  unfold approveSignupRequest
  rw [hread]
  simp only [hfind]
  rw [if_pos hb]
  exact ⟨rfl, rfl⟩

theorem rejectSignupRequest_resolved (s : Store) (env : RejectEnv) (rid by_ reason : String)
    (r : Request) (hread : env.read = ReadEnv.ok)
    (hfind : (getSignupRequests s ReadEnv.ok none).result.find?
      (fun req => req.id == rid) = some r)
    (hst : r.status ≠ "pending") :
    (rejectSignupRequest s env rid by_ reason).result
        = failure ("Request is already " ++ r.status) ∧
      (rejectSignupRequest s env rid by_ reason).store = s := by
  have hb : (r.status != "pending") = true := by simpa using hst
  unfold rejectSignupRequest
  rw [hread]
  simp only [hfind]
  rw [if_pos hb]
  exact ⟨rfl, rfl⟩

/-- After a successful approval the record found under the id is the approved
form of the record that was pending. -/
theorem find_after_approve (s : Store) (env : ApproveEnv) (rid by_ : String)
    (h : (approveSignupRequest s env rid by_).result.success = true) :
    ∃ r, (getSignupRequests (approveSignupRequest s env rid by_).store ReadEnv.ok none).result.find?
        (fun req => req.id == rid) = some (approved env by_ r) := by
  obtain ⟨r, hfind, _, hstore⟩ := approveSignupRequest_success s env rid by_ h
  refine ⟨r, ?_⟩
  rw [hstore, read_written s env.read _ (approved env by_) (fun _ => rfl) _ r hfind]
  refine find_updateFirst _ _ _ r hfind ?_
  have := List.find?_some hfind
  simpa [approved, markApproved] using this

/-- Witness for C6: the directory answers `'email in use'` to the approval of
`alice`. -/
theorem approve_fails_when_account_creation_fails_witness :
    (getSignupRequests aliceStore ReadEnv.ok none).result.find?
        (fun req => req.id == "1000") = some aliceRequest ∧
    aliceRequest.status = "pending" ∧
    (approveSignupRequest aliceStore
        (approveEnv { success := false, error := some "email in use" } 1001)
        "1000" "admin").result.success = false ∧
    (approveSignupRequest aliceStore
        (approveEnv { success := false, error := some "email in use" } 1001)
        "1000" "admin").result.error = some "email in use" ∧
    (approveSignupRequest aliceStore
        (approveEnv { success := false, error := some "email in use" } 1001)
        "1000" "admin").store = aliceStore :=
  have h := approve_fails_when_account_creation_fails aliceStore
    (approveEnv { success := false, error := some "email in use" } 1001) "1000" "admin"
    aliceRequest (some "email in use") rfl (by decide) rfl rfl
  ⟨by decide, rfl, h.1, h.2.2.1 "email in use" rfl (by decide), h.2.2.2.1⟩

/-! ## Status transitions -/

theorem forall₂_self (R : Request → Request → Prop) (hrefl : ∀ a, R a a) (l : List Request) :
    List.Forall₂ R l l := by
  induction l with
  | nil => exact List.Forall₂.nil
  | cons a l ih => exact List.Forall₂.cons (hrefl a) ih

theorem forall₂_updateFirst (R : Request → Request → Prop) (p : Request → Bool)
    (f : Request → Request) (l : List Request) (r : Request)
    (hfind : l.find? p = some r) (hrefl : ∀ a, R a a) (hr : R r (f r)) :
    List.Forall₂ R l (updateFirst p f l) := by
  induction l with
  | nil => exact List.Forall₂.nil
  | cons a l ih =>
    unfold updateFirst
    by_cases ha : p a = true
    · simp only [List.find?, ha, Option.some.injEq] at hfind
      subst hfind
      simp only [ha, if_true]
      exact List.Forall₂.cons hr (forall₂_self R hrefl l)
    · simp only [List.find?, ha] at hfind
      simp only [ha]
      exact List.Forall₂.cons (hrefl a) (ih hfind)

theorem read_perm_or_nil (s : Store) (env : ReadEnv) :
    ((getSignupRequests s env none).result).Perm s.requests ∨
      ((getSignupRequests s env none).result = [] ∧ env ≠ ReadEnv.ok) := by
  by_cases henv : env = ReadEnv.ok
  · left
    rw [henv, getSignupRequests_ok, filterStatus_none]
    exact sortRequests_perm _
  · rcases getSignupRequests_cases s env none with e | e
    · right; exact ⟨e, henv⟩
    · left
      rw [e, filterStatus_none]
      exact sortRequests_perm _

/-- C4, amended. Whatever the storage and directory calls do, a call of
`createSignupRequest`, `approveSignupRequest` or `rejectSignupRequest` that
runs from its start to its end with no other call in between either
leaves the store untouched or writes an array `new ++ added` in which `new`
matches, record by record, a rearrangement `old` of the stored requests (no
record at all when the read of the call threw): each record is unchanged in
every field, or was `'pending'` and is now `'approved'` (only in an approval)
or `'rejected'` (only in a rejection); the records `added` are pending.  So
such a call never changes the status of a stored request that is not
`'pending'`. -/
theorem status_changes_only_from_pending (s : Store) (c : Call) :
    (c.exec s).store = s ∨
    ∃ old new added : List Request,
      (old.Perm s.requests ∨ (old = [] ∧ c.readEnv ≠ ReadEnv.ok)) ∧
      List.Forall₂ c.allows old new ∧
      (∀ r ∈ added, r.status = "pending") ∧
      (c.exec s).store.cache = some (new ++ added) ∧
      ((c.exec s).store.mirror = s.mirror ∨ (c.exec s).store.mirror = some (new ++ added)) := by
  cases c with
  | create env ud =>
    rcases createSignupRequest_store s env ud with e | ⟨u, pw, n, e, _, _, _, _, _, _, _, _, _, w, hw, hs⟩
    · left; exact e
    · right
      subst hw
      refine ⟨(getSignupRequests s env.reload none).result, _, [newRequest env u pw n e ud.role],
        read_perm_or_nil s _, forall₂_self (Call.create env ud).allows (fun _ => rfl) _, ?_, ?_, ?_⟩
      · intro r hr
        simp only [List.mem_singleton] at hr
        subst hr
        rfl
      · rcases hs with h | h <;> simp only [Call.exec] <;> rw [h]
      · rcases hs with h | h <;> simp only [Call.exec] <;> rw [h]
        · left; rfl
        · right; rfl
  | approve env rid by_ =>
    rcases approveSignupRequest_store s env rid by_ with e | ⟨r, hfind, hst, w, hw, hs⟩
    · left; exact e
    · right
      subst hw
      refine ⟨(getSignupRequests s env.read none).result, _, [],
        read_perm_or_nil s _,
        forall₂_updateFirst (Call.approve env rid by_).allows _ (approved env by_) _ r hfind
          (fun _ => Or.inl rfl) (Or.inr ⟨hst, rfl⟩),
        by simp, ?_, ?_⟩
      · rcases hs with h | h <;> simp only [Call.exec, List.append_nil] <;> rw [h]
      · rcases hs with h | h <;> simp only [Call.exec, List.append_nil] <;> rw [h]
        · left; rfl
        · right; rfl
  | reject env rid by_ reason =>
    rcases rejectSignupRequest_store s env rid by_ reason with e | ⟨r, hfind, hst, w, hw, hs⟩
    · left; exact e
    · right
      subst hw
      refine ⟨(getSignupRequests s env.read none).result, _, [],
        read_perm_or_nil s _,
        forall₂_updateFirst (Call.reject env rid by_ reason).allows _ (rejected env by_ reason) _
          r hfind (fun _ => Or.inl rfl) (Or.inr ⟨hst, rfl⟩),
        by simp, ?_, ?_⟩
      · rcases hs with h | h <;> simp only [Call.exec, List.append_nil] <;> rw [h]
      · rcases hs with h | h <;> simp only [Call.exec, List.append_nil] <;> rw [h]
        · left; rfl
        · right; rfl

/-! ## The signup scenario -/

/-- `createSignupRequest` refuses a username that a stored request carries. -/
theorem createSignupRequest_of_stored (s : Store) (env : CreateEnv) (ud : UserData)
    (u pw n e : String)
    (hu : ud.username = some u) (hp : ud.password = some pw)
    (hn : ud.name = some n) (he : ud.email = some e)
    (hpresent : u ≠ "" ∧ pw ≠ "" ∧ n ≠ "" ∧ e ≠ "")
    (hread : env.lookup = ReadEnv.ok)
    (hstored : ∃ r ∈ s.requests, r.username = u) :
    createSignupRequest s env ud
      = { result := failure "Username already exists or has a pending request", store := s,
          trace := (getSignupRequests s env.lookup none).trace } := by
  obtain ⟨r, hr, hru⟩ := hstored
  have hsome : (getSignupRequestByUsername s env.lookup u).result.isSome = true := by
    rw [hread, getSignupRequestByUsername_ok, List.find?_isSome]
    exact ⟨r, mem_sortRequests.mpr hr, by simp [hru]⟩
  have hne : ¬ ((u == "" || pw == "" || n == "" || e == "") = true) := by
    simp [hpresent.1, hpresent.2.1, hpresent.2.2.1, hpresent.2.2.2]
  unfold createSignupRequest
  rw [hu, hp, hn, he]
  dsimp only
  rw [if_neg hne, if_pos hsome]
  rfl

/-- `rejectSignupRequest` on a pending request with working writes. -/
theorem rejectSignupRequest_of_pending (s : Store) (env : RejectEnv) (rid by_ reason : String)
    (r : Request)
    (hfind : (getSignupRequests s env.read none).result.find? (fun req => req.id == rid) = some r)
    (hst : r.status = "pending") (hset : env.setItem = none) (hwrite : env.writeFile = none) :
    (rejectSignupRequest s env rid by_ reason).result
        = { success := true, requestId := none, error := none } ∧
      (rejectSignupRequest s env rid by_ reason).store
        = { cache := some (updateFirst (fun req => req.id == rid) (rejected env by_ reason)
              (getSignupRequests s env.read none).result),
            mirror := some (updateFirst (fun req => req.id == rid) (rejected env by_ reason)
              (getSignupRequests s env.read none).result) } := by
  have hb : ¬ ((r.status != "pending") = true) := by simp [hst]
  unfold rejectSignupRequest
  simp only [hfind]
  rw [if_neg hb, hset, hwrite]
  exact ⟨rfl, rfl⟩

/-- C7, a defect of the code. From the empty store, with a directory that does
not know `alice`, the first submission succeeds with id `"1000"`, the second is
refused, and the rejection of `"1000"` with reason `'duplicate'` succeeds.
The third submission is refused with `'Username already exists or has a
pending request'` although no stored request is pending (the listing with the
status filter `'pending'` is empty) and the directory does not know the
username: the lookup of line 109 reads the requests of every status. -/
theorem third_signup_after_rejection_is_refused :
    (createSignupRequest Store.empty (createEnv false 1000) (signupData "alice")).result
      = { success := true, requestId := some "1000", error := none } ∧
    (createSignupRequest aliceStore (createEnv false 1001) (signupData "alice")).result.success
      = false ∧
    (rejectSignupRequest aliceStore (rejectEnv 1002) "1000" "admin" "duplicate").result.success
      = true ∧
    ¬ ((createSignupRequest
      (rejectSignupRequest aliceStore (rejectEnv 1002) "1000" "admin" "duplicate").store
      (createEnv false 1003) (signupData "alice")).result.success = true) ∧
    (createSignupRequest
      (rejectSignupRequest aliceStore (rejectEnv 1002) "1000" "admin" "duplicate").store
      (createEnv false 1003) (signupData "alice")).result
      = { success := false, requestId := none,
          error := some "Username already exists or has a pending request" } ∧
    (getSignupRequests
      (rejectSignupRequest aliceStore (rejectEnv 1002) "1000" "admin" "duplicate").store
      ReadEnv.ok (some "pending")).result = [] ∧
    (createEnv false 1003).usernameExists = Except.ok false := by
  refine ⟨by decide, by decide, by decide, by decide, by decide, by decide, rfl⟩

/-- The same run at any clock values. From the empty store, with working
storage and a directory that does not know `alice`: the first
`createSignupRequest` for `alice` succeeds and returns the id
`Date.now().toString()`; the second is refused; `rejectSignupRequest` of the
first id with reason `'duplicate'` succeeds; the third `createSignupRequest`
for `alice` is refused with `'Username already exists or has a pending
request'`, the rejected record still carrying the username. -/
theorem rejected_username_stays_taken (t1 t2 t3 t4 : Nat) (actor : String) :
    (createSignupRequest Store.empty (createEnv false t1) (signupData "alice")).result
      = { success := true, requestId := some (toString t1), error := none } ∧
    (createSignupRequest
      (createSignupRequest Store.empty (createEnv false t1) (signupData "alice")).store
      (createEnv false t2) (signupData "alice")).result
      = { success := false, requestId := none,
          error := some "Username already exists or has a pending request" } ∧
    (rejectSignupRequest
      (createSignupRequest Store.empty (createEnv false t1) (signupData "alice")).store
      (rejectEnv t3) (toString t1) actor "duplicate").result
      = { success := true, requestId := none, error := none } ∧
    (createSignupRequest
      (rejectSignupRequest
        (createSignupRequest Store.empty (createEnv false t1) (signupData "alice")).store
        (rejectEnv t3) (toString t1) actor "duplicate").store
      (createEnv false t4) (signupData "alice")).result
      = { success := false, requestId := none,
          error := some "Username already exists or has a pending request" } := by
  have hs1 : (createSignupRequest Store.empty (createEnv false t1) (signupData "alice")).store
      = { cache := some [newRequest (createEnv false t1) "alice" "s3cret" "Some Body"
                      "somebody@example.org" none],
          mirror := some [newRequest (createEnv false t1) "alice" "s3cret" "Some Body"
                      "somebody@example.org" none] } := rfl
  have hfind : (getSignupRequests
        { cache := some [newRequest (createEnv false t1) "alice" "s3cret" "Some Body"
                      "somebody@example.org" none],
          mirror := some [newRequest (createEnv false t1) "alice" "s3cret" "Some Body"
                      "somebody@example.org" none] }
        (rejectEnv t3).read none).result.find? (fun req => req.id == toString t1)
      = some (newRequest (createEnv false t1) "alice" "s3cret" "Some Body"
                      "somebody@example.org" none) := by
    have : (getSignupRequests
        { cache := some [newRequest (createEnv false t1) "alice" "s3cret" "Some Body"
                      "somebody@example.org" none],
          mirror := some [newRequest (createEnv false t1) "alice" "s3cret" "Some Body"
                      "somebody@example.org" none] }
        (rejectEnv t3).read none).result
        = [newRequest (createEnv false t1) "alice" "s3cret" "Some Body"
                      "somebody@example.org" none] := rfl
    rw [this]
    simp [List.find?, newRequest, createEnv]
  have hrej := rejectSignupRequest_of_pending _ (rejectEnv t3) (toString t1) actor "duplicate" _
    hfind rfl rfl rfl
  refine ⟨rfl, ?_, ?_, ?_⟩
  · rw [createSignupRequest_of_stored _ (createEnv false t2) (signupData "alice")
      "alice" "s3cret" "Some Body" "somebody@example.org" rfl rfl rfl rfl (by decide) rfl
      ⟨_, by rw [hs1]; exact List.mem_singleton.mpr rfl, rfl⟩]
    rfl
  · rw [hs1]
    exact hrej.1
  · rw [createSignupRequest_of_stored _ (createEnv false t4) (signupData "alice")
      "alice" "s3cret" "Some Body" "somebody@example.org" rfl rfl rfl rfl (by decide) rfl
      ⟨rejected (rejectEnv t3) actor "duplicate"
        (newRequest (createEnv false t1) "alice" "s3cret" "Some Body"
                      "somebody@example.org" none), ?_, rfl⟩]
    · rfl
    · rw [hs1, hrej.2]
      have : (getSignupRequests
        { cache := some [newRequest (createEnv false t1) "alice" "s3cret" "Some Body"
                      "somebody@example.org" none],
          mirror := some [newRequest (createEnv false t1) "alice" "s3cret" "Some Body"
                      "somebody@example.org" none] }
        (rejectEnv t3).read none).result
        = [newRequest (createEnv false t1) "alice" "s3cret" "Some Body"
                      "somebody@example.org" none] := rfl
      rw [this]
      simp [updateFirst, newRequest, createEnv, Store.requests]

/-! ## Lookup by username and the fallback read -/

/-- Counterexample to C8: once `alice` is approved no stored request for
`alice` is pending, yet `getSignupRequestByUsername('alice')` returns a
request, whose status is `'approved'`. -/
theorem lookup_returns_approved_request :
    (∀ r ∈ approvedStore.requests, ¬ (r.username = "alice" ∧ r.status = "pending")) ∧
    ∃ r, (getSignupRequestByUsername approvedStore ReadEnv.ok "alice").result = some r ∧
      r.status = "approved" ∧ r.status ≠ "pending" := by
  refine ⟨by decide, approved (approveEnv { success := true, error := none } 1001) "admin"
    aliceRequest, by decide, by decide, by decide⟩

/-- C8, amended. For every store and username `U` (storage reads completing):
whenever `getSignupRequestByUsername(U)` returns a request, it is a stored
request with username `U`, of whatever status; and it returns `null` exactly
when no stored request has username `U`. -/
theorem lookup_by_username (s : Store) (U : String) :
    (∀ r, (getSignupRequestByUsername s ReadEnv.ok U).result = some r →
      r.username = U ∧ r ∈ s.requests) ∧
    ((getSignupRequestByUsername s ReadEnv.ok U).result = none ↔
      ∀ r ∈ s.requests, r.username ≠ U) := by
  rw [getSignupRequestByUsername_ok]
  constructor
  · intro r hr
    have h1 := List.find?_some hr
    have h2 := List.mem_of_find?_eq_some hr
    exact ⟨by simpa using h1, mem_sortRequests.mp h2⟩
  · rw [List.find?_eq_none]
    constructor
    · intro h r hr
      simpa using h r (mem_sortRequests.mpr hr)
    · intro h r hr
      simpa using h r (mem_sortRequests.mp hr)

/-- Witness for C8, amended: the lookup of `alice` after the approval. -/
theorem lookup_by_username_witness :
    (getSignupRequestByUsername approvedStore ReadEnv.ok "alice").result
      = some (approved (approveEnv { success := true, error := none } 1001) "admin" aliceRequest) ∧
    (approved (approveEnv { success := true, error := none } 1001) "admin" aliceRequest).username
      = "alice" ∧
    approved (approveEnv { success := true, error := none } 1001) "admin" aliceRequest
      ∈ approvedStore.requests :=
  have h : (getSignupRequestByUsername approvedStore ReadEnv.ok "alice").result
      = some (approved (approveEnv { success := true, error := none } 1001) "admin" aliceRequest) := by
    decide
  ⟨h, (lookup_by_username approvedStore "alice").1 _ h⟩

/-- Counterexample to C10: with no cache item and one record in the mirror,
`getSignupRequests()` returns that record and the cache item is still absent
after the call. -/
theorem fallback_read_leaves_cache_empty :
    (getSignupRequests { cache := none, mirror := some [aliceRequest] } ReadEnv.ok none).result
      = [aliceRequest] ∧
    (getSignupRequests { cache := none, mirror := some [aliceRequest] } ReadEnv.ok none).store.cache
      = none ∧
    ¬ ((getSignupRequests { cache := none, mirror := some [aliceRequest] }
          ReadEnv.ok none).store.cache = some [aliceRequest]) := by
  decide

/-- C10, amended. If the cache is empty and the mirror file holds the array
`records`, `getSignupRequests()` (storage reads completing) returns those
records, newest first, and makes no storage write: the store is as before,
and the cache is still empty after the call. -/
theorem mirror_fallback_returns_records (s : Store) (records : List Request)
    (hcache : s.cache.getD [] = []) (hmirror : s.mirror = some records) :
    (getSignupRequests s ReadEnv.ok none).result = sortRequests records ∧
    ((getSignupRequests s ReadEnv.ok none).result).Perm records ∧
    (getSignupRequests s ReadEnv.ok none).result.length = records.length ∧
    (getSignupRequests s ReadEnv.ok none).store = s ∧
    (getSignupRequests s ReadEnv.ok none).store.cache.getD [] = [] ∧
    ∀ ev ∈ (getSignupRequests s ReadEnv.ok none).trace, ev.isWrite = false := by
  have hreq : s.requests = records := by
    unfold Store.requests
    rw [hcache, hmirror]
    rfl
  have hres : (getSignupRequests s ReadEnv.ok none).result = sortRequests records := by
    rw [getSignupRequests_ok, filterStatus_none, hreq]
  refine ⟨hres, ?_, ?_, getSignupRequests_store s _ _, ?_, getSignupRequests_no_write s _ _⟩
  · rw [hres]; exact sortRequests_perm _
  · rw [hres]; exact (sortRequests_perm _).length_eq
  · rw [getSignupRequests_store]; exact hcache

/-- Witness for C10, amended: no cache item, one record in the mirror. -/
theorem mirror_fallback_returns_records_witness :
    (({ cache := none, mirror := some [aliceRequest] } : Store).cache.getD [] = []) ∧
    (getSignupRequests { cache := none, mirror := some [aliceRequest] } ReadEnv.ok none).result.length
      = 1 ∧
    (getSignupRequests { cache := none, mirror := some [aliceRequest] } ReadEnv.ok none).store
      = { cache := none, mirror := some [aliceRequest] } :=
  have h := mirror_fallback_returns_records { cache := none, mirror := some [aliceRequest] } [aliceRequest] rfl rfl
  ⟨rfl, h.2.2.1, h.2.2.2.1⟩

/-! ## Listing order -/

theorem notOlder_of_newestFirst {a b : Request} (ha : ∃ t, a.requestedAt = some t)
    (hb : ∃ t, b.requestedAt = some t) (h : newestFirst a b) : NotOlder a b := by
  obtain ⟨ta, hta⟩ := ha
  obtain ⟨tb, htb⟩ := hb
  unfold newestFirst at h
  rw [hta, htb] at h
  exact ⟨ta, tb, hta, htb, h⟩

theorem notOlder_of_not_newestFirst {a b : Request} (ha : ∃ t, a.requestedAt = some t)
    (hb : ∃ t, b.requestedAt = some t) (h : ¬ newestFirst a b) : NotOlder b a :=
  notOlder_of_newestFirst hb ha ((newestFirst_total a b).resolve_left h)

theorem NotOlder.trans {a b c : Request} (hab : NotOlder a b) (hbc : NotOlder b c) :
    NotOlder a c := by
  obtain ⟨ta, tb, hta, htb, h1⟩ := hab
  obtain ⟨tb', tc, htb', htc, h2⟩ := hbc
  rw [htb] at htb'
  cases htb'
  exact ⟨ta, tc, hta, htc, le_trans h2 h1⟩

theorem pairwise_orderedInsert (a : Request) (l : List Request)
    (hv : ∀ r ∈ a :: l, ∃ t, r.requestedAt = some t) (h : l.Pairwise NotOlder) :
    (l.orderedInsert newestFirst a).Pairwise NotOlder := by
  induction l with
  | nil => simp
  | cons b l ih =>
    have ha := hv a (by simp)
    have hb := hv b (by simp)
    rw [List.orderedInsert]
    rw [List.pairwise_cons] at h
    by_cases hab : newestFirst a b
    · simp only [hab, if_true]
      have hab' := notOlder_of_newestFirst ha hb hab
      refine List.Pairwise.cons ?_ (List.Pairwise.cons h.1 h.2)
      intro x hx
      rcases List.mem_cons.mp hx with e | hx
      · rw [e]; exact hab'
      · exact hab'.trans (h.1 x hx)
    · simp only [hab, if_false]
      refine List.Pairwise.cons ?_ (ih (fun r hr => hv r ?_) h.2)
      · intro x hx
        rcases (List.mem_orderedInsert newestFirst).mp hx with e | hx
        · rw [e]; exact notOlder_of_not_newestFirst ha hb hab
        · exact h.1 x hx
      · rcases List.mem_cons.mp hr with e | hr
        · rw [e]; simp
        · simp [hr]

theorem pairwise_sortRequests (l : List Request)
    (hv : ∀ r ∈ l, ∃ t, r.requestedAt = some t) : (sortRequests l).Pairwise NotOlder := by
  induction l with
  | nil => simp [sortRequests]
  | cons a l ih =>
    have hl : ∀ r ∈ l, ∃ t, r.requestedAt = some t := fun r hr => hv r (by simp [hr])
    refine pairwise_orderedInsert a _ ?_ (ih hl)
    intro r hr
    rcases List.mem_cons.mp hr with e | hr
    · rw [e]; exact hv a (by simp)
    · exact hl r (mem_sortRequests.mp hr)

theorem filterStatus_eq_filter (status : Option String) (hs : status ≠ some "")
    (l : List Request) :
    filterStatus status l = l.filter (fun r => decide (status = none ∨ status = some r.status)) := by
  cases status with
  | none => simp [filterStatus, falsy]
  | some f =>
    have hf : f ≠ "" := fun e => hs (by rw [e])
    simp only [filterStatus, falsy, beq_iff_eq, hf]
    apply List.filter_congr
    intro r _
    by_cases h : r.status = f
    · simp [h]
    · have h' : ¬ f = r.status := fun e => h e.symm
      simp [h, h']

theorem eq_of_three (l : List Request) (r1 r2 r3 : Request) (t1 t2 t3 : Int)
    (hp : l.Perm [r1, r2, r3]) (hs : l.Pairwise NotOlder)
    (h1 : r1.requestedAt = some t1) (h2 : r2.requestedAt = some t2)
    (h3 : r3.requestedAt = some t3) (h12 : t1 < t2) (h23 : t2 < t3) :
    l = [r3, r2, r1] := by
  have hlen := hp.length_eq
  match l, hlen with
  | [a, b, c], _ =>
    have ha : a ∈ [r1, r2, r3] := hp.subset (by simp)
    have hb : b ∈ [r1, r2, r3] := hp.subset (by simp)
    have hc : c ∈ [r1, r2, r3] := hp.subset (by simp)
    have hr1 : r1 ∈ [a, b, c] := hp.symm.subset (by simp)
    have hr2 : r2 ∈ [a, b, c] := hp.symm.subset (by simp)
    have hr3 : r3 ∈ [a, b, c] := hp.symm.subset (by simp)
    simp only [List.pairwise_cons, List.mem_cons, List.mem_singleton, List.not_mem_nil,
      or_false, forall_eq_or_imp, forall_eq, false_implies, implies_true, and_true,
      List.Pairwise.nil] at hs ha hb hc hr1 hr2 hr3
    obtain ⟨⟨⟨ta, tb, hta, htb, hab⟩, ⟨ta', tc, hta', htc, hac⟩⟩, ⟨tb', tc', htb', htc', hbc⟩⟩ := hs
    rw [hta] at hta'; cases hta'
    rw [htb] at htb'; cases htb'
    rw [htc] at htc'; cases htc'
    have ka : ta = t1 ∨ ta = t2 ∨ ta = t3 := by
      rcases ha with e | e | e <;> subst e
      · left; rw [hta] at h1; exact Option.some.inj h1
      · right; left; rw [hta] at h2; exact Option.some.inj h2
      · right; right; rw [hta] at h3; exact Option.some.inj h3
    have kb : tb = t1 ∨ tb = t2 ∨ tb = t3 := by
      rcases hb with e | e | e <;> subst e
      · left; rw [htb] at h1; exact Option.some.inj h1
      · right; left; rw [htb] at h2; exact Option.some.inj h2
      · right; right; rw [htb] at h3; exact Option.some.inj h3
    have kc : tc = t1 ∨ tc = t2 ∨ tc = t3 := by
      rcases hc with e | e | e <;> subst e
      · left; rw [htc] at h1; exact Option.some.inj h1
      · right; left; rw [htc] at h2; exact Option.some.inj h2
      · right; right; rw [htc] at h3; exact Option.some.inj h3
    have k1 : t1 = ta ∨ t1 = tb ∨ t1 = tc := by
      rcases hr1 with e | e | e <;> subst e
      · left; rw [hta] at h1; exact (Option.some.inj h1).symm
      · right; left; rw [htb] at h1; exact (Option.some.inj h1).symm
      · right; right; rw [htc] at h1; exact (Option.some.inj h1).symm
    have k2 : t2 = ta ∨ t2 = tb ∨ t2 = tc := by
      rcases hr2 with e | e | e <;> subst e
      · left; rw [hta] at h2; exact (Option.some.inj h2).symm
      · right; left; rw [htb] at h2; exact (Option.some.inj h2).symm
      · right; right; rw [htc] at h2; exact (Option.some.inj h2).symm
    have k3 : t3 = ta ∨ t3 = tb ∨ t3 = tc := by
      rcases hr3 with e | e | e <;> subst e
      · left; rw [hta] at h3; exact (Option.some.inj h3).symm
      · right; left; rw [htb] at h3; exact (Option.some.inj h3).symm
      · right; right; rw [htc] at h3; exact (Option.some.inj h3).symm
    have eA : ta = t3 := by omega
    have eB : tb = t2 := by omega
    have eC : tc = t1 := by omega
    have fa : a = r3 := by
      rcases ha with e | e | e
      · exfalso; rw [e, h1] at hta; have := Option.some.inj hta; omega
      · exfalso; rw [e, h2] at hta; have := Option.some.inj hta; omega
      · exact e
    have fb : b = r2 := by
      rcases hb with e | e | e
      · exfalso; rw [e, h1] at htb; have := Option.some.inj htb; omega
      · exact e
      · exfalso; rw [e, h3] at htb; have := Option.some.inj htb; omega
    have fc : c = r1 := by
      rcases hc with e | e | e
      · exact e
      · exfalso; rw [e, h2] at htc; have := Option.some.inj htc; omega
      · exfalso; rw [e, h3] at htc; have := Option.some.inj htc; omega
    rw [fa, fb, fc]

/-- C9. For every store whose records carry valid `requestedAt` timestamps and
every status filter (or none; the empty string is not a status),
`getSignupRequests` (storage reads completing) returns exactly the stored
requests matching the filter, each once, ordered by `requestedAt` descending;
and when the stored requests are three records submitted at `t1 < t2 < t3`, in
whatever order they are stored, it yields them as `[t3, t2, t1]`. -/
theorem listing_newest_first (s : Store) (status : Option String)
    (hvalid : ∀ r ∈ s.requests, ∃ t, r.requestedAt = some t) (hstatus : status ≠ some "") :
    ((getSignupRequests s ReadEnv.ok status).result).Perm
        (s.requests.filter (fun r => decide (status = none ∨ status = some r.status))) ∧
      ((getSignupRequests s ReadEnv.ok status).result).Pairwise NotOlder ∧
      ∀ (r1 r2 r3 : Request) (t1 t2 t3 : Int),
        s.requests.Perm [r1, r2, r3] →
        r1.requestedAt = some t1 → r2.requestedAt = some t2 → r3.requestedAt = some t3 →
        t1 < t2 → t2 < t3 →
        (getSignupRequests s ReadEnv.ok none).result = [r3, r2, r1] := by
  refine ⟨?_, ?_, ?_⟩
  · rw [getSignupRequests_ok, filterStatus_eq_filter status hstatus]
    exact sortRequests_perm _
  · rw [getSignupRequests_ok, filterStatus_eq_filter status hstatus]
    exact pairwise_sortRequests _ (fun r hr => hvalid r (List.mem_filter.mp hr).1)
  · intro r1 r2 r3 t1 t2 t3 hp h1 h2 h3 h12 h23
    refine eq_of_three _ r1 r2 r3 t1 t2 t3 ?_ ?_ h1 h2 h3 h12 h23
    · rw [getSignupRequests_ok, filterStatus_none]
      exact (sortRequests_perm _).trans hp
    · rw [getSignupRequests_ok, filterStatus_none]
      exact pairwise_sortRequests _ hvalid

/-- Witness for C9: three signups at 1000, 2000 and 3000 are stored in the
order 2000, 1000, 3000 and listed as 3000, 2000, 1000. -/
theorem listing_newest_first_witness :
    (∀ r ∈ threeStore.requests, ∃ t, r.requestedAt = some t) ∧
    threeStore.requests
      = [signupRecord "bob" 2000, signupRecord "alice" 1000, signupRecord "carol" 3000] ∧
    (getSignupRequests threeStore ReadEnv.ok none).result
      = [signupRecord "carol" 3000, signupRecord "bob" 2000, signupRecord "alice" 1000] :=
  have hreq : threeStore.requests
      = [signupRecord "bob" 2000, signupRecord "alice" 1000, signupRecord "carol" 3000] := by
    decide
  have hv : ∀ r ∈ threeStore.requests, ∃ t, r.requestedAt = some t := by
    intro r hr
    rw [hreq] at hr
    simp only [List.mem_cons, List.mem_singleton, List.not_mem_nil, or_false] at hr
    rcases hr with rfl | rfl | rfl <;> exact ⟨_, rfl⟩
  ⟨hv, hreq,
    (listing_newest_first threeStore none hv (by decide)).2.2
      (signupRecord "alice" 1000) (signupRecord "bob" 2000) (signupRecord "carol" 3000)
      1000 2000 3000 (by rw [hreq]; exact List.Perm.swap _ _ _) rfl rfl rfl
      (by decide) (by decide)⟩

/-! ## Later calls keep a resolved request -/

theorem find?_updateFirst_other (p q : Request → Bool) (f : Request → Request)
    (hdisj : ∀ x, q x = true → p x = false) (hf : ∀ x, p (f x) = p x) (l : List Request) :
    (updateFirst q f l).find? p = l.find? p := by
  induction l with
  | nil => rfl
  | cons a l ih =>
    unfold updateFirst
    by_cases ha : q a = true
    · have h1 : p a = false := hdisj a ha
      have h2 : p (f a) = false := by rw [hf]; exact h1
      simp [ha, List.find?, h1, h2]
    · simp only [ha]
      by_cases hp : p a = true
      · simp [List.find?, hp]
      · simp [List.find?, hp, ih]

/-- Inserting `x` into a sorted array that holds a record `n` with a valid
timestamp gives the array obtained by inserting `x` without `n`, with `n` put
back at some place. -/
theorem orderedInsert_around (n x : Request) (hn : ∃ t, n.requestedAt = some t)
    (l1 l2 : List Request) (hchain : (l1 ++ n :: l2).Chain' newestFirst) :
    ∃ k1 k2, (l1 ++ n :: l2).orderedInsert newestFirst x = k1 ++ n :: k2 ∧
      (l1 ++ l2).orderedInsert newestFirst x = k1 ++ k2 := by
  induction l1 with
  | nil =>
    simp only [List.nil_append] at hchain ⊢
    rw [List.orderedInsert]
    by_cases hxn : newestFirst x n
    · refine ⟨[x], l2, by simp [hxn], ?_⟩
      cases l2 with
      | nil => rfl
      | cons b l2 =>
        have hnb : newestFirst n b := by
          rw [List.chain'_cons] at hchain
          exact hchain.1
        have hxb : newestFirst x b := by
          obtain ⟨tn, htn⟩ := hn
          unfold newestFirst at hxn hnb ⊢
          rw [htn] at hxn hnb
          cases hx : x.requestedAt with
          | none => cases b.requestedAt <;> trivial
          | some tx =>
            cases hb : b.requestedAt with
            | none => trivial
            | some tb =>
              rw [hx] at hxn
              rw [hb] at hnb
              exact le_trans hnb hxn
        simp [List.orderedInsert, hxb]
    · exact ⟨[], l2.orderedInsert newestFirst x, by simp [hxn], rfl⟩
  | cons a l1 ih =>
    simp only [List.cons_append] at hchain ⊢
    rw [List.orderedInsert, List.orderedInsert]
    by_cases hxa : newestFirst x a
    · exact ⟨x :: a :: l1, l2, by simp [hxa], by simp [hxa]⟩
    · obtain ⟨k1, k2, h1, h2⟩ := ih (List.Chain'.tail hchain)
      exact ⟨a :: k1, k2, by simp [hxa, h1], by simp [hxa, h2]⟩

theorem sortRequests_append_singleton (n : Request) (hn : ∃ t, n.requestedAt = some t)
    (l : List Request) :
    ∃ k1 k2, sortRequests (l ++ [n]) = k1 ++ n :: k2 ∧ sortRequests l = k1 ++ k2 := by
  induction l with
  | nil => exact ⟨[], [], rfl, rfl⟩
  | cons a l ih =>
    obtain ⟨k1, k2, h1, h2⟩ := ih
    have hc : (k1 ++ n :: k2).Chain' newestFirst := by
      rw [← h1]
      exact chain'_sortRequests _
    obtain ⟨m1, m2, e1, e2⟩ := orderedInsert_around n a hn k1 k2 hc
    refine ⟨m1, m2, ?_, ?_⟩
    · show (sortRequests (l ++ [n])).orderedInsert newestFirst a = _
      rw [h1, e1]
    · show (sortRequests l).orderedInsert newestFirst a = _
      rw [h2, e2]

theorem find?_sortRequests_append (p : Request → Bool) (n : Request)
    (hn : ∃ t, n.requestedAt = some t) (hp : p n = false) (l : List Request) :
    (sortRequests (l ++ [n])).find? p = (sortRequests l).find? p := by
  obtain ⟨k1, k2, h1, h2⟩ := sortRequests_append_singleton n hn l
  rw [h1, h2]
  simp [List.find?_append, List.find?, hp]

theorem sortRequests_idem (l : List Request) : sortRequests (sortRequests l) = sortRequests l :=
  sortRequests_of_chain' _ (chain'_sortRequests l)

theorem requests_of_store_eq {s' : Store} {w : List Request} {m : Option (List Request)}
    (hw : w ≠ [])
    (hs : s' = { cache := some w, mirror := m } ∨ s' = { cache := some w, mirror := some w }) :
    s'.requests = w := by
  rcases hs with e | e <;> rw [e] <;> exact requests_of_written _ _ hw

theorem read_of_find {s : Store} {env : ReadEnv} {p : Request → Bool} {r : Request}
    (h : (getSignupRequests s env none).result.find? p = some r) :
    (getSignupRequests s env none).result = (getSignupRequests s ReadEnv.ok none).result := by
  rcases getSignupRequests_cases s env none with e | e
  · rw [e] at h
    simp at h
  · rw [e, getSignupRequests_ok]

/-- A call that keeps `requestId` leaves the record found under it, once that
record is no longer pending. -/
theorem exec_keeps_found (s : Store) (c : Call) (rid : String) (r0 : Request)
    (hk : c.keeps rid) (hst : r0.status ≠ "pending")
    (hfind : (getSignupRequests s ReadEnv.ok none).result.find? (fun req => req.id == rid)
      = some r0) :
    (getSignupRequests (c.exec s).store ReadEnv.ok none).result.find?
      (fun req => req.id == rid) = some r0 := by
  cases c with
  | create env ud =>
    obtain ⟨hreload, hfresh⟩ := hk
    rcases createSignupRequest_store s env ud with e | ⟨u, pw, n, e, _, _, _, _, _, _, _, _, _, w, hw, hs⟩
    · simp only [Call.exec]; rw [e]; exact hfind
    · have hne : w ≠ [] := by rw [hw]; simp
      have hreq := requests_of_store_eq hne hs
      simp only [Call.exec]
      rw [getSignupRequests_ok, filterStatus_none, hreq, hw, hreload]
      rw [find?_sortRequests_append _ _ ⟨_, rfl⟩ ?_, getSignupRequests_ok, filterStatus_none,
        sortRequests_idem]
      · rw [getSignupRequests_ok, filterStatus_none] at hfind
        exact hfind
      · simpa [newRequest] using hfresh
  | approve env rid' by_ =>
    rcases approveSignupRequest_store s env rid' by_ with e | ⟨r, hr, hpend, w, hw, hs⟩
    · simp only [Call.exec]; rw [e]; exact hfind
    · have hread := read_of_find hr
      have hne : rid' ≠ rid := by
        intro e
        rw [hread, e, hfind] at hr
        cases hr
        exact hst hpend
      have hstore : (approveSignupRequest s env rid' by_).store
          = { cache := some w, mirror := (approveSignupRequest s env rid' by_).store.mirror } := by
        rcases hs with e | e <;> rw [e]
      simp only [Call.exec]
      rw [hstore, hw, read_written s env.read _ (approved env by_) (fun _ => rfl) _ r hr,
        find?_updateFirst_other (fun req => req.id == rid) (fun req => req.id == rid')
          (approved env by_) ?_ (fun _ => rfl), hread]
      · exact hfind
      · intro x hx
        simp only [beq_iff_eq] at hx
        simp only [beq_eq_false_iff_ne, ne_eq]
        rw [hx]
        exact hne
  | reject env rid' by_ reason =>
    rcases rejectSignupRequest_store s env rid' by_ reason with e | ⟨r, hr, hpend, w, hw, hs⟩
    · simp only [Call.exec]; rw [e]; exact hfind
    · have hread := read_of_find hr
      have hne : rid' ≠ rid := by
        intro e
        rw [hread, e, hfind] at hr
        cases hr
        exact hst hpend
      have hstore : (rejectSignupRequest s env rid' by_ reason).store
          = { cache := some w,
              mirror := (rejectSignupRequest s env rid' by_ reason).store.mirror } := by
        rcases hs with e | e <;> rw [e]
      simp only [Call.exec]
      rw [hstore, hw, read_written s env.read _ (rejected env by_ reason) (fun _ => rfl) _ r hr,
        find?_updateFirst_other (fun req => req.id == rid) (fun req => req.id == rid')
          (rejected env by_ reason) ?_ (fun _ => rfl), hread]
      · exact hfind
      · intro x hx
        simp only [beq_iff_eq] at hx
        simp only [beq_eq_false_iff_ne, ne_eq]
        rw [hx]
        exact hne

theorem run_keeps_found (calls : List Call) (s : Store) (rid : String) (r0 : Request)
    (hk : ∀ c ∈ calls, c.keeps rid) (hst : r0.status ≠ "pending")
    (hfind : (getSignupRequests s ReadEnv.ok none).result.find? (fun req => req.id == rid)
      = some r0) :
    (getSignupRequests (run s calls) ReadEnv.ok none).result.find?
      (fun req => req.id == rid) = some r0 := by
  induction calls generalizing s with
  | nil => exact hfind
  | cons c cs ih =>
    simp only [run, List.foldl_cons]
    exact ih _ (fun c' hc' => hk c' (by simp [hc']))
      (exec_keeps_found s c rid r0 (hk c (by simp)) hst hfind)

/-- C3, amended. After an `approveSignupRequest` of an id has succeeded, and whatever
calls are made in between (approvals and rejections of any id, and submissions
whose re-read of the store completes and which are not assigned that same id),
every later `approveSignupRequest` or `rejectSignupRequest` on the id (storage
reads completing) returns `success: false` with the error
`'Request is already approved'` and changes nothing; the record found under
the id has the status, `approvedAt` and `approvedBy` written by the first
call. -/
theorem resolved_request_stays_approved (s : Store) (env : ApproveEnv)
    (requestId approvedBy : String)
    (hok : (approveSignupRequest s env requestId approvedBy).result.success = true)
    (between : List Call) (hbetween : ∀ c ∈ between, c.keeps requestId)
    (c : Call) (hc : c.resolves requestId) (hread : c.readsWork) :
    (c.exec (run (approveSignupRequest s env requestId approvedBy).store between)).result
        = { success := false, requestId := none, error := some "Request is already approved" } ∧
      (c.exec (run (approveSignupRequest s env requestId approvedBy).store between)).store
        = run (approveSignupRequest s env requestId approvedBy).store between ∧
      ∃ r, (getSignupRequests
            (c.exec (run (approveSignupRequest s env requestId approvedBy).store between)).store
            ReadEnv.ok none).result.find? (fun req => req.id == requestId) = some r ∧
        r.status = "approved" ∧ r.approvedAt = some (env.now : Int) ∧
        r.approvedBy = some approvedBy := by
  obtain ⟨r, hfind0⟩ := find_after_approve s env requestId approvedBy hok
  have hst : (approved env approvedBy r).status ≠ "pending" := by
    simp [approved, markApproved]
  have hfind := run_keeps_found between _ requestId _ hbetween hst hfind0
  have hone :
      (c.exec (run (approveSignupRequest s env requestId approvedBy).store between)).result
        = { success := false, requestId := none, error := some "Request is already approved" } ∧
      (c.exec (run (approveSignupRequest s env requestId approvedBy).store between)).store
        = run (approveSignupRequest s env requestId approvedBy).store between := by
    cases c with
    | create env' ud => exact absurd hc (by simp [Call.resolves])
    | approve env' rid by' =>
      simp only [Call.resolves] at hc
      subst hc
      exact approveSignupRequest_resolved _ env' rid by' _ hread hfind hst
    | reject env' rid by' reason =>
      simp only [Call.resolves] at hc
      subst hc
      exact rejectSignupRequest_resolved _ env' rid by' reason _ hread hfind hst
  refine ⟨hone.1, hone.2, approved env approvedBy r, ?_, rfl, rfl, rfl⟩
  rw [hone.2]
  exact hfind

/-- Witness for C3, amended: `alice` is approved; `bob` signs up, `alice` is approved
again and `bob` rejected; a rejection of `alice` is then refused. -/
theorem resolved_request_stays_approved_witness :
    (approveSignupRequest aliceStore (approveEnv { success := true, error := none } 1001)
        "1000" "admin").result.success = true ∧
    (∀ c ∈ [Call.create (createEnv false 1002) (signupData "bob"),
            Call.approve (approveEnv { success := true, error := none } 1003) "1000" "boss",
            Call.reject (rejectEnv 1004) "1002" "boss" "no"],
        c.keeps "1000") ∧
    ((Call.reject (rejectEnv 1005) "1000" "boss" "late").exec
        (run (approveSignupRequest aliceStore (approveEnv { success := true, error := none } 1001)
          "1000" "admin").store
          [Call.create (createEnv false 1002) (signupData "bob"),
            Call.approve (approveEnv { success := true, error := none } 1003) "1000" "boss",
            Call.reject (rejectEnv 1004) "1002" "boss" "no"])).result
      = { success := false, requestId := none, error := some "Request is already approved" } :=
  have hok : (approveSignupRequest aliceStore (approveEnv { success := true, error := none } 1001)
        "1000" "admin").result.success = true := by decide
  have hl : ∀ c ∈ [Call.create (createEnv false 1002) (signupData "bob"),
            Call.approve (approveEnv { success := true, error := none } 1003) "1000" "boss",
            Call.reject (rejectEnv 1004) "1002" "boss" "no"],
        c.keeps "1000" := by
    intro c hc
    simp only [List.mem_cons, List.mem_singleton, List.not_mem_nil, or_false] at hc
    rcases hc with rfl | rfl | rfl
    · exact ⟨rfl, by decide⟩
    · trivial
    · trivial
  ⟨hok, hl,
    (resolved_request_stays_approved aliceStore
      (approveEnv { success := true, error := none } 1001) "1000" "admin" hok _ hl
      (Call.reject (rejectEnv 1005) "1000" "boss" "late") rfl rfl).1⟩

/-! ## The shape of an outcome -/

/-- `createSignupRequest` either returns early, with a failure, the store
untouched and no write, or reaches the two writes of lines 52-56. -/
theorem createSignupRequest_shape (s : Store) (env : CreateEnv) (ud : UserData) :
    ((createSignupRequest s env ud).store = s ∧
      (createSignupRequest s env ud).result.success = false ∧
      ∀ ev ∈ (createSignupRequest s env ud).trace, ev.isWrite = false) ∨
    ∃ u pw n e, ud.username = some u ∧ ud.password = some pw ∧ ud.name = some n ∧
      ud.email = some e ∧ u ≠ "" ∧ pw ≠ "" ∧ n ≠ "" ∧ e ≠ "" ∧
      (getSignupRequestByUsername s env.lookup u).result = none ∧
      env.usernameExists = Except.ok false ∧
      createSignupRequest s env ud =
        persist s
          ((getSignupRequests s env.lookup none).trace ++ [Event.checkUsernameExists u] ++
            (getSignupRequests s env.reload none).trace)
          ((getSignupRequests s env.reload none).result ++ [newRequest env u pw n e ud.role])
          env.setItem env.writeFile "Failed to create signup request"
          { success := true, requestId := some (toString env.now), error := none } := by
  unfold createSignupRequest
  cases hu : ud.username <;> cases hpw : ud.password <;> cases hn : ud.name <;>
    cases he : ud.email <;> try (left; exact ⟨rfl, rfl, by simp⟩)
  rename_i u pw n e
  dsimp only
  by_cases hne : (u == "" || pw == "" || n == "" || e == "") = true
  · left; rw [if_pos hne]; exact ⟨rfl, rfl, by simp⟩
  · rw [if_neg hne]
    simp only [Bool.or_eq_true, beq_iff_eq, not_or] at hne
    by_cases hex : (getSignupRequestByUsername s env.lookup u).result.isSome = true
    · left; rw [if_pos hex]
      exact ⟨rfl, rfl, getSignupRequests_no_write s env.lookup none⟩
    · rw [if_neg hex]
      have hnw : ∀ ev ∈ (getSignupRequestByUsername s env.lookup u).trace ++
          [Event.checkUsernameExists u], ev.isWrite = false := by
        intro ev hev
        rw [List.mem_append, List.mem_singleton] at hev
        rcases hev with h | h
        · exact getSignupRequests_no_write s env.lookup none ev h
        · subst h; rfl
      cases hd : env.usernameExists with
      | error msg => left; exact ⟨rfl, rfl, hnw⟩
      | ok b =>
        cases b with
        | true => left; exact ⟨rfl, rfl, hnw⟩
        | false =>
          right
          exact ⟨u, pw, n, e, rfl, rfl, rfl, rfl, hne.1.1.1, hne.1.1.2, hne.1.2, hne.2,
            by simpa using hex, rfl, rfl⟩

/-- `approveSignupRequest` either returns early, with a failure, the store
untouched and no write, or reaches the two writes of lines 163-165. -/
theorem approveSignupRequest_shape (s : Store) (env : ApproveEnv) (rid by_ : String) :
    ((approveSignupRequest s env rid by_).store = s ∧
      (approveSignupRequest s env rid by_).result.success = false ∧
      ∀ ev ∈ (approveSignupRequest s env rid by_).trace, ev.isWrite = false) ∨
    ∃ r added, (getSignupRequests s env.read none).result.find? (fun req => req.id == rid) = some r ∧
      r.status = "pending" ∧ env.addUser = Except.ok added ∧ added.success = true ∧
      approveSignupRequest s env rid by_ =
        persist s
          ((getSignupRequests s env.read none).trace ++
            [Event.addUserToFile (newUserOf env (markApproved env by_ r))])
          (updateFirst (fun req => req.id == rid) (approved env by_)
            (getSignupRequests s env.read none).result)
          env.setItem env.writeFile "Failed to approve signup request"
          { success := true, requestId := none, error := none } := by
  cases hfind : (getSignupRequests s env.read none).result.find? (fun req => req.id == rid) with
  | none =>
    left
    have h : approveSignupRequest s env rid by_ =
        { result := failure "Signup request not found", store := s,
          trace := (getSignupRequests s env.read none).trace } := by
      unfold approveSignupRequest
      simp only [hfind]
    rw [h]
    exact ⟨rfl, rfl, getSignupRequests_no_write s env.read none⟩
  | some r =>
    unfold approveSignupRequest
    simp only [hfind]
    by_cases hst : (r.status != "pending") = true
    · left; rw [if_pos hst]
      exact ⟨rfl, rfl, getSignupRequests_no_write s env.read none⟩
    · rw [if_neg hst]
      have hnw : ∀ ev ∈ (getSignupRequests s env.read none).trace ++
          [Event.addUserToFile (newUserOf env (markApproved env by_ r))],
          ev.isWrite = false := by
        intro ev hev
        rw [List.mem_append, List.mem_singleton] at hev
        rcases hev with h | h
        · exact getSignupRequests_no_write s env.read none ev h
        · subst h; rfl
      cases hadd : env.addUser with
      | error msg => left; exact ⟨rfl, rfl, hnw⟩
      | ok added =>
        simp only
        by_cases hs : (!added.success) = true
        · left; rw [if_pos hs]; exact ⟨rfl, rfl, hnw⟩
        · rw [if_neg hs]
          right
          exact ⟨r, added, rfl, by simpa using hst, rfl, by simpa using hs, rfl⟩

/-- `rejectSignupRequest` either returns early, with a failure, the store
untouched and no write, or reaches the two writes of lines 205-207. -/
theorem rejectSignupRequest_shape (s : Store) (env : RejectEnv) (rid by_ reason : String) :
    ((rejectSignupRequest s env rid by_ reason).store = s ∧
      (rejectSignupRequest s env rid by_ reason).result.success = false ∧
      ∀ ev ∈ (rejectSignupRequest s env rid by_ reason).trace, ev.isWrite = false) ∨
    ∃ r, (getSignupRequests s env.read none).result.find? (fun req => req.id == rid) = some r ∧
      r.status = "pending" ∧
      rejectSignupRequest s env rid by_ reason =
        persist s (getSignupRequests s env.read none).trace
          (updateFirst (fun req => req.id == rid) (rejected env by_ reason)
            (getSignupRequests s env.read none).result)
          env.setItem env.writeFile "Failed to reject signup request"
          { success := true, requestId := none, error := none } := by
  cases hfind : (getSignupRequests s env.read none).result.find? (fun req => req.id == rid) with
  | none =>
    left
    have h : rejectSignupRequest s env rid by_ reason =
        { result := failure "Signup request not found", store := s,
          trace := (getSignupRequests s env.read none).trace } := by
      unfold rejectSignupRequest
      simp only [hfind]
    rw [h]
    exact ⟨rfl, rfl, getSignupRequests_no_write s env.read none⟩
  | some r =>
    unfold rejectSignupRequest
    simp only [hfind]
    by_cases hst : (r.status != "pending") = true
    · left; rw [if_pos hst]
      exact ⟨rfl, rfl, getSignupRequests_no_write s env.read none⟩
    · rw [if_neg hst]
      right
      exact ⟨r, rfl, by simpa using hst, rfl⟩

/-! ## Validation, the directory check and unknown ids -/

theorem loadRequests_only_reads (s : Store) (env : ReadEnv) :
    ∀ ev ∈ (loadRequests s env).2,
      ev.isWrite = false ∧ ev.isCheck = false ∧ ev.isAddUser = false := by
  unfold loadRequests
  cases env.getItemFails <;> simp [Event.isWrite, Event.isCheck, Event.isAddUser]
  cases s.cache.getD [] <;> simp [Event.isWrite, Event.isCheck, Event.isAddUser]
  cases env.getInfoFails <;> simp [Event.isWrite, Event.isCheck, Event.isAddUser]
  cases s.mirror <;> simp [Event.isWrite, Event.isCheck, Event.isAddUser]
  cases env.readFileFails <;> simp [Event.isWrite, Event.isCheck, Event.isAddUser]

theorem getSignupRequests_only_reads (s : Store) (env : ReadEnv) (status : Option String) :
    ∀ ev ∈ (getSignupRequests s env status).trace,
      ev.isWrite = false ∧ ev.isCheck = false ∧ ev.isAddUser = false := by
  rw [getSignupRequests_trace]
  exact loadRequests_only_reads s env

theorem find?_read_eq_none (s : Store) (env : ReadEnv) (p : Request → Bool)
    (h : ∀ r ∈ s.requests, p r = false) :
    (getSignupRequests s env none).result.find? p = none := by
  rcases getSignupRequests_cases s env none with e | e <;> rw [e]
  · rfl
  · rw [filterStatus_none, List.find?_eq_none]
    intro r hr
    simp [h r (mem_sortRequests.mp hr)]

/-- C13. For every store, environment and input in which any of `username`,
`password`, `name` or `email` is missing or empty, `createSignupRequest`
returns `success: false` with the error `'All fields are required'`, leaves
the store as it is and makes no external call at all, so nothing is written to
the cache or the mirror. -/
theorem missing_field_is_refused (s : Store) (env : CreateEnv) (userData : UserData)
    (hmissing : falsy userData.username = true ∨ falsy userData.password = true ∨
      falsy userData.name = true ∨ falsy userData.email = true) :
    (createSignupRequest s env userData).result
        = { success := false, requestId := none, error := some "All fields are required" } ∧
      (createSignupRequest s env userData).store = s ∧
      (createSignupRequest s env userData).trace = [] := by
  unfold createSignupRequest
  cases hu : userData.username <;> cases hpw : userData.password <;>
    cases hn : userData.name <;> cases he : userData.email <;> try exact ⟨rfl, rfl, rfl⟩
  rename_i u pw n e
  rw [hu, hpw, hn, he] at hmissing
  simp only [falsy, beq_iff_eq] at hmissing
  have hc : (u == "" || pw == "" || n == "" || e == "") = true := by
    simp only [Bool.or_eq_true, beq_iff_eq]
    tauto
  dsimp only
  rw [if_pos hc]
  exact ⟨rfl, rfl, rfl⟩

/-- Witness for C13: a form without a password. -/
theorem missing_field_is_refused_witness :
    (falsy (some "alice") = true ∨ falsy (none : Option String) = true ∨
      falsy (some "Alice") = true ∨ falsy (some "alice@example.org") = true) ∧
    (createSignupRequest aliceStore (createEnv false 2000)
        { username := some "alice", password := none, name := some "Alice",
          email := some "alice@example.org", role := none }).result
      = { success := false, requestId := none, error := some "All fields are required" } ∧
    (createSignupRequest aliceStore (createEnv false 2000)
        { username := some "alice", password := none, name := some "Alice",
          email := some "alice@example.org", role := none }).store = aliceStore :=
  have h := missing_field_is_refused aliceStore (createEnv false 2000)
    { username := some "alice", password := none, name := some "Alice",
      email := some "alice@example.org", role := none } (Or.inr (Or.inl rfl))
  ⟨Or.inr (Or.inl rfl), h.1, h.2.1⟩

/-- C14. For every store with no request for username `U` and every candidate
with username `U` and all four fields present: if `checkUsernameExists(U)`
reports `true`, `createSignupRequest` returns `success: false` with the error
`'Username already exists'`, the store is unchanged and no storage write is
made. -/
theorem known_username_is_refused (s : Store) (env : CreateEnv) (userData : UserData)
    (U password name email : String)
    (hu : userData.username = some U) (hp : userData.password = some password)
    (hn : userData.name = some name) (he : userData.email = some email)
    (hpresent : U ≠ "" ∧ password ≠ "" ∧ name ≠ "" ∧ email ≠ "")
    (habsent : ∀ r ∈ s.requests, r.username ≠ U)
    (hknown : env.usernameExists = Except.ok true) :
    (createSignupRequest s env userData).result
        = { success := false, requestId := none, error := some "Username already exists" } ∧
      (createSignupRequest s env userData).store = s ∧
      (∀ ev ∈ (createSignupRequest s env userData).trace, ev.isWrite = false) ∧
      Event.checkUsernameExists U ∈ (createSignupRequest s env userData).trace := by
  have hnone : ¬ ((getSignupRequestByUsername s env.lookup U).result.isSome = true) := by
    have : (getSignupRequestByUsername s env.lookup U).result = none :=
      find?_read_eq_none s env.lookup _ (fun r hr => by simpa using habsent r hr)
    rw [this]
    simp
  have hne : ¬ ((U == "" || password == "" || name == "" || email == "") = true) := by
    simp [hpresent.1, hpresent.2.1, hpresent.2.2.1, hpresent.2.2.2]
  have hout : createSignupRequest s env userData =
      { result := failure "Username already exists", store := s,
        trace := (getSignupRequests s env.lookup none).trace ++ [Event.checkUsernameExists U] } := by
    unfold createSignupRequest
    rw [hu, hp, hn, he]
    dsimp only
    rw [if_neg hne, if_neg hnone, hknown]
    rfl
  rw [hout]
  refine ⟨rfl, rfl, ?_, by simp⟩
  intro ev hev
  simp only [List.mem_append, List.mem_singleton] at hev
  rcases hev with h | h
  · exact getSignupRequests_no_write s _ _ ev h
  · subst h; rfl

/-- Witness for C14: `bob` is unknown to the store and known to the directory. -/
theorem known_username_is_refused_witness :
    (∀ r ∈ aliceStore.requests, r.username ≠ "bob") ∧
    (createSignupRequest aliceStore (createEnv true 2000) (signupData "bob")).result
      = { success := false, requestId := none, error := some "Username already exists" } ∧
    (createSignupRequest aliceStore (createEnv true 2000) (signupData "bob")).store
      = aliceStore :=
  have habs : ∀ r ∈ aliceStore.requests, r.username ≠ "bob" := by decide
  have h := known_username_is_refused aliceStore (createEnv true 2000) (signupData "bob")
    "bob" "s3cret" "Some Body" "somebody@example.org" rfl rfl rfl rfl (by decide) habs rfl
  ⟨habs, h.1, h.2.1⟩

/-- C17. For every store and every id that no stored request carries,
`approveSignupRequest` and `rejectSignupRequest` return `success: false` with
the error `'Signup request not found'`, whatever their environment; they make
no account-creation call and no write, and leave the cache and the mirror
unchanged. -/
theorem unknown_id_is_not_found (s : Store) (requestId : String)
    (habsent : ∀ r ∈ s.requests, r.id ≠ requestId) :
    (∀ (env : ApproveEnv) (approvedBy : String),
      (approveSignupRequest s env requestId approvedBy).result
          = { success := false, requestId := none, error := some "Signup request not found" } ∧
        (approveSignupRequest s env requestId approvedBy).store = s ∧
        ∀ ev ∈ (approveSignupRequest s env requestId approvedBy).trace,
          ev.isAddUser = false ∧ ev.isWrite = false) ∧
    (∀ (env : RejectEnv) (rejectedBy reason : String),
      (rejectSignupRequest s env requestId rejectedBy reason).result
          = { success := false, requestId := none, error := some "Signup request not found" } ∧
        (rejectSignupRequest s env requestId rejectedBy reason).store = s ∧
        ∀ ev ∈ (rejectSignupRequest s env requestId rejectedBy reason).trace,
          ev.isAddUser = false ∧ ev.isWrite = false) := by
  constructor
  · intro env by_
    have hfind := find?_read_eq_none s env.read (fun req => req.id == requestId)
      (fun r hr => by simpa using habsent r hr)
    have h : approveSignupRequest s env requestId by_ =
        { result := failure "Signup request not found", store := s,
          trace := (getSignupRequests s env.read none).trace } := by
      unfold approveSignupRequest
      simp only [hfind]
    rw [h]
    exact ⟨rfl, rfl, fun ev hev =>
      ⟨(getSignupRequests_only_reads s _ _ ev hev).2.2, (getSignupRequests_only_reads s _ _ ev hev).1⟩⟩
  · intro env by_ reason
    have hfind := find?_read_eq_none s env.read (fun req => req.id == requestId)
      (fun r hr => by simpa using habsent r hr)
    have h : rejectSignupRequest s env requestId by_ reason =
        { result := failure "Signup request not found", store := s,
          trace := (getSignupRequests s env.read none).trace } := by
      unfold rejectSignupRequest
      simp only [hfind]
    rw [h]
    exact ⟨rfl, rfl, fun ev hev =>
      ⟨(getSignupRequests_only_reads s _ _ ev hev).2.2, (getSignupRequests_only_reads s _ _ ev hev).1⟩⟩

/-- Witness for C17: no request of `aliceStore` has the id `"4711"`. -/
theorem unknown_id_is_not_found_witness :
    (∀ r ∈ aliceStore.requests, r.id ≠ "4711") ∧
    (approveSignupRequest aliceStore (approveEnv { success := true, error := none } 2000)
        "4711" "admin").result
      = { success := false, requestId := none, error := some "Signup request not found" } ∧
    (rejectSignupRequest aliceStore (rejectEnv 2000) "4711" "admin" "no").result
      = { success := false, requestId := none, error := some "Signup request not found" } :=
  have habs : ∀ r ∈ aliceStore.requests, r.id ≠ "4711" := by decide
  ⟨habs,
    ((unknown_id_is_not_found aliceStore "4711" habs).1
      (approveEnv { success := true, error := none } 2000) "admin").1,
    ((unknown_id_is_not_found aliceStore "4711" habs).2 (rejectEnv 2000) "admin" "no").1⟩

/-! ## A failing mirror write -/

/-- Every call either returns early, with a failure, the store untouched and
no write, or ends with the two writes (`persist`) of an array `w`. -/
theorem exec_shape (s : Store) (c : Call) :
    ((c.exec s).store = s ∧ (c.exec s).result.success = false ∧
      ∀ ev ∈ (c.exec s).trace, ev.isWrite = false) ∨
    ∃ t w done, (∀ ev ∈ t, ev.isWrite = false) ∧ done.success = true ∧
      c.exec s = persist s t w c.setItem c.writeFile c.fallback done := by
  cases c with
  | create env ud =>
    rcases createSignupRequest_shape s env ud with h | ⟨u, pw, n, e, _, _, _, _, _, _, _, _, _, _, h⟩
    · exact Or.inl h
    · right
      refine ⟨_, _, _, ?_, rfl, h⟩
      intro ev hev
      simp only [List.mem_append, List.mem_singleton] at hev
      rcases hev with (hev | hev) | hev
      · exact getSignupRequests_no_write s _ _ ev hev
      · subst hev; rfl
      · exact getSignupRequests_no_write s _ _ ev hev
  | approve env rid by_ =>
    rcases approveSignupRequest_shape s env rid by_ with h | ⟨r, added, _, _, _, _, h⟩
    · exact Or.inl h
    · right
      refine ⟨_, _, _, ?_, rfl, h⟩
      intro ev hev
      simp only [List.mem_append, List.mem_singleton] at hev
      rcases hev with hev | hev
      · exact getSignupRequests_no_write s _ _ ev hev
      · subst hev; rfl
  | reject env rid by_ reason =>
    rcases rejectSignupRequest_shape s env rid by_ reason with h | ⟨r, _, _, h⟩
    · exact Or.inl h
    · right
      exact ⟨_, _, _, getSignupRequests_no_write s _ _, rfl, h⟩

/-- What `persist` does when its trace holds a mirror write that throws. -/
theorem persist_mirror_failure (s : Store) (t : List Event) (w : List Request)
    (si wf : Fault) (fb : String) (done : Result) (msg : String)
    (ht : ∀ ev ∈ t, ev.isWrite = false) (hwf : wf = some msg)
    (hreached : ∃ w', Event.writeFile w' ∈ (persist s t w si wf fb done).trace) :
    si = none ∧ persist s t w si wf fb done =
      { result := caught msg fb, store := { cache := some w, mirror := s.mirror },
        trace := t ++ [Event.setItem w, Event.writeFile w] } := by
  obtain ⟨w', hw'⟩ := hreached
  subst hwf
  cases si with
  | some m =>
    exfalso
    simp only [persist, List.mem_append, List.mem_singleton] at hw'
    rcases hw' with h | h
    · have := ht _ h
      simp [Event.isWrite] at this
    · cases h
  | none => exact ⟨rfl, rfl⟩

/-- Counterexample to C11: with a mirror write that throws `'disk full'` after
the cache write succeeded, `createSignupRequest`, `approveSignupRequest` and
`rejectSignupRequest` each return `success: false`, the cache already holding
the new array. -/
theorem mirror_failure_is_not_swallowed :
    (createSignupRequest Store.empty
        { createEnv false 1000 with writeFile := some "disk full" }
        (signupData "alice")).result.success = false ∧
    (createSignupRequest Store.empty
        { createEnv false 1000 with writeFile := some "disk full" }
        (signupData "alice")).store = { cache := some [aliceRequest], mirror := none } ∧
    (approveSignupRequest aliceStore
        { approveEnv { success := true, error := none } 1001 with writeFile := some "disk full" }
        "1000" "admin").result.success = false ∧
    (approveSignupRequest aliceStore
        { approveEnv { success := true, error := none } 1001 with writeFile := some "disk full" }
        "1000" "admin").store.cache ≠ aliceStore.cache ∧
    (rejectSignupRequest aliceStore { rejectEnv 1001 with writeFile := some "disk full" }
        "1000" "admin" "no").result.success = false ∧
    (rejectSignupRequest aliceStore { rejectEnv 1001 with writeFile := some "disk full" }
        "1000" "admin" "no").store.cache ≠ aliceStore.cache := by
  decide

/-- C11, amended. For each of `createSignupRequest`, `approveSignupRequest`
and `rejectSignupRequest`: if the mirror file write is attempted (so the cache
write succeeded) and throws an error with message `msg`, the operation returns
`success: false` with `msg || <fallback of the operation>`; the cache holds
the array just written and the mirror keeps its previous content. -/
theorem mirror_failure_is_reported (s : Store) (c : Call) (msg : String)
    (hfails : c.writeFile = some msg)
    (hreached : ∃ w, Event.writeFile w ∈ (c.exec s).trace) :
    (c.exec s).result
        = { success := false, requestId := none, error := some (orElse (some msg) c.fallback) } ∧
      c.setItem = none ∧
      ∃ w, (c.exec s).store = { cache := some w, mirror := s.mirror } ∧
        Event.setItem w ∈ (c.exec s).trace ∧ Event.writeFile w ∈ (c.exec s).trace := by
  rcases exec_shape s c with ⟨_, _, hnw⟩ | ⟨t, w, done, ht, _, heq⟩
  · obtain ⟨w, hw⟩ := hreached
    have := hnw _ hw
    simp [Event.isWrite] at this
  · rw [heq] at hreached
    obtain ⟨hsi, hp⟩ := persist_mirror_failure s t w _ _ _ done msg ht hfails hreached
    rw [heq, hp]
    exact ⟨rfl, hsi, w, rfl, by simp, by simp⟩

/-- Witness for C11, amended: the rejection of `alice` with a full disk. -/
theorem mirror_failure_is_reported_witness :
    (∃ w, Event.writeFile w ∈
      ((Call.reject { rejectEnv 1001 with writeFile := some "disk full" }
          "1000" "admin" "no").exec aliceStore).trace) ∧
    ((Call.reject { rejectEnv 1001 with writeFile := some "disk full" }
        "1000" "admin" "no").exec aliceStore).result
      = { success := false, requestId := none, error := some "disk full" } :=
  have h : ∃ w, Event.writeFile w ∈
      ((Call.reject { rejectEnv 1001 with writeFile := some "disk full" }
          "1000" "admin" "no").exec aliceStore).trace :=
    ⟨[rejected { rejectEnv 1001 with writeFile := some "disk full" } "admin" "no" aliceRequest],
      by decide⟩
  ⟨h, (mirror_failure_is_reported aliceStore
    (Call.reject { rejectEnv 1001 with writeFile := some "disk full" } "1000" "admin" "no")
    "disk full" rfl h).1⟩

/-- Counterexample to C12: the approval of `alice` with a mirror write that
throws returns `success: false`, and the list `getSignupRequests()` returns
after the call differs from the list it returned before. -/
theorem failed_approval_is_visible_to_readers :
    (approveSignupRequest aliceStore
        { approveEnv { success := true, error := none } 1001 with writeFile := some "disk full" }
        "1000" "admin").result.success = false ∧
    (getSignupRequests aliceStore ReadEnv.ok none).result = [aliceRequest] ∧
    (getSignupRequests
        (approveSignupRequest aliceStore
          { approveEnv { success := true, error := none } 1001 with
            writeFile := some "disk full" }
          "1000" "admin").store ReadEnv.ok none).result
      ≠ (getSignupRequests aliceStore ReadEnv.ok none).result := by
  decide

/-- C12, amended. Whenever `createSignupRequest`, `approveSignupRequest` or
`rejectSignupRequest` returns `success: false` and the failing call is not the
mirror write (a mirror write, if attempted at all, completes), the store is
unchanged, and so for every store and every read environment the list
`getSignupRequests` returns after the call equals the list it returns before
the call. -/
theorem failure_without_mirror_failure_changes_nothing (s : Store) (c : Call)
    (hfail : (c.exec s).result.success = false)
    (hmirror : ∀ w, Event.writeFile w ∈ (c.exec s).trace → c.writeFile = none) :
    (c.exec s).store = s ∧
      ∀ (env : ReadEnv) (status : Option String),
        (getSignupRequests (c.exec s).store env status).result
          = (getSignupRequests s env status).result := by
  have hs : (c.exec s).store = s := by
    rcases exec_shape s c with ⟨h, _, _⟩ | ⟨t, w, done, _, hdone, heq⟩
    · exact h
    · rw [heq] at hfail hmirror ⊢
      cases hsi : c.setItem with
      | some m => simp [persist]
      | none =>
        have hwf : c.writeFile = none := by
          apply hmirror w
          rw [hsi]
          cases c.writeFile <;> simp [persist]
        rw [hsi, hwf] at hfail
        simp only [persist] at hfail
        rw [hdone] at hfail
        cases hfail
  refine ⟨hs, ?_⟩
  intro env status
  rw [hs]

/-- Witness for C12, amended: the approval of `alice` with a cache write that
throws. -/
theorem failure_without_mirror_failure_changes_nothing_witness :
    ((Call.approve { approveEnv { success := true, error := none } 1001 with
          setItem := some "quota exceeded" } "1000" "admin").exec aliceStore).result.success
      = false ∧
    ((Call.approve { approveEnv { success := true, error := none } 1001 with
          setItem := some "quota exceeded" } "1000" "admin").exec aliceStore).store
      = aliceStore :=
  have hf : ((Call.approve { approveEnv { success := true, error := none } 1001 with
          setItem := some "quota exceeded" } "1000" "admin").exec aliceStore).result.success
      = false := by decide
  ⟨hf, (failure_without_mirror_failure_changes_nothing aliceStore
    (Call.approve { approveEnv { success := true, error := none } 1001 with
          setItem := some "quota exceeded" } "1000" "admin") hf (fun _ _ => rfl)).1⟩

/-! ## A successful submission -/

theorem read_filter_isAddUser (s : Store) (env : ReadEnv) (status : Option String) :
    (getSignupRequests s env status).trace.filter Event.isAddUser = [] := by
  rw [List.filter_eq_nil_iff]
  intro ev hev
  simp [(getSignupRequests_only_reads s env status ev hev).2.2]

/-- C16. For every store with no request for username `U`, a directory that
does not know `U` and working storage: `createSignupRequest` with `U`,
password, name and email present returns `success: true` with a `requestId`;
afterwards the cache and the mirror hold every previous record plus exactly
one new record `r`, appended last, whose id is that `requestId`
(`Date.now().toString()`), with status `'pending'`, the submitted username,
password, name and email, the role defaulting to `'employee'`, and
`approvedAt`, `approvedBy` and `rejectionReason` all `null`. -/
theorem signup_is_recorded (s : Store) (env : CreateEnv) (userData : UserData)
    (U password name email : String)
    (hu : userData.username = some U) (hp : userData.password = some password)
    (hn : userData.name = some name) (he : userData.email = some email)
    (hpresent : U ≠ "" ∧ password ≠ "" ∧ name ≠ "" ∧ email ≠ "")
    (habsent : ∀ r ∈ s.requests, r.username ≠ U)
    (hunknown : env.usernameExists = Except.ok false)
    (hreload : env.reload = ReadEnv.ok) (hset : env.setItem = none)
    (hwrite : env.writeFile = none) :
    ∃ r : Request,
      (createSignupRequest s env userData).result
        = { success := true, requestId := some r.id, error := none } ∧
      r.id = toString env.now ∧ r.status = "pending" ∧ r.username = U ∧
      r.password = some password ∧ r.name = name ∧ r.email = email ∧
      r.role = userData.role.getD "employee" ∧
      r.approvedAt = none ∧ r.approvedBy = none ∧ r.rejectionReason = none ∧
      (createSignupRequest s env userData).store.requests = sortRequests s.requests ++ [r] ∧
      ((createSignupRequest s env userData).store.requests).Perm (r :: s.requests) ∧
      (createSignupRequest s env userData).store.cache
        = some (createSignupRequest s env userData).store.requests ∧
      (createSignupRequest s env userData).store.mirror
        = some (createSignupRequest s env userData).store.requests := by
  have hnone : ¬ ((getSignupRequestByUsername s env.lookup U).result.isSome = true) := by
    have : (getSignupRequestByUsername s env.lookup U).result = none :=
      find?_read_eq_none s env.lookup _ (fun r hr => by simpa using habsent r hr)
    rw [this]
    simp
  have hne : ¬ ((U == "" || password == "" || name == "" || email == "") = true) := by
    simp [hpresent.1, hpresent.2.1, hpresent.2.2.1, hpresent.2.2.2]
  have hout : createSignupRequest s env userData =
      { result := { success := true, requestId := some (toString env.now), error := none },
        store :=
          { cache := some (sortRequests s.requests ++
              [newRequest env U password name email userData.role]),
            mirror := some (sortRequests s.requests ++
              [newRequest env U password name email userData.role]) },
        trace := (createSignupRequest s env userData).trace } := by
    unfold createSignupRequest
    rw [hu, hp, hn, he]
    dsimp only
    rw [if_neg hne, if_neg hnone, hunknown]
    dsimp only
    rw [hset, hwrite, hreload, getSignupRequests_ok, filterStatus_none]
    rfl
  have hreq : (createSignupRequest s env userData).store.requests
      = sortRequests s.requests ++ [newRequest env U password name email userData.role] := by
    rw [hout]
    exact requests_of_written _ _ (by simp)
  refine ⟨newRequest env U password name email userData.role, ?_, rfl, rfl, rfl, rfl, rfl, rfl,
    rfl, rfl, rfl, rfl, hreq, ?_, ?_, ?_⟩
  · rw [hout]
    rfl
  · rw [hreq]
    exact (List.perm_append_singleton _ _).trans ((sortRequests_perm _).cons _)
  · rw [hreq, hout]
  · rw [hreq, hout]

/-- Witness for C16: `bob` signs up after `alice`. -/
theorem signup_is_recorded_witness :
    (∀ r ∈ aliceStore.requests, r.username ≠ "bob") ∧
    ∃ r : Request,
      (createSignupRequest aliceStore (createEnv false 2000) (signupData "bob")).result
        = { success := true, requestId := some r.id, error := none } ∧
      r.id = "2000" ∧ r.status = "pending" ∧ r.username = "bob" ∧
      (createSignupRequest aliceStore (createEnv false 2000) (signupData "bob")).store.requests
        = sortRequests aliceStore.requests ++ [r] :=
  have habs : ∀ r ∈ aliceStore.requests, r.username ≠ "bob" := by decide
  have h := signup_is_recorded aliceStore (createEnv false 2000) (signupData "bob")
    "bob" "s3cret" "Some Body" "somebody@example.org" rfl rfl rfl rfl (by decide) habs
    rfl rfl rfl rfl
  ⟨habs, h.choose, h.choose_spec.1, h.choose_spec.2.1, h.choose_spec.2.2.1,
    h.choose_spec.2.2.2.1, h.choose_spec.2.2.2.2.2.2.2.2.2.2.2.1⟩

/-! ## Successful resolutions -/

/-- `approveSignupRequest` on a pending request when the account is created
and both writes complete. -/
theorem approveSignupRequest_of_pending (s : Store) (env : ApproveEnv) (rid by_ : String)
    (r : Request) (added : AddResult)
    (hfind : (getSignupRequests s env.read none).result.find? (fun req => req.id == rid) = some r)
    (hst : r.status = "pending") (hadd : env.addUser = Except.ok added)
    (hadded : added.success = true) (hset : env.setItem = none) (hwrite : env.writeFile = none) :
    approveSignupRequest s env rid by_ =
      { result := { success := true, requestId := none, error := none },
        store :=
          { cache := some (updateFirst (fun req => req.id == rid) (approved env by_)
              (getSignupRequests s env.read none).result),
            mirror := some (updateFirst (fun req => req.id == rid) (approved env by_)
              (getSignupRequests s env.read none).result) },
        trace := (getSignupRequests s env.read none).trace ++
          [Event.addUserToFile (newUserOf env (markApproved env by_ r))] ++
          [Event.setItem (updateFirst (fun req => req.id == rid) (approved env by_)
              (getSignupRequests s env.read none).result),
           Event.writeFile (updateFirst (fun req => req.id == rid) (approved env by_)
              (getSignupRequests s env.read none).result)] } := by
  have hb : ¬ ((r.status != "pending") = true) := by simp [hst]
  have hs : ¬ ((!added.success) = true) := by simp [hadded]
  unfold approveSignupRequest
  simp only [hfind, hadd]
  rw [if_neg hb, if_neg hs, hset, hwrite]
  rfl

/-- The outcome of `rejectSignupRequest` on a pending request when both writes
complete, trace included. -/
theorem rejectSignupRequest_eq_of_pending (s : Store) (env : RejectEnv)
    (rid by_ reason : String) (r : Request)
    (hfind : (getSignupRequests s env.read none).result.find? (fun req => req.id == rid) = some r)
    (hst : r.status = "pending") (hset : env.setItem = none) (hwrite : env.writeFile = none) :
    rejectSignupRequest s env rid by_ reason =
      { result := { success := true, requestId := none, error := none },
        store :=
          { cache := some (updateFirst (fun req => req.id == rid) (rejected env by_ reason)
              (getSignupRequests s env.read none).result),
            mirror := some (updateFirst (fun req => req.id == rid) (rejected env by_ reason)
              (getSignupRequests s env.read none).result) },
        trace := (getSignupRequests s env.read none).trace ++
          [Event.setItem (updateFirst (fun req => req.id == rid) (rejected env by_ reason)
              (getSignupRequests s env.read none).result),
           Event.writeFile (updateFirst (fun req => req.id == rid) (rejected env by_ reason)
              (getSignupRequests s env.read none).result)] } := by
  have hb : ¬ ((r.status != "pending") = true) := by simp [hst]
  unfold rejectSignupRequest
  simp only [hfind]
  rw [if_neg hb, hset, hwrite]
  rfl

/-- C18. For every store in which a pending request `r` is found under the
given id, and working storage: `rejectSignupRequest(id, actor, reason)`
returns `success: true`; its trace holds no call to the Identity Directory;
afterwards both layers hold the same array and the record found under the id
has status `'rejected'`, `approvedBy` equal to the actor, `approvedAt` set (to
the time of the call), `rejectionReason` equal to the supplied reason and no
password. -/
theorem rejection_is_recorded (s : Store) (env : RejectEnv)
    (requestId rejectedBy reason : String) (r : Request)
    (hread : env.read = ReadEnv.ok) (hset : env.setItem = none) (hwrite : env.writeFile = none)
    (hfind : (getSignupRequests s ReadEnv.ok none).result.find?
      (fun req => req.id == requestId) = some r)
    (hpending : r.status = "pending") :
    (rejectSignupRequest s env requestId rejectedBy reason).result
        = { success := true, requestId := none, error := none } ∧
      (∀ ev ∈ (rejectSignupRequest s env requestId rejectedBy reason).trace,
        ev.isCheck = false ∧ ev.isAddUser = false) ∧
      (rejectSignupRequest s env requestId rejectedBy reason).store.cache
        = (rejectSignupRequest s env requestId rejectedBy reason).store.mirror ∧
      ∃ r', (getSignupRequests (rejectSignupRequest s env requestId rejectedBy reason).store
            ReadEnv.ok none).result.find? (fun req => req.id == requestId) = some r' ∧
        r'.status = "rejected" ∧ r'.approvedBy = some rejectedBy ∧
        r'.approvedAt = some (env.now : Int) ∧ r'.rejectionReason = some reason ∧
        r'.password = none ∧ r'.id = r.id ∧ r'.username = r.username := by
  rw [← hread] at hfind
  have hout := rejectSignupRequest_eq_of_pending s env requestId rejectedBy reason r hfind
    hpending hset hwrite
  refine ⟨by rw [hout], ?_, by rw [hout], rejected env rejectedBy reason r, ?_,
    rfl, rfl, rfl, rfl, rfl, rfl, rfl⟩
  · rw [hout]
    intro ev hev
    simp only [List.mem_append, List.mem_cons, List.mem_singleton, List.not_mem_nil,
      or_false] at hev
    rcases hev with h | h | h
    · exact ⟨(getSignupRequests_only_reads s _ _ ev h).2.1,
        (getSignupRequests_only_reads s _ _ ev h).2.2⟩
    · subst h; exact ⟨rfl, rfl⟩
    · subst h; exact ⟨rfl, rfl⟩
  · rw [hout, read_written s env.read _ (rejected env rejectedBy reason) (fun _ => rfl) _ r hfind]
    refine find_updateFirst _ _ _ r hfind ?_
    have := List.find?_some hfind
    simpa [rejected] using this

/-- Witness for C18: `alice` is rejected. -/
theorem rejection_is_recorded_witness :
    (getSignupRequests aliceStore ReadEnv.ok none).result.find?
        (fun req => req.id == "1000") = some aliceRequest ∧
    aliceRequest.status = "pending" ∧
    (rejectSignupRequest aliceStore (rejectEnv 1001) "1000" "admin" "duplicate").result
      = { success := true, requestId := none, error := none } :=
  have hfind : (getSignupRequests aliceStore ReadEnv.ok none).result.find?
        (fun req => req.id == "1000") = some aliceRequest := by decide
  ⟨hfind, rfl,
    (rejection_is_recorded aliceStore (rejectEnv 1001) "1000" "admin" "duplicate" aliceRequest
      rfl rfl rfl hfind rfl).1⟩

/-- C19. For every store in which a pending request `r` is found under the
given id, working storage and an `addUserToFile` that resolves to
`success: true`: `approveSignupRequest(id, actor)` returns `success: true`;
its trace holds exactly one account-creation call, made with the request's
username, password, email, name and role; afterwards both layers hold the same
array and the record found under the id has status `'approved'`, `approvedBy`
equal to the actor, `approvedAt` set (to the time of the call) and no
password. -/
theorem approval_is_recorded (s : Store) (env : ApproveEnv)
    (requestId approvedBy : String) (r : Request) (added : AddResult)
    (hread : env.read = ReadEnv.ok) (hset : env.setItem = none) (hwrite : env.writeFile = none)
    (hadd : env.addUser = Except.ok added) (hadded : added.success = true)
    (hfind : (getSignupRequests s ReadEnv.ok none).result.find?
      (fun req => req.id == requestId) = some r)
    (hpending : r.status = "pending") :
    (approveSignupRequest s env requestId approvedBy).result
        = { success := true, requestId := none, error := none } ∧
      (∃ u : NewUser,
        (approveSignupRequest s env requestId approvedBy).trace.filter Event.isAddUser
          = [Event.addUserToFile u] ∧
        u.username = r.username ∧ u.password = r.password ∧ u.email = r.email ∧
        u.name = r.name ∧ u.role = r.role) ∧
      (approveSignupRequest s env requestId approvedBy).store.cache
        = (approveSignupRequest s env requestId approvedBy).store.mirror ∧
      ∃ r', (getSignupRequests (approveSignupRequest s env requestId approvedBy).store
            ReadEnv.ok none).result.find? (fun req => req.id == requestId) = some r' ∧
        r'.status = "approved" ∧ r'.approvedBy = some approvedBy ∧
        r'.approvedAt = some (env.now : Int) ∧
        r'.password = none ∧ r'.id = r.id ∧ r'.username = r.username := by
  rw [← hread] at hfind
  have hout := approveSignupRequest_of_pending s env requestId approvedBy r added hfind
    hpending hadd hadded hset hwrite
  refine ⟨by rw [hout], ⟨newUserOf env (markApproved env approvedBy r), ?_, rfl, rfl, rfl, rfl,
    rfl⟩, by rw [hout], approved env approvedBy r, ?_, rfl, rfl, rfl, rfl, rfl, rfl⟩
  · rw [hout]
    simp only [List.filter_append, read_filter_isAddUser]
    rfl
  · rw [hout, read_written s env.read _ (approved env approvedBy) (fun _ => rfl) _ r hfind]
    refine find_updateFirst _ _ _ r hfind ?_
    have := List.find?_some hfind
    simpa [approved, markApproved] using this

/-- Witness for C19: `alice` is approved. -/
theorem approval_is_recorded_witness :
    (getSignupRequests aliceStore ReadEnv.ok none).result.find?
        (fun req => req.id == "1000") = some aliceRequest ∧
    aliceRequest.status = "pending" ∧
    (approveSignupRequest aliceStore (approveEnv { success := true, error := none } 1001)
        "1000" "admin").result
      = { success := true, requestId := none, error := none } :=
  have hfind : (getSignupRequests aliceStore ReadEnv.ok none).result.find?
        (fun req => req.id == "1000") = some aliceRequest := by decide
  ⟨hfind, rfl,
    (approval_is_recorded aliceStore (approveEnv { success := true, error := none } 1001)
      "1000" "admin" aliceRequest { success := true, error := none }
      rfl rfl rfl rfl rfl hfind rfl).1⟩

/-! ## The order of the calls in a submission -/

theorem getItem_mem_read_trace (s : Store) (env : ReadEnv) (status : Option String) :
    Event.getItem ∈ (getSignupRequests s env status).trace := by
  rw [getSignupRequests_trace]
  unfold loadRequests
  cases env.getItemFails <;> simp
  cases s.cache.getD [] <;> simp
  cases env.getInfoFails <;> simp
  cases s.mirror <;> simp
  cases env.readFileFails <;> simp

theorem persist_trace_no_check (s : Store) (t : List Event) (w : List Request) (si wf : Fault)
    (fb : String) (done : Result) :
    ∃ post, (persist s t w si wf fb done).trace = t ++ post ∧ ∀ ev ∈ post, ev.isCheck = false := by
  unfold persist
  cases si with
  | some m => exact ⟨[Event.setItem w], rfl, by simp [Event.isCheck]⟩
  | none =>
    cases wf with
    | some m => exact ⟨[Event.setItem w, Event.writeFile w], rfl, by simp [Event.isCheck]⟩
    | none => exact ⟨[Event.setItem w, Event.writeFile w], rfl, by simp [Event.isCheck]⟩

/-- The trace of `createSignupRequest` holds no directory check, or it is the
trace of the lookup, followed by the one directory check, followed by calls
that are not directory checks. -/
theorem createSignupRequest_trace (s : Store) (env : CreateEnv) (ud : UserData) :
    (∀ ev ∈ (createSignupRequest s env ud).trace, ev.isCheck = false) ∨
    ∃ u post, ud.username = some u ∧
      (getSignupRequestByUsername s env.lookup u).result = none ∧
      (createSignupRequest s env ud).trace
        = (getSignupRequests s env.lookup none).trace ++ Event.checkUsernameExists u :: post ∧
      ∀ ev ∈ post, ev.isCheck = false := by
  unfold createSignupRequest
  cases hu : ud.username <;> cases hpw : ud.password <;> cases hn : ud.name <;>
    cases he : ud.email <;> try (left; simp; done)
  rename_i u pw n e
  dsimp only
  by_cases hne : (u == "" || pw == "" || n == "" || e == "") = true
  · left; rw [if_pos hne]; simp
  · rw [if_neg hne]
    by_cases hex : (getSignupRequestByUsername s env.lookup u).result.isSome = true
    · left; rw [if_pos hex]
      intro ev hev
      exact (getSignupRequests_only_reads s env.lookup none ev hev).2.1
    · rw [if_neg hex]
      right
      have hnone : (getSignupRequestByUsername s env.lookup u).result = none := by
        simpa using hex
      cases hd : env.usernameExists with
      | error msg => exact ⟨u, [], rfl, hnone, rfl, by simp⟩
      | ok b =>
        cases b with
        | true => exact ⟨u, [], rfl, hnone, rfl, by simp⟩
        | false =>
          dsimp only
          obtain ⟨post, hp, hpost⟩ := persist_trace_no_check s
            ((getSignupRequestByUsername s env.lookup u).trace ++ [Event.checkUsernameExists u]
              ++ (getSignupRequests s env.reload none).trace)
            ((getSignupRequests s env.reload none).result ++ [newRequest env u pw n e ud.role])
            env.setItem env.writeFile "Failed to create signup request"
            { success := true, requestId := some (newRequest env u pw n e ud.role).id,
              error := none }
          refine ⟨u, (getSignupRequests s env.reload none).trace ++ post, rfl, hnone, ?_, ?_⟩
          · rw [hp]
            simp [getSignupRequestByUsername]
          · intro ev hev
            rw [List.mem_append] at hev
            rcases hev with h | h
            · exact (getSignupRequests_only_reads s env.reload none ev h).2.1
            · exact hpost ev h

/-- A list holding exactly one directory check splits around it in one way. -/
theorem split_at_check (l1 l2 pre post : List Event) (a b : Event)
    (h : l1 ++ a :: l2 = pre ++ b :: post)
    (h1 : ∀ ev ∈ l1, ev.isCheck = false)
    (h2 : ∀ ev ∈ l2, ev.isCheck = false) (hb : b.isCheck = true) :
    pre = l1 ∧ b = a ∧ post = l2 := by
  induction l1 generalizing pre with
  | nil =>
    cases pre with
    | nil =>
      simp only [List.nil_append, List.cons.injEq] at h
      exact ⟨rfl, h.1.symm, h.2.symm⟩
    | cons p pre =>
      exfalso
      simp only [List.nil_append, List.cons_append, List.cons.injEq] at h
      have hmem : b ∈ l2 := by rw [h.2]; simp
      rw [h2 b hmem] at hb
      cases hb
  | cons x l1 ih =>
    cases pre with
    | nil =>
      exfalso
      simp only [List.nil_append, List.cons_append, List.cons.injEq] at h
      have := h1 x (by simp)
      rw [h.1, hb] at this
      cases this
    | cons p pre =>
      simp only [List.cons_append, List.cons.injEq] at h
      obtain ⟨e1, e2, e3⟩ := ih pre h.2 (fun ev hev => h1 ev (by simp [hev]))
      exact ⟨by rw [h.1, e1], e2, e3⟩

/-- The order of the checks within one `createSignupRequest` call: when the
store holds a request for the username and the lookup read completes,
`checkUsernameExists` is never
called; and whenever `checkUsernameExists` is called, everything before it in
the trace is the storage read of the local lookup, which found nothing, so no
storage write has been made yet, and it is not called a second time. -/
theorem remote_check_after_lookup_before_writes (s : Store) (env : CreateEnv)
    (userData : UserData) :
    (∀ U, env.lookup = ReadEnv.ok → userData.username = some U →
      (∃ r ∈ s.requests, r.username = U) →
      ∀ ev ∈ (createSignupRequest s env userData).trace, ev.isCheck = false) ∧
    (∀ pre u post,
      (createSignupRequest s env userData).trace = pre ++ Event.checkUsernameExists u :: post →
      pre = (getSignupRequestByUsername s env.lookup u).trace ∧ Event.getItem ∈ pre ∧
      (getSignupRequestByUsername s env.lookup u).result = none ∧
      (∀ ev ∈ pre, ev.isWrite = false) ∧
      (∀ ev ∈ post, ev.isCheck = false)) := by
  constructor
  · intro U hread hu hstored
    rcases createSignupRequest_trace s env userData with h | ⟨u, post, hu', hnone, _, _⟩
    · exact h
    · exfalso
      rw [hu] at hu'
      cases hu'
      obtain ⟨r, hr, hru⟩ := hstored
      rw [hread, getSignupRequestByUsername_ok, List.find?_eq_none] at hnone
      have := hnone r (mem_sortRequests.mpr hr)
      simp [hru] at this
  · intro pre u post hsplit
    rcases createSignupRequest_trace s env userData with h | ⟨u', post', _, hnone, htrace, hpost⟩
    · exfalso
      have := h (Event.checkUsernameExists u) (by rw [hsplit]; simp)
      cases this
    · rw [htrace] at hsplit
      obtain ⟨e1, e2, e3⟩ := split_at_check _ _ _ _ _ _ hsplit
        (fun ev hev => (getSignupRequests_only_reads s env.lookup none ev hev).2.1) hpost rfl
      cases e2
      subst e1 e3
      exact ⟨rfl, getItem_mem_read_trace s _ _, hnone, getSignupRequests_no_write s _ _, hpost⟩

/-- An instance of the order of the checks: a second submission for `alice`
makes no directory check;
the submission of `bob` reads, checks the directory, reads again and only then
writes. -/
theorem remote_check_after_lookup_before_writes_witness :
    (∃ r ∈ aliceStore.requests, r.username = "alice") ∧
    (∀ ev ∈ (createSignupRequest aliceStore (createEnv false 2000) (signupData "alice")).trace,
      ev.isCheck = false) ∧
    (createSignupRequest aliceStore (createEnv false 2000) (signupData "bob")).trace
      = [Event.getItem] ++ Event.checkUsernameExists "bob" ::
          [Event.getItem, Event.setItem [aliceRequest, signupRecord "bob" 2000],
           Event.writeFile [aliceRequest, signupRecord "bob" 2000]] ∧
    (∀ ev ∈ [Event.getItem], ev.isWrite = false) :=
  have hst : ∃ r ∈ aliceStore.requests, r.username = "alice" := ⟨aliceRequest, by decide, rfl⟩
  have htr : (createSignupRequest aliceStore (createEnv false 2000) (signupData "bob")).trace
      = [Event.getItem] ++ Event.checkUsernameExists "bob" ::
          [Event.getItem, Event.setItem [aliceRequest, signupRecord "bob" 2000],
           Event.writeFile [aliceRequest, signupRecord "bob" 2000]] := by decide
  ⟨hst,
    (remote_check_after_lookup_before_writes aliceStore (createEnv false 2000)
      (signupData "alice")).1 "alice" rfl rfl hst,
    htr,
    ((remote_check_after_lookup_before_writes aliceStore (createEnv false 2000)
      (signupData "bob")).2 _ _ _ htr).2.2.2.1⟩

/-! ## Requests are kept -/

theorem ids_kept_of_written {s s' : Store} {w : List Request} {m : Option (List Request)}
    (hw : w ≠ []) (hids : ∀ r ∈ s.requests, ∃ r' ∈ w, r'.id = r.id)
    (hs : s' = { cache := some w, mirror := m } ∨ s' = { cache := some w, mirror := some w }) :
    ∀ r ∈ s.requests, ∃ r' ∈ s'.requests, r'.id = r.id := by
  rw [requests_of_store_eq hw hs]
  exact hids

theorem updateFirst_ne_nil (p : Request → Bool) (f : Request → Request) (l : List Request)
    (h : l ≠ []) : updateFirst p f l ≠ [] := by
  cases l with
  | nil => exact absurd rfl h
  | cons a l =>
    unfold updateFirst
    split <;> simp

theorem ids_kept_updateFirst (s : Store) (env : ReadEnv) (p : Request → Bool)
    (f : Request → Request) (hf : ∀ r, (f r).id = r.id) (r0 : Request)
    (hfind : (getSignupRequests s env none).result.find? p = some r0) :
    updateFirst p f (getSignupRequests s env none).result ≠ [] ∧
    ∀ r ∈ s.requests, ∃ r' ∈ updateFirst p f (getSignupRequests s env none).result,
      r'.id = r.id := by
  have hne : (getSignupRequests s env none).result ≠ [] := by
    intro e
    rw [e] at hfind
    simp at hfind
  refine ⟨updateFirst_ne_nil p f _ hne, ?_⟩
  intro r hr
  have hmem : r ∈ (getSignupRequests s env none).result := by
    rw [read_of_find hfind, getSignupRequests_ok, filterStatus_none]
    exact mem_sortRequests.mpr hr
  have hmap : r.id ∈ (updateFirst p f (getSignupRequests s env none).result).map Request.id := by
    rw [updateFirst_map Request.id p f hf]
    exact List.mem_map_of_mem _ hmem
  obtain ⟨r', hr', he⟩ := List.mem_map.mp hmap
  exact ⟨r', hr', he⟩

/-- C20, a defect of the code. `aliceStore` holds the request with id `"1000"`.
`createSignupRequest` for `bob` is called while `AsyncStorage.getItem` throws
(both reads of the call fail, both writes complete): `getSignupRequests`
catches the error and returns `[]`, the new record is pushed onto that empty
array and written to both layers, and the call returns `success: true`.
Afterwards no stored request has the id `"1000"`. -/
theorem failed_read_deletes_requests :
    (∃ r ∈ aliceStore.requests, r.id = "1000") ∧
    (createSignupRequest aliceStore
        { createEnv false 2000 with lookup := cacheReadFails, reload := cacheReadFails }
        (signupData "bob")).result
      = { success := true, requestId := some "2000", error := none } ∧
    (∀ r ∈ (createSignupRequest aliceStore
        { createEnv false 2000 with lookup := cacheReadFails, reload := cacheReadFails }
        (signupData "bob")).store.requests, r.id ≠ "1000") ∧
    (createSignupRequest aliceStore
        { createEnv false 2000 with lookup := cacheReadFails, reload := cacheReadFails }
        (signupData "bob")).store
      = { cache := some [signupRecord "bob" 2000], mirror := some [signupRecord "bob" 2000] } := by
  refine ⟨⟨aliceRequest, by decide, rfl⟩, by decide, by decide, by decide⟩

/-- What holds of C20: when the re-read of the store in `createSignupRequest`
(line 50) completes, and for approvals and rejections always, whatever else
the storage and directory calls do, every request id stored before the call is
still stored after it. -/
theorem request_ids_are_kept (s : Store) (c : Call)
    (hreload : ∀ env userData, c = Call.create env userData → env.reload = ReadEnv.ok) :
    ∀ r ∈ s.requests, ∃ r' ∈ (c.exec s).store.requests, r'.id = r.id := by
  cases c with
  | create env ud =>
    have hre := hreload env ud rfl
    rcases createSignupRequest_store s env ud with e | ⟨u, pw, n, e, _, _, _, _, _, _, _, _, _, w, hw, hs⟩
    · simp only [Call.exec]; rw [e]
      exact fun r hr => ⟨r, hr, rfl⟩
    · refine ids_kept_of_written (by rw [hw]; simp) ?_ hs
      intro r hr
      refine ⟨r, ?_, rfl⟩
      rw [hw, hre, getSignupRequests_ok, filterStatus_none]
      exact List.mem_append_left _ (mem_sortRequests.mpr hr)
  | approve env rid by_ =>
    rcases approveSignupRequest_store s env rid by_ with e | ⟨r0, hfind, _, w, hw, hs⟩
    · simp only [Call.exec]; rw [e]
      exact fun r hr => ⟨r, hr, rfl⟩
    · have h := ids_kept_updateFirst s env.read (fun req => req.id == rid) (approved env by_)
        (fun _ => rfl) r0 hfind
      rw [← hw] at h
      exact ids_kept_of_written h.1 h.2 hs
  | reject env rid by_ reason =>
    rcases rejectSignupRequest_store s env rid by_ reason with e | ⟨r0, hfind, _, w, hw, hs⟩
    · simp only [Call.exec]; rw [e]
      exact fun r hr => ⟨r, hr, rfl⟩
    · have h := ids_kept_updateFirst s env.read (fun req => req.id == rid)
        (rejected env by_ reason) (fun _ => rfl) r0 hfind
      rw [← hw] at h
      exact ids_kept_of_written h.1 h.2 hs

/-- An instance of `request_ids_are_kept`: `bob` signs up while the lookup read
and the mirror write fail; the id of `alice` is kept. -/
theorem request_ids_are_kept_witness :
    (∀ env userData,
      Call.create { createEnv false 2000 with lookup := cacheReadFails, writeFile := some "disk full" }
          (signupData "bob") = Call.create env userData →
        env.reload = ReadEnv.ok) ∧
    aliceRequest ∈ aliceStore.requests ∧
    ∃ r' ∈ ((Call.create
          { createEnv false 2000 with lookup := cacheReadFails, writeFile := some "disk full" }
          (signupData "bob")).exec aliceStore).store.requests,
      r'.id = aliceRequest.id :=
  have hre : ∀ env userData,
      Call.create { createEnv false 2000 with lookup := cacheReadFails, writeFile := some "disk full" }
          (signupData "bob") = Call.create env userData →
        env.reload = ReadEnv.ok := by
    intro env ud h
    cases h
    rfl
  have hmem : aliceRequest ∈ aliceStore.requests := by decide
  ⟨hre, hmem, request_ids_are_kept aliceStore _ hre aliceRequest hmem⟩

/-! ## Both layers after a success, and the pending count -/

/-- A successful call reached `persist` and both writes completed. -/
theorem exec_success (s : Store) (c : Call) (hok : (c.exec s).result.success = true) :
    ∃ w, (c.exec s).store = { cache := some w, mirror := some w } ∧
      c.setItem = none ∧ c.writeFile = none := by
  rcases exec_shape s c with ⟨_, hf, _⟩ | ⟨t, w, done, _, _, heq⟩
  · rw [hf] at hok
    cases hok
  · rw [heq] at hok ⊢
    obtain ⟨h1, h2, h3⟩ := persist_success _ _ _ _ _ _ _ hok
    exact ⟨w, h3, h1, h2⟩

/-- C23. After every `createSignupRequest`, `approveSignupRequest` or
`rejectSignupRequest` call that returns `success: true`, the cache and the
mirror file hold the same array of requests, the one passed to `setItem` and
to `writeAsStringAsync` by that call. -/
theorem success_leaves_layers_equal (s : Store) (c : Call)
    (hok : (c.exec s).result.success = true) :
    (c.exec s).store.cache = (c.exec s).store.mirror ∧
      ∃ w, (c.exec s).store.cache = some w ∧ (c.exec s).store.mirror = some w ∧
        Event.setItem w ∈ (c.exec s).trace ∧ Event.writeFile w ∈ (c.exec s).trace := by
  rcases exec_shape s c with ⟨_, hf, _⟩ | ⟨t, w, done, _, _, heq⟩
  · rw [hf] at hok
    cases hok
  · rw [heq] at hok ⊢
    obtain ⟨h1, h2, h3⟩ := persist_success _ _ _ _ _ _ _ hok
    rw [h3]
    refine ⟨rfl, w, rfl, rfl, ?_, ?_⟩ <;> rw [h1, h2] <;> simp [persist]

/-- Witness for C23: the submission of `alice` to the empty store. -/
theorem success_leaves_layers_equal_witness :
    ((Call.create (createEnv false 1000) (signupData "alice")).exec Store.empty).result.success
      = true ∧
    ((Call.create (createEnv false 1000) (signupData "alice")).exec Store.empty).store.cache
      = ((Call.create (createEnv false 1000) (signupData "alice")).exec Store.empty).store.mirror :=
  have hok : ((Call.create (createEnv false 1000) (signupData "alice")).exec
      Store.empty).result.success = true := by decide
  ⟨hok, (success_leaves_layers_equal Store.empty
    (Call.create (createEnv false 1000) (signupData "alice")) hok).1⟩

theorem filterStatus_pending (l : List Request) :
    filterStatus (some "pending") l = l.filter (fun r => r.status == "pending") := by
  have h : falsy (some "pending") = false := by decide
  simp only [filterStatus, h]
  apply List.filter_congr
  intro r _
  by_cases hr : r.status = "pending" <;> simp [hr]

/-- C24. For every store, `getPendingSignupCount` (storage reads completing)
returns the number of stored requests whose status is `'pending'`; in every
read environment it returns the length of `getSignupRequests('pending')`,
leaves the store as it is and makes no write to the cache or the mirror. -/
theorem pending_count (s : Store) :
    (getPendingSignupCount s ReadEnv.ok).result
        = s.requests.countP (fun r => r.status == "pending") ∧
    ∀ env : ReadEnv,
      (getPendingSignupCount s env).result
          = (getSignupRequests s env (some "pending")).result.length ∧
        (getPendingSignupCount s env).store = s ∧
        ∀ ev ∈ (getPendingSignupCount s env).trace, ev.isWrite = false := by
  constructor
  · simp only [getPendingSignupCount]
    rw [getSignupRequests_ok, (sortRequests_perm _).length_eq, filterStatus_pending,
      List.countP_eq_length_filter]
  · intro env
    exact ⟨rfl, getSignupRequests_store s env _, getSignupRequests_no_write s env _⟩

/-! ## The frame of a resolution -/

theorem updateFirst_split (p : Request → Bool) (f : Request → Request) (l : List Request)
    (r : Request) (hfind : l.find? p = some r) :
    ∃ front back, l = front ++ r :: back ∧ updateFirst p f l = front ++ f r :: back ∧
      ∀ x ∈ front, p x = false := by
  induction l with
  | nil => simp at hfind
  | cons a l ih =>
    by_cases ha : p a = true
    · simp only [List.find?, ha, Option.some.injEq] at hfind
      subst hfind
      exact ⟨[], l, rfl, by simp [updateFirst, ha], by simp⟩
    · simp only [List.find?, ha] at hfind
      obtain ⟨front, back, h1, h2, h3⟩ := ih hfind
      refine ⟨a :: front, back, by rw [h1]; rfl, ?_, ?_⟩
      · simp only [updateFirst, ha, List.cons_append]
        rw [h2]
        rfl
      · intro x hx
        rcases List.mem_cons.mp hx with e | hx
        · rw [e]; simpa using ha
        · exact h3 x hx

/-- What a successful resolution writes: the array read, with the found
pending record replaced by `f` of it, where it stands. -/
theorem frame_of_written (s : Store) (env : ReadEnv) (rid : String) (f : Request → Request)
    (hf : ∀ r, SameIdentity r (f r)) (r : Request) (s' : Store)
    (hfind : (getSignupRequests s env none).result.find? (fun req => req.id == rid) = some r)
    (hs : s' = { cache := some (updateFirst (fun req => req.id == rid) f
                    (getSignupRequests s env none).result),
                 mirror := some (updateFirst (fun req => req.id == rid) f
                    (getSignupRequests s env none).result) }) :
    ∃ front back r', (front ++ r :: back).Perm s.requests ∧
      s'.cache = some (front ++ r' :: back) ∧ s'.mirror = some (front ++ r' :: back) ∧
      s'.requests = front ++ r' :: back ∧
      r.id = rid ∧ (∀ x ∈ front, x.id ≠ rid) ∧ r' = f r ∧ SameIdentity r r' := by
  obtain ⟨front, back, h1, h2, h3⟩ := updateFirst_split _ f _ r hfind
  refine ⟨front, back, f r, ?_, ?_, ?_, ?_, ?_, ?_, rfl, hf r⟩
  · rw [← h1, read_of_find hfind, getSignupRequests_ok, filterStatus_none]
    exact sortRequests_perm _
  · rw [hs, h2]
  · rw [hs, h2]
  · rw [hs, h2]
    exact requests_of_written _ _ (by simp)
  · simpa using List.find?_some hfind
  · intro x hx
    simpa using h3 x hx

/-- C29. A successful `approveSignupRequest` or `rejectSignupRequest` of
request `requestId` writes to both layers the stored requests, in the order
`front ++ r :: back` in which they were read, with the found pending record
`r` replaced where it stands by `r'`: every other record is unchanged in every
field, and `r'` has the id, username, name, email, role and `requestedAt` of
`r` (and its department, position, work mode and hire date), so that only
status, `approvedAt`, `approvedBy`, `rejectionReason` and password can
differ. -/
theorem resolution_changes_only_its_record (s : Store) (c : Call) (requestId : String)
    (hc : c.resolves requestId) (hok : (c.exec s).result.success = true) :
    ∃ front back r r', (front ++ r :: back).Perm s.requests ∧
      (c.exec s).store.cache = some (front ++ r' :: back) ∧
      (c.exec s).store.mirror = some (front ++ r' :: back) ∧
      (c.exec s).store.requests = front ++ r' :: back ∧
      r.id = requestId ∧ r.status = "pending" ∧ (∀ x ∈ front, x.id ≠ requestId) ∧
      r'.id = r.id ∧ r'.username = r.username ∧ r'.name = r.name ∧ r'.email = r.email ∧
      r'.role = r.role ∧ r'.requestedAt = r.requestedAt ∧ r'.department = r.department ∧
      r'.position = r.position ∧ r'.workMode = r.workMode ∧ r'.hireDate = r.hireDate := by
  cases c with
  | create env ud => exact absurd hc (by simp [Call.resolves])
  | approve env rid by_ =>
    simp only [Call.resolves] at hc
    subst hc
    simp only [Call.exec] at hok ⊢
    rcases approveSignupRequest_shape s env rid by_ with ⟨_, hf, _⟩ | ⟨r, added, hfind, hst, _, _, heq⟩
    · rw [hf] at hok; cases hok
    · have hstore := (persist_success _ _ _ _ _ _ _ (by rw [← heq]; exact hok)).2.2
      rw [← heq] at hstore
      obtain ⟨front, back, r', h1, h2, h3, h4, h5, h6, _, h8⟩ :=
        frame_of_written s env.read rid (approved env by_)
          (fun _ => ⟨rfl, rfl, rfl, rfl, rfl, rfl, rfl, rfl, rfl, rfl⟩) r _ hfind hstore
      exact ⟨front, back, r, r', h1, h2, h3, h4, h5, hst, h6, h8⟩
  | reject env rid by_ reason =>
    simp only [Call.resolves] at hc
    subst hc
    simp only [Call.exec] at hok ⊢
    rcases rejectSignupRequest_shape s env rid by_ reason with ⟨_, hf, _⟩ | ⟨r, hfind, hst, heq⟩
    · rw [hf] at hok; cases hok
    · have hstore := (persist_success _ _ _ _ _ _ _ (by rw [← heq]; exact hok)).2.2
      rw [← heq] at hstore
      obtain ⟨front, back, r', h1, h2, h3, h4, h5, h6, _, h8⟩ :=
        frame_of_written s env.read rid (rejected env by_ reason)
          (fun _ => ⟨rfl, rfl, rfl, rfl, rfl, rfl, rfl, rfl, rfl, rfl⟩) r _ hfind hstore
      exact ⟨front, back, r, r', h1, h2, h3, h4, h5, hst, h6, h8⟩

/-- Witness for C29: `bob` is rejected in the store of three. -/
theorem resolution_changes_only_its_record_witness :
    (Call.reject (rejectEnv 4000) "2000" "admin" "no").resolves "2000" ∧
    ((Call.reject (rejectEnv 4000) "2000" "admin" "no").exec threeStore).result.success = true ∧
    ∃ front back r r', (front ++ r :: back).Perm threeStore.requests ∧
      ((Call.reject (rejectEnv 4000) "2000" "admin" "no").exec threeStore).store.cache
        = some (front ++ r' :: back) ∧
      r.id = "2000" ∧ r'.username = r.username :=
  have hok : ((Call.reject (rejectEnv 4000) "2000" "admin" "no").exec
      threeStore).result.success = true := by decide
  have h := resolution_changes_only_its_record threeStore
    (Call.reject (rejectEnv 4000) "2000" "admin" "no") "2000" rfl hok
  ⟨rfl, hok, h.choose, h.choose_spec.choose, h.choose_spec.choose_spec.choose,
    h.choose_spec.choose_spec.choose_spec.choose,
    h.choose_spec.choose_spec.choose_spec.choose_spec.1,
    h.choose_spec.choose_spec.choose_spec.choose_spec.2.1,
    h.choose_spec.choose_spec.choose_spec.choose_spec.2.2.2.2.1,
    h.choose_spec.choose_spec.choose_spec.choose_spec.2.2.2.2.2.2.2.2.1⟩

/-! ## The resolution stamp -/

theorem allStamped_of_written {s s' : Store} {w : List Request} (h : AllStamped s)
    (hw : ∀ r ∈ w, Stamped r)
    (hs : s' = { cache := some w, mirror := s.mirror } ∨ s' = { cache := some w, mirror := some w }) :
    AllStamped s' := by
  rcases hs with e | e <;> subst e
  · intro r hr
    rcases hr with hr | hr
    · exact hw r (by simpa using hr)
    · exact h r (Or.inr hr)
  · intro r hr
    exact hw r (by simpa using hr)

theorem stamped_approved (env : ApproveEnv) (actor : String) (r : Request) :
    Stamped (approved env actor r) := by
  constructor <;> simp [approved, markApproved]

theorem stamped_rejected (env : RejectEnv) (actor reason : String) (r : Request) :
    Stamped (rejected env actor reason r) := by
  constructor <;> simp [rejected]

theorem exec_allStamped (s : Store) (c : Call) (h : AllStamped s) :
    AllStamped (c.exec s).store := by
  cases c with
  | create env ud =>
    rcases createSignupRequest_store s env ud with e | ⟨u, pw, n, e, _, _, _, _, _, _, _, _, _, w, hw, hs⟩
    · simp only [Call.exec]; rw [e]; exact h
    · refine allStamped_of_written h ?_ hs
      subst hw
      intro r hr
      rw [List.mem_append, List.mem_singleton] at hr
      rcases hr with hr | hr
      · exact h r (mem_read hr)
      · subst hr
        constructor <;> simp [newRequest]
  | approve env rid by_ =>
    rcases approveSignupRequest_store s env rid by_ with e | ⟨r, _, _, w, hw, hs⟩
    · simp only [Call.exec]; rw [e]; exact h
    · refine allStamped_of_written h ?_ hs
      subst hw
      intro r' hr
      rcases mem_updateFirst hr with hr | ⟨r0, _, _, he⟩
      · exact h r' (mem_read hr)
      · subst he
        exact stamped_approved env by_ r0
  | reject env rid by_ reason =>
    rcases rejectSignupRequest_store s env rid by_ reason with e | ⟨r, _, _, w, hw, hs⟩
    · simp only [Call.exec]; rw [e]; exact h
    · refine allStamped_of_written h ?_ hs
      subst hw
      intro r' hr
      rcases mem_updateFirst hr with hr | ⟨r0, _, _, he⟩
      · exact h r' (mem_read hr)
      · subst he
        exact stamped_rejected env by_ reason r0

theorem run_allStamped (calls : List Call) (s : Store) (h : AllStamped s) :
    AllStamped (run s calls) := by
  induction calls generalizing s with
  | nil => exact h
  | cons c cs ih =>
    simp only [run, List.foldl_cons]
    exact ih _ (exec_allStamped s c h)

/-- In a store whose records are `Stamped`, a call writes each stored record
unchanged or stamps a pending one. -/
theorem exec_stamps (s : Store) (c : Call) (h : AllStamped s) :
    (c.exec s).store = s ∨
    ∃ old new added : List Request,
      (old.Perm s.requests ∨ (old = [] ∧ c.readEnv ≠ ReadEnv.ok)) ∧
      List.Forall₂ c.stamps old new ∧
      (∀ r ∈ added, r.status = "pending" ∧ r.approvedAt = none ∧ r.approvedBy = none) ∧
      (c.exec s).store.cache = some (new ++ added) ∧
      ((c.exec s).store.mirror = s.mirror ∨ (c.exec s).store.mirror = some (new ++ added)) := by
  cases c with
  | create env ud =>
    rcases createSignupRequest_store s env ud with e | ⟨u, pw, n, e, _, _, _, _, _, _, _, _, _, w, hw, hs⟩
    · left; exact e
    · right
      subst hw
      refine ⟨(getSignupRequests s env.reload none).result, _, [newRequest env u pw n e ud.role],
        read_perm_or_nil s _, forall₂_self (Call.create env ud).stamps (fun _ => rfl) _, ?_, ?_, ?_⟩
      · intro r hr
        simp only [List.mem_singleton] at hr
        subst hr
        exact ⟨rfl, rfl, rfl⟩
      · rcases hs with h | h <;> simp only [Call.exec] <;> rw [h]
      · rcases hs with h | h <;> simp only [Call.exec] <;> rw [h]
        · left; rfl
        · right; rfl
  | approve env rid by_ =>
    rcases approveSignupRequest_store s env rid by_ with e | ⟨r, hfind, hst, w, hw, hs⟩
    · left; exact e
    · right
      subst hw
      have hr : Stamped r := h r (mem_read (List.mem_of_find?_eq_some hfind))
      refine ⟨(getSignupRequests s env.read none).result, _, [],
        read_perm_or_nil s _,
        forall₂_updateFirst (Call.approve env rid by_).stamps _ (approved env by_) _ r hfind
          (fun _ => Or.inl rfl) (Or.inr ⟨hst, hr.1.mpr hst, hr.2.mpr hst, rfl, rfl, rfl⟩),
        by simp, ?_, ?_⟩
      · rcases hs with h | h <;> simp only [Call.exec, List.append_nil] <;> rw [h]
      · rcases hs with h | h <;> simp only [Call.exec, List.append_nil] <;> rw [h]
        · left; rfl
        · right; rfl
  | reject env rid by_ reason =>
    rcases rejectSignupRequest_store s env rid by_ reason with e | ⟨r, hfind, hst, w, hw, hs⟩
    · left; exact e
    · right
      subst hw
      have hr : Stamped r := h r (mem_read (List.mem_of_find?_eq_some hfind))
      refine ⟨(getSignupRequests s env.read none).result, _, [],
        read_perm_or_nil s _,
        forall₂_updateFirst (Call.reject env rid by_ reason).stamps _ (rejected env by_ reason) _
          r hfind (fun _ => Or.inl rfl) (Or.inr ⟨hst, hr.1.mpr hst, hr.2.mpr hst, rfl, rfl, rfl⟩),
        by simp, ?_, ?_⟩
      · rcases hs with h | h <;> simp only [Call.exec, List.append_nil] <;> rw [h]
      · rcases hs with h | h <;> simp only [Call.exec, List.append_nil] <;> rw [h]
        · left; rfl
        · right; rfl

/-- C22, amended. In every state reached from the empty store by calls executed
one after another (whatever the storage and directory calls did), a stored
request has `approvedAt` equal to `null` if
and only if its status is `'pending'`, and likewise `approvedBy`.  And every
further call either leaves the store untouched or writes the stored records
each unchanged in every field, except for a pending record without stamp that
the call resolves and stamps with its own time and actor; records added are
pending and without stamp.  So the stamp is written once, by the call that
moves the request out of `'pending'`, and never rewritten by a call that
starts after that call has returned. -/
theorem stamp_written_once (calls : List Call) :
    (∀ r, (r ∈ (run Store.empty calls).cache.getD [] ∨
          r ∈ (run Store.empty calls).mirror.getD []) →
      (r.approvedAt = none ↔ r.status = "pending") ∧
      (r.approvedBy = none ↔ r.status = "pending")) ∧
    ∀ c : Call,
      (c.exec (run Store.empty calls)).store = run Store.empty calls ∨
      ∃ old new added : List Request,
        (old.Perm (run Store.empty calls).requests ∨ (old = [] ∧ c.readEnv ≠ ReadEnv.ok)) ∧
        List.Forall₂ c.stamps old new ∧
        (∀ r ∈ added, r.status = "pending" ∧ r.approvedAt = none ∧ r.approvedBy = none) ∧
        (c.exec (run Store.empty calls)).store.cache = some (new ++ added) ∧
        ((c.exec (run Store.empty calls)).store.mirror = (run Store.empty calls).mirror ∨
          (c.exec (run Store.empty calls)).store.mirror = some (new ++ added)) := by
  have h : AllStamped (run Store.empty calls) :=
    run_allStamped calls Store.empty (by intro r hr; simp [Store.empty] at hr)
  exact ⟨h, fun c => exec_stamps _ c h⟩

/-- Witness for C22, amended: after `alice` was submitted and approved, the approved
record carries a stamp. -/
theorem stamp_written_once_witness :
    (approved (approveEnv { success := true, error := none } 1001) "admin" aliceRequest
      ∈ (run Store.empty
          [Call.create (createEnv false 1000) (signupData "alice"),
           Call.approve (approveEnv { success := true, error := none } 1001)
             "1000" "admin"]).cache.getD []) ∧
    ((approved (approveEnv { success := true, error := none } 1001) "admin"
        aliceRequest).approvedAt = none ↔
      (approved (approveEnv { success := true, error := none } 1001) "admin"
        aliceRequest).status = "pending") :=
  have hmem : approved (approveEnv { success := true, error := none } 1001) "admin" aliceRequest
      ∈ (run Store.empty
          [Call.create (createEnv false 1000) (signupData "alice"),
           Call.approve (approveEnv { success := true, error := none } 1001)
             "1000" "admin"]).cache.getD [] := by
    decide
  ⟨hmem, ((stamp_written_once
      [Call.create (createEnv false 1000) (signupData "alice"),
       Call.approve (approveEnv { success := true, error := none } 1001) "1000" "admin"]).1
      _ (Or.inl hmem)).1⟩

/-! ## Request ids -/

theorem digitChar_value (k : Nat) (hk : k < 10) : (Nat.digitChar k).toNat - 48 = k := by
  interval_cases k <;> rfl

theorem decimalValue_append_singleton (l : List Char) (c : Char) :
    decimalValue (l ++ [c]) = 10 * decimalValue l + (c.toNat - 48) := by
  simp [decimalValue, List.foldl_append]

theorem toDigitsCore_value (fuel n : Nat) (ds : List Char) (h : n < fuel) :
    ∃ front, Nat.toDigitsCore 10 fuel n ds = front ++ ds ∧ decimalValue front = n := by
  induction fuel generalizing n ds with
  | zero => omega
  | succ fuel ih =>
    unfold Nat.toDigitsCore
    by_cases h0 : n / 10 = 0
    · simp only [h0, if_true]
      refine ⟨[Nat.digitChar (n % 10)], rfl, ?_⟩
      have hn : n < 10 := by omega
      simp only [decimalValue, List.foldl_cons, List.foldl_nil, Nat.mul_zero, Nat.zero_add]
      rw [digitChar_value _ (Nat.mod_lt _ (by norm_num)), Nat.mod_eq_of_lt hn]
    · simp only [h0, if_false]
      have hlt : n / 10 < fuel := by omega
      obtain ⟨front, hf, hv⟩ := ih (n / 10) (Nat.digitChar (n % 10) :: ds) hlt
      refine ⟨front ++ [Nat.digitChar (n % 10)], ?_, ?_⟩
      · rw [hf]; simp
      · rw [decimalValue_append_singleton, hv, digitChar_value _ (Nat.mod_lt _ (by norm_num))]
        omega

theorem decimalValue_toString (n : Nat) : decimalValue (toString n).data = n := by
  obtain ⟨front, hf, hv⟩ := toDigitsCore_value (n + 1) n [] (by omega)
  have : (toString n).data = front := by
    show (Nat.toDigits 10 n).asString.data = front
    rw [Nat.toDigits, hf]
    simp [List.asString]
  rw [this, hv]

/-- `Date.now().toString()` tells clock values apart. -/
theorem toString_nat_injective {a b : Nat} (h : toString a = toString b) : a = b := by
  have := congrArg (fun s : String => decimalValue s.data) h
  simpa [decimalValue_toString] using this

theorem IdsDistinct.ids_nodup {s : Store} (h : IdsDistinct s) :
    (s.requests.map Request.id).Nodup := by
  rcases requests_eq_cache_or_mirror s with e | e <;> rw [e]
  · exact h.1
  · exact h.2

theorem read_ids_nodup (s : Store) (env : ReadEnv) (h : IdsDistinct s) :
    (((getSignupRequests s env none).result).map Request.id).Nodup := by
  rcases getSignupRequests_cases s env none with e | e <;> rw [e]
  · simp
  · rw [filterStatus_none]
    exact ((sortRequests_perm s.requests).map _).nodup_iff.mpr h.ids_nodup

theorem ids_of_written {s s' : Store} {w : List Request} {ts ts' : List Nat}
    (hd : IdsDistinct s) (hf : IdsFrom ts s) (hsub : ∀ t ∈ ts, t ∈ ts')
    (hw : (w.map Request.id).Nodup) (hwf : ∀ r ∈ w, ∃ t ∈ ts', r.id = toString t)
    (hs : s' = { cache := some w, mirror := s.mirror } ∨ s' = { cache := some w, mirror := some w }) :
    IdsDistinct s' ∧ IdsFrom ts' s' := by
  rcases hs with e | e <;> subst e
  · refine ⟨⟨by simpa using hw, hd.2⟩, ?_⟩
    intro r hr
    rcases hr with hr | hr
    · exact hwf r (by simpa using hr)
    · obtain ⟨t, ht, e⟩ := hf r (Or.inr hr)
      exact ⟨t, hsub t ht, e⟩
  · refine ⟨⟨by simpa using hw, by simpa using hw⟩, ?_⟩
    intro r hr
    exact hwf r (by simpa using hr)

theorem exec_ids (s : Store) (c : Call) (ts : List Nat) (hd : IdsDistinct s)
    (hf : IdsFrom ts s) (hfresh : ∀ t, c.submittedAt = some t → t ∉ ts) :
    IdsDistinct (c.exec s).store ∧ IdsFrom (c.submittedAt.toList ++ ts) (c.exec s).store := by
  have hsub : ∀ t ∈ ts, t ∈ c.submittedAt.toList ++ ts := fun t ht => List.mem_append_right _ ht
  have hsame : (c.exec s).store = s →
      IdsDistinct (c.exec s).store ∧ IdsFrom (c.submittedAt.toList ++ ts) (c.exec s).store := by
    intro e
    rw [e]
    refine ⟨hd, ?_⟩
    intro r hr
    obtain ⟨t, ht, e⟩ := hf r hr
    exact ⟨t, hsub t ht, e⟩
  cases c with
  | create env ud =>
    rcases createSignupRequest_store s env ud with e | ⟨u, pw, n, e, _, _, _, _, _, _, _, _, _, w, hw, hs⟩
    · exact hsame e
    · refine ids_of_written hd hf hsub ?_ ?_ hs
      · subst hw
        rw [List.map_append, List.nodup_append]
        refine ⟨read_ids_nodup s _ hd, by simp, ?_⟩
        intro a ha hb
        simp only [List.map_cons, List.map_nil, List.mem_singleton] at hb
        obtain ⟨r, hr1, hr2⟩ := List.mem_map.mp ha
        obtain ⟨t, ht, e⟩ := hf r (mem_read hr1)
        have hnow : toString t = toString env.now := by
          rw [← e, hr2, hb]
          rfl
        have := toString_nat_injective hnow
        exact hfresh env.now rfl (this ▸ ht)
      · subst hw
        intro r hr
        rw [List.mem_append, List.mem_singleton] at hr
        rcases hr with hr | hr
        · obtain ⟨t, ht, e⟩ := hf r (mem_read hr)
          exact ⟨t, hsub t ht, e⟩
        · subst hr
          exact ⟨env.now, by simp [Call.submittedAt], rfl⟩
  | approve env rid by_ =>
    rcases approveSignupRequest_store s env rid by_ with e | ⟨r, _, _, w, hw, hs⟩
    · exact hsame e
    · refine ids_of_written hd hf hsub ?_ ?_ hs
      · subst hw
        rw [updateFirst_map Request.id _ (approved env by_) (fun _ => rfl)]
        exact read_ids_nodup s _ hd
      · subst hw
        intro r' hr
        rcases mem_updateFirst hr with hr | ⟨r0, hr0, _, he⟩
        · obtain ⟨t, ht, e⟩ := hf r' (mem_read hr)
          exact ⟨t, hsub t ht, e⟩
        · obtain ⟨t, ht, e⟩ := hf r0 (mem_read hr0)
          exact ⟨t, hsub t ht, by rw [he]; exact e⟩
  | reject env rid by_ reason =>
    rcases rejectSignupRequest_store s env rid by_ reason with e | ⟨r, _, _, w, hw, hs⟩
    · exact hsame e
    · refine ids_of_written hd hf hsub ?_ ?_ hs
      · subst hw
        rw [updateFirst_map Request.id _ (rejected env by_ reason) (fun _ => rfl)]
        exact read_ids_nodup s _ hd
      · subst hw
        intro r' hr
        rcases mem_updateFirst hr with hr | ⟨r0, hr0, _, he⟩
        · obtain ⟨t, ht, e⟩ := hf r' (mem_read hr)
          exact ⟨t, hsub t ht, e⟩
        · obtain ⟨t, ht, e⟩ := hf r0 (mem_read hr0)
          exact ⟨t, hsub t ht, by rw [he]; exact e⟩

theorem run_ids (calls : List Call) (s : Store) (ts : List Nat) (hd : IdsDistinct s)
    (hf : IdsFrom ts s) (hclock : (calls.filterMap Call.submittedAt).Nodup)
    (hfresh : ∀ t ∈ calls.filterMap Call.submittedAt, t ∉ ts) :
    IdsDistinct (run s calls) := by
  induction calls generalizing s ts with
  | nil => exact hd
  | cons c cs ih =>
    simp only [run, List.foldl_cons]
    have hstep := exec_ids s c ts hd hf (fun t ht => hfresh t (by
      simp only [List.filterMap_cons, ht]
      simp))
    refine ih _ (c.submittedAt.toList ++ ts) hstep.1 hstep.2 ?_ ?_
    · cases hc : c.submittedAt with
      | none => simpa [List.filterMap_cons, hc] using hclock
      | some t =>
        simp only [List.filterMap_cons, hc, List.nodup_cons] at hclock
        exact hclock.2
    · intro t ht
      cases hc : c.submittedAt with
      | none =>
        simp only [Option.toList, List.nil_append]
        exact hfresh t (by simp only [List.filterMap_cons, hc]; exact ht)
      | some t0 =>
        simp only [List.filterMap_cons, hc, List.nodup_cons] at hclock
        simp only [Option.toList, List.singleton_append, List.mem_cons, not_or]
        refine ⟨?_, hfresh t (by simp only [List.filterMap_cons, hc]; simp [ht])⟩
        intro e
        exact hclock.1 (e ▸ ht)

/-- Counterexample to C21: `aliceStore` holds a request with id `"1000"`; a
submission for `bob` made while `Date.now()` is 1000 succeeds and is assigned
the id `"1000"` too, so the store reached from the empty store by these two
submissions holds the same id twice. -/
theorem same_millisecond_same_id :
    (∃ r ∈ aliceStore.requests, r.id = "1000") ∧
    (createSignupRequest aliceStore (createEnv false 1000) (signupData "bob")).result
      = { success := true, requestId := some "1000", error := none } ∧
    ((createSignupRequest aliceStore (createEnv false 1000)
        (signupData "bob")).store.requests.map Request.id) = ["1000", "1000"] ∧
    ¬ ((run Store.empty
        [Call.create (createEnv false 1000) (signupData "alice"),
         Call.create (createEnv false 1000) (signupData "bob")]).requests.map Request.id).Nodup := by
  refine ⟨⟨aliceRequest, by decide, rfl⟩, by decide, by decide, by decide⟩

/-- C21, amended. For every store and every clock value, the id assigned by a
successful `createSignupRequest` is `Date.now().toString()`, the id of the
record it appends; the decimal strings of different clock values differ; so,
in every state reached from the empty store by calls whose submissions read
pairwise different values of `Date.now()`, the stored ids are pairwise
distinct (in the array a read yields, in the cache and in the mirror). -/
theorem ids_distinct_when_clock_differs :
    (∀ (s : Store) (env : CreateEnv) (userData : UserData),
      (createSignupRequest s env userData).result.success = true →
      (createSignupRequest s env userData).result.requestId = some (toString env.now) ∧
      ∃ old r, (createSignupRequest s env userData).store.cache = some (old ++ [r]) ∧
        r.id = toString env.now ∧ (old = [] ∨ old.Perm s.requests)) ∧
    (∀ a b : Nat, toString a = toString b → a = b) ∧
    (∀ calls : List Call, (calls.filterMap Call.submittedAt).Nodup →
      ((run Store.empty calls).requests.map Request.id).Nodup ∧
      (((run Store.empty calls).cache.getD []).map Request.id).Nodup ∧
      (((run Store.empty calls).mirror.getD []).map Request.id).Nodup) := by
  refine ⟨?_, fun a b h => toString_nat_injective h, ?_⟩
  · intro s env ud hok
    rcases createSignupRequest_shape s env ud with ⟨_, hf, _⟩ | ⟨u, pw, n, e, _, _, _, _, _, _, _, _, _, _, heq⟩
    · rw [hf] at hok; cases hok
    · rw [heq] at hok ⊢
      obtain ⟨h1, h2, h3⟩ := persist_success _ _ _ _ _ _ _ hok
      rw [h3, h1, h2]
      refine ⟨rfl, _, newRequest env u pw n e ud.role, rfl, rfl, ?_⟩
      rcases getSignupRequests_cases s env.reload none with e | e <;> rw [e]
      · left; rfl
      · right
        rw [filterStatus_none]
        exact sortRequests_perm _
  · intro calls hclock
    have h := run_ids calls Store.empty [] (by simp [IdsDistinct, Store.empty])
      (by intro r hr; simp [Store.empty] at hr) hclock (by simp)
    exact ⟨h.ids_nodup, h.1, h.2⟩

/-- Witness for C21, amended: three submissions at 1000, 2000 and 3000. -/
theorem ids_distinct_when_clock_differs_witness :
    ([Call.create (createEnv false 1000) (signupData "alice"),
      Call.create (createEnv false 2000) (signupData "bob"),
      Call.create (createEnv false 3000) (signupData "carol")].filterMap
        Call.submittedAt).Nodup ∧
    (threeStore.requests.map Request.id).Nodup :=
  have h : ([Call.create (createEnv false 1000) (signupData "alice"),
      Call.create (createEnv false 2000) (signupData "bob"),
      Call.create (createEnv false 3000) (signupData "carol")].filterMap
        Call.submittedAt).Nodup := by decide
  ⟨h, (ids_distinct_when_clock_differs.2.2 _ h).1⟩

/-! ## No exception crosses the boundary -/

theorem orElse_ne_empty (x : Option String) (d : String) (hd : d ≠ "") : orElse x d ≠ "" := by
  unfold orElse
  cases x with
  | none => exact hd
  | some v =>
    by_cases hv : v = ""
    · simp [hv, hd]
    · simp [hv]

theorem hasReason_failure (msg : String) (h : msg ≠ "") : HasReason (failure msg) :=
  fun _ => ⟨msg, rfl, h⟩

theorem hasReason_caught (msg fb : String) (h : fb ≠ "") : HasReason (caught msg fb) :=
  fun _ => ⟨_, rfl, orElse_ne_empty _ _ h⟩

theorem hasReason_persist (s : Store) (t : List Event) (w : List Request) (si wf : Fault)
    (fb : String) (done : Result) (hfb : fb ≠ "") (hdone : done.success = true) :
    HasReason (persist s t w si wf fb done).result := by
  unfold persist
  cases si with
  | some m => exact hasReason_caught m fb hfb
  | none =>
    cases wf with
    | some m => exact hasReason_caught m fb hfb
    | none =>
      intro h
      simp only at h
      rw [hdone] at h
      cases h

theorem already_ne_empty (status : String) : "Request is already " ++ status ≠ "" := by
  intro h
  have := congrArg String.length h
  simp only [String.length_append] at this
  have h0 : "Request is already ".length = 19 := by decide
  have h1 : "".length = 0 := by decide
  omega

theorem hasReason_create (s : Store) (env : CreateEnv) (ud : UserData) :
    HasReason (createSignupRequest s env ud).result := by
  unfold createSignupRequest
  cases hu : ud.username <;> cases hpw : ud.password <;> cases hn : ud.name <;>
    cases he : ud.email <;> try exact hasReason_failure _ (by decide)
  rename_i u pw n e
  dsimp only
  by_cases hne : (u == "" || pw == "" || n == "" || e == "") = true
  · rw [if_pos hne]; exact hasReason_failure _ (by decide)
  · rw [if_neg hne]
    by_cases hex : (getSignupRequestByUsername s env.lookup u).result.isSome = true
    · rw [if_pos hex]; exact hasReason_failure _ (by decide)
    · rw [if_neg hex]
      cases hd : env.usernameExists with
      | error msg => exact hasReason_caught msg _ (by decide)
      | ok b =>
        cases b with
        | true => exact hasReason_failure _ (by decide)
        | false => exact hasReason_persist _ _ _ _ _ _ _ (by decide) rfl

theorem hasReason_approve (s : Store) (env : ApproveEnv) (rid by_ : String) :
    HasReason (approveSignupRequest s env rid by_).result := by
  cases hfind : (getSignupRequests s env.read none).result.find? (fun req => req.id == rid) with
  | none =>
    have h : (approveSignupRequest s env rid by_).result = failure "Signup request not found" := by
      unfold approveSignupRequest
      simp only [hfind]
    rw [h]
    exact hasReason_failure _ (by decide)
  | some r =>
    unfold approveSignupRequest
    simp only [hfind]
    by_cases hst : (r.status != "pending") = true
    · rw [if_pos hst]; exact hasReason_failure _ (already_ne_empty _)
    · rw [if_neg hst]
      cases hadd : env.addUser with
      | error msg => exact hasReason_caught msg _ (by decide)
      | ok added =>
        simp only
        by_cases hs : (!added.success) = true
        · rw [if_pos hs]; exact hasReason_failure _ (orElse_ne_empty _ _ (by decide))
        · rw [if_neg hs]
          exact hasReason_persist _ _ _ _ _ _ _ (by decide) rfl

theorem hasReason_reject (s : Store) (env : RejectEnv) (rid by_ reason : String) :
    HasReason (rejectSignupRequest s env rid by_ reason).result := by
  cases hfind : (getSignupRequests s env.read none).result.find? (fun req => req.id == rid) with
  | none =>
    have h : (rejectSignupRequest s env rid by_ reason).result
        = failure "Signup request not found" := by
      unfold rejectSignupRequest
      simp only [hfind]
    rw [h]
    exact hasReason_failure _ (by decide)
  | some r =>
    unfold rejectSignupRequest
    simp only [hfind]
    by_cases hst : (r.status != "pending") = true
    · rw [if_pos hst]; exact hasReason_failure _ (already_ne_empty _)
    · rw [if_neg hst]
      exact hasReason_persist _ _ _ _ _ _ _ (by decide) rfl

theorem getSignupRequests_of_throw (s : Store) (env : ReadEnv) (status : Option String)
    (h : (loadRequests s env).1 = none) : (getSignupRequests s env status).result = [] := by
  unfold getSignupRequests
  split
  · rfl
  · rename_i heq
    rw [heq] at h
    cases h

/-- C25. Every operation of the embedding is a total function, so it completes
with a result for every input and every behaviour of the storage and
directory calls.  For every input (a `null` `userData` included) and every
call that throws, the result of `createSignupRequest`, `approveSignupRequest`
and `rejectSignupRequest` has a boolean `success` and, when that is `false`,
an `error` that is a non-empty reason string; when a storage read throws,
`getSignupRequests` completes with the empty list and
`getPendingSignupCount` with the number 0. -/
theorem failures_carry_a_reason :
    (∀ (s : Store) (env : CreateEnv) (typeError : String) (userData : Option UserData),
      (createSignupRequestOrNull s env typeError userData).result.success = false →
      ∃ msg, (createSignupRequestOrNull s env typeError userData).result.error = some msg ∧
        msg ≠ "") ∧
    (∀ (s : Store) (env : ApproveEnv) (requestId approvedBy : String),
      (approveSignupRequest s env requestId approvedBy).result.success = false →
      ∃ msg, (approveSignupRequest s env requestId approvedBy).result.error = some msg ∧
        msg ≠ "") ∧
    (∀ (s : Store) (env : RejectEnv) (requestId rejectedBy reason : String),
      (rejectSignupRequest s env requestId rejectedBy reason).result.success = false →
      ∃ msg, (rejectSignupRequest s env requestId rejectedBy reason).result.error = some msg ∧
        msg ≠ "") ∧
    (∀ (s : Store) (env : ReadEnv) (status : Option String),
      (loadRequests s env).1 = none →
      (getSignupRequests s env status).result = [] ∧ (getPendingSignupCount s env).result = 0) := by
  refine ⟨?_, hasReason_approve, hasReason_reject, ?_⟩
  · intro s env te ud
    cases ud with
    | none => exact hasReason_caught te _ (by decide)
    | some ud => exact hasReason_create s env ud
  · intro s env status h
    refine ⟨getSignupRequests_of_throw s env status h, ?_⟩
    simp only [getPendingSignupCount, getSignupRequests_of_throw s env _ h, List.length_nil]

/-- Witness for C25: a `null` `userData`, and a cache read that throws. -/
theorem failures_carry_a_reason_witness :
    (createSignupRequestOrNull aliceStore (createEnv false 2000)
        "Cannot read property username of null" none).result.success = false ∧
    (∃ msg, (createSignupRequestOrNull aliceStore (createEnv false 2000)
        "Cannot read property username of null" none).result.error = some msg ∧ msg ≠ "") ∧
    (loadRequests aliceStore cacheReadFails).1 = none ∧
    (getSignupRequests aliceStore cacheReadFails none).result = [] :=
  ⟨rfl, failures_carry_a_reason.1 aliceStore (createEnv false 2000)
      "Cannot read property username of null" none rfl,
    rfl, (failures_carry_a_reason.2.2.2 aliceStore cacheReadFails none rfl).1⟩

/-! ## Two resolutions of one request -/

/-- Run without interruption, the two parts of an approval are
`approveSignupRequest`. -/
theorem approve_eq_read_then_commit (s : Store) (env : ApproveEnv) (rid by_ : String) :
    approveSignupRequest s env rid by_ =
      match resolveRead s env.read rid with
      | Sum.inl out => out
      | Sum.inr k => approveCommit s env rid by_ k := by
  unfold approveSignupRequest resolveRead
  cases hfind : (getSignupRequests s env.read none).result.find? (fun req => req.id == rid) with
  | none => simp only [hfind]
  | some r =>
    simp only [hfind]
    by_cases hst : (r.status != "pending") = true
    · rw [if_pos hst, if_pos hst]
    · rw [if_neg hst, if_neg hst]
      rfl

/-- Run without interruption, the two parts of a rejection are
`rejectSignupRequest`. -/
theorem reject_eq_read_then_commit (s : Store) (env : RejectEnv) (rid by_ reason : String) :
    rejectSignupRequest s env rid by_ reason =
      match resolveRead s env.read rid with
      | Sum.inl out => out
      | Sum.inr k => rejectCommit s env rid by_ reason k := by
  unfold rejectSignupRequest resolveRead
  cases hfind : (getSignupRequests s env.read none).result.find? (fun req => req.id == rid) with
  | none => simp only [hfind]
  | some r =>
    simp only [hfind]
    by_cases hst : (r.status != "pending") = true
    · rw [if_pos hst, if_pos hst]
    · rw [if_neg hst, if_neg hst]
      rfl

/-- Counterexample to C26: an approval and a rejection of the pending request
of `aliceStore` both read the store before either writes (each is suspended at
its first `await`); the approval then resumes and writes, the rejection
resumes and writes.  Both return `success: true`, and the record ends up
`'rejected'`. -/
theorem interleaved_resolutions_both_succeed :
    (∃ k : Suspended, resolveRead aliceStore ReadEnv.ok "1000" = Sum.inr k ∧
      k.request = aliceRequest ∧ k.request.status = "pending" ∧
      (approveCommit aliceStore (approveEnv { success := true, error := none } 1001)
          "1000" "admin" k).result.success = true ∧
      (rejectCommit
          (approveCommit aliceStore (approveEnv { success := true, error := none } 1001)
            "1000" "admin" k).store
          (rejectEnv 1002) "1000" "boss" "no" k).result.success = true ∧
      (rejectCommit
          (approveCommit aliceStore (approveEnv { success := true, error := none } 1001)
            "1000" "admin" k).store
          (rejectEnv 1002) "1000" "boss" "no" k).store.requests.map Request.status
        = ["rejected"]) := by
  refine ⟨{ requests := [aliceRequest], request := aliceRequest, trace := [Event.getItem] },
    rfl, rfl, rfl, by decide, by decide, by decide⟩

/-- After a rejection that wrote, the record found under the id is the
rejected form of the record that was pending. -/
theorem find_after_reject (s : Store) (env : RejectEnv) (rid by_ reason : String) (r : Request)
    (hfind : (getSignupRequests s env.read none).result.find? (fun req => req.id == rid) = some r)
    (hst : r.status = "pending") (hset : env.setItem = none) (hwrite : env.writeFile = none) :
    (getSignupRequests (rejectSignupRequest s env rid by_ reason).store ReadEnv.ok none).result.find?
        (fun req => req.id == rid) = some (rejected env by_ reason r) := by
  rw [rejectSignupRequest_eq_of_pending s env rid by_ reason r hfind hst hset hwrite,
    read_written s env.read _ (rejected env by_ reason) (fun _ => rfl) _ r hfind]
  refine find_updateFirst _ _ _ r hfind ?_
  have := List.find?_some hfind
  simpa [rejected] using this

/-- A resolution of an id under which a record that is not pending is found
is refused, and writes nothing. -/
theorem exec_resolved (s : Store) (c : Call) (rid : String) (r : Request)
    (hc : c.resolves rid) (hread : c.readsWork)
    (hfind : (getSignupRequests s ReadEnv.ok none).result.find?
      (fun req => req.id == rid) = some r)
    (hst : r.status ≠ "pending") :
    (c.exec s).result = failure ("Request is already " ++ r.status) ∧ (c.exec s).store = s := by
  cases c with
  | create env ud => exact absurd hc (by simp [Call.resolves])
  | approve env rid' by_ =>
    simp only [Call.resolves] at hc
    subst hc
    exact approveSignupRequest_resolved s env rid' by_ r hread hfind hst
  | reject env rid' by_ reason =>
    simp only [Call.resolves] at hc
    subst hc
    exact rejectSignupRequest_resolved s env rid' by_ reason r hread hfind hst

/-- C26, amended. For every pending request, when two resolutions of it
(`approveSignupRequest` or `rejectSignupRequest`, in any combination) run one
after the other, the second starting once the first has returned, with working
storage and a directory that creates the account: the first returns
`success: true` and the second returns the failure
`'Request is already approved'` or `'Request is already rejected'` and writes
nothing. -/
theorem sequential_resolutions (s : Store) (first second : Call) (requestId : String)
    (r : Request)
    (hfirst : first.resolves requestId) (hsecond : second.resolves requestId)
    (hstorage : first.storageWorks) (hdirectory : first.accountCreated)
    (hread : second.readsWork)
    (hfind : (getSignupRequests s ReadEnv.ok none).result.find?
      (fun req => req.id == requestId) = some r)
    (hpending : r.status = "pending") :
    (first.exec s).result = { success := true, requestId := none, error := none } ∧
    ∃ status, (status = "approved" ∨ status = "rejected") ∧
      (second.exec (first.exec s).store).result
        = { success := false, requestId := none,
            error := some ("Request is already " ++ status) } ∧
      (second.exec (first.exec s).store).store = (first.exec s).store := by
  cases first with
  | create env ud => exact absurd hfirst (by simp [Call.resolves])
  | approve env rid by_ =>
    simp only [Call.resolves] at hfirst
    subst hfirst
    obtain ⟨hrd, hset, hwrite⟩ := hstorage
    obtain ⟨added, hadd, hadded⟩ := hdirectory
    rw [← hrd] at hfind
    have hout := approveSignupRequest_of_pending s env rid by_ r added hfind hpending hadd
      hadded hset hwrite
    have hok : (approveSignupRequest s env rid by_).result.success = true := by rw [hout]
    obtain ⟨r0, hafter⟩ := find_after_approve s env rid by_ hok
    have h2 := exec_resolved (approveSignupRequest s env rid by_).store second rid _ hsecond
      hread hafter (by simp [approved, markApproved])
    refine ⟨by simp only [Call.exec]; rw [hout], "approved", Or.inl rfl, ?_, ?_⟩
    · simp only [Call.exec]
      exact h2.1
    · simp only [Call.exec]
      exact h2.2
  | reject env rid by_ reason =>
    simp only [Call.resolves] at hfirst
    subst hfirst
    obtain ⟨hrd, hset, hwrite⟩ := hstorage
    rw [← hrd] at hfind
    have hout := rejectSignupRequest_eq_of_pending s env rid by_ reason r hfind hpending
      hset hwrite
    have hafter := find_after_reject s env rid by_ reason r hfind hpending hset hwrite
    have h2 := exec_resolved (rejectSignupRequest s env rid by_ reason).store second rid _
      hsecond hread hafter (by simp [rejected])
    refine ⟨by simp only [Call.exec]; rw [hout], "rejected", Or.inr rfl, ?_, ?_⟩
    · simp only [Call.exec]
      exact h2.1
    · simp only [Call.exec]
      exact h2.2

/-- Witness for C26, amended: `alice` is rejected, then approved. -/
theorem sequential_resolutions_witness :
    (getSignupRequests aliceStore ReadEnv.ok none).result.find?
        (fun req => req.id == "1000") = some aliceRequest ∧
    ((Call.reject (rejectEnv 1001) "1000" "boss" "no").exec aliceStore).result
      = { success := true, requestId := none, error := none } ∧
    ∃ status, (status = "approved" ∨ status = "rejected") ∧
      ((Call.approve (approveEnv { success := true, error := none } 1002) "1000" "admin").exec
          ((Call.reject (rejectEnv 1001) "1000" "boss" "no").exec aliceStore).store).result
        = { success := false, requestId := none,
            error := some ("Request is already " ++ status) } :=
  have hfind : (getSignupRequests aliceStore ReadEnv.ok none).result.find?
        (fun req => req.id == "1000") = some aliceRequest := by decide
  have h := sequential_resolutions aliceStore
    (Call.reject (rejectEnv 1001) "1000" "boss" "no")
    (Call.approve (approveEnv { success := true, error := none } 1002) "1000" "admin")
    "1000" aliceRequest rfl rfl ⟨rfl, rfl, rfl⟩ trivial rfl hfind rfl
  ⟨hfind, h.1, h.2.choose, h.2.choose_spec.1, h.2.choose_spec.2.1⟩

/-! ## Failing storage reads and overlapping calls -/

/-- C1, a defect of the code. From the empty store two submissions for `alice`
are made one after the other; during the second the storage read of the
username lookup (line 23) throws. `getSignupRequests` answers `[]`, the lookup
finds nothing, and the second submission is accepted: the store then holds two
requests with username `alice` and status `'pending'`. -/
theorem failed_lookup_read_gives_two_pending :
    ((Call.create { createEnv false 1001 with lookup := cacheReadFails }
        (signupData "alice")).exec aliceStore).result
      = { success := true, requestId := some "1001", error := none } ∧
    (run Store.empty
      [Call.create (createEnv false 1000) (signupData "alice"),
       Call.create { createEnv false 1001 with lookup := cacheReadFails }
         (signupData "alice")]).requests.map (fun r => (r.id, r.username, r.status))
      = [("1000", "alice", "pending"), ("1001", "alice", "pending")] ∧
    (run Store.empty
      [Call.create (createEnv false 1000) (signupData "alice"),
       Call.create { createEnv false 1001 with lookup := cacheReadFails }
         (signupData "alice")]).requests.countP
        (fun r => r.username == "alice" && r.status == "pending") = 2 := by
  refine ⟨by decide, by decide, by decide⟩

/-- C2, a defect of the code. `aliceStore` holds a pending request for `alice`.
A submission for `alice` during which the storage read of the lookup (line 23)
throws is not refused: it returns `success: true` with a new id and writes a
second pending request for `alice` to the cache and to the mirror. -/
theorem pending_username_accepted_when_lookup_read_fails :
    (∃ r ∈ aliceStore.requests, r.username = "alice" ∧ r.status = "pending") ∧
    (createSignupRequest aliceStore { createEnv false 1001 with lookup := cacheReadFails }
        (signupData "alice")).result
      = { success := true, requestId := some "1001", error := none } ∧
    (createSignupRequest aliceStore { createEnv false 1001 with lookup := cacheReadFails }
        (signupData "alice")).store
      = { cache := some [aliceRequest, signupRecord "alice" 1001],
          mirror := some [aliceRequest, signupRecord "alice" 1001] } ∧
    (createSignupRequest aliceStore { createEnv false 1001 with lookup := cacheReadFails }
        (signupData "alice")).store ≠ aliceStore := by
  refine ⟨⟨aliceRequest, by decide, rfl, rfl⟩, by decide, by decide, by decide⟩

/-- C15, a defect of the code. `aliceStore` holds a request for `alice`. In a
submission for `alice` during which the storage read of the local lookup
throws, the lookup answers `null` and `checkUsernameExists('alice')` is
called all the same; the call then re-reads the store and writes. -/
theorem directory_asked_although_request_stored :
    (∃ r ∈ aliceStore.requests, r.username = "alice") ∧
    (createSignupRequest aliceStore { createEnv false 1001 with lookup := cacheReadFails }
        (signupData "alice")).trace
      = [Event.getItem, Event.checkUsernameExists "alice", Event.getItem,
         Event.setItem [aliceRequest, signupRecord "alice" 1001],
         Event.writeFile [aliceRequest, signupRecord "alice" 1001]] ∧
    ¬ (∀ ev ∈ (createSignupRequest aliceStore
          { createEnv false 1001 with lookup := cacheReadFails } (signupData "alice")).trace,
        ev.isCheck = false) := by
  refine ⟨⟨aliceRequest, by decide, rfl⟩, by decide, by decide⟩

/-- Counterexample to C3: in `approvedStore` the request `"1000"` of `alice`
has been approved. A later approval of `"1000"` whose storage read throws
answers `'Signup request not found'`. After a submission of `bob` whose
re-read of the store (line 50) throws, the approved record is gone and a later
rejection of `"1000"` answers `'Signup request not found'`. And after a
submission of `bob` that reads `Date.now()` as 1000 again and is dated later,
a later approval of `"1000"` finds the request of `bob` first and succeeds. -/
theorem later_resolution_of_approved_id_not_refused :
    (approveSignupRequest aliceStore (approveEnv { success := true, error := none } 1001)
      "1000" "admin").result.success = true ∧
    (approveSignupRequest approvedStore
      { approveEnv { success := true, error := none } 1002 with read := cacheReadFails }
      "1000" "boss").result
      = { success := false, requestId := none, error := some "Signup request not found" } ∧
    (rejectSignupRequest
      (createSignupRequest approvedStore { createEnv false 1002 with reload := cacheReadFails }
        (signupData "bob")).store
      (rejectEnv 1003) "1000" "boss" "late").result
      = { success := false, requestId := none, error := some "Signup request not found" } ∧
    (approveSignupRequest
      (createSignupRequest approvedStore { createEnv false 1000 with requestedAt := 1001 }
        (signupData "bob")).store
      (approveEnv { success := true, error := none } 1002) "1000" "boss").result
      = { success := true, requestId := none, error := none } := by
  refine ⟨by decide, by decide, by decide, by decide⟩

/-- Counterexample to C4: in `threeStore` an approval and a rejection of the
pending request `"2000"` of `bob` both read the store before either writes.
The approval resumes and writes: the stored record is `'approved'`. The
rejection then resumes with the array it read and writes: the stored record,
which was not `'pending'`, is now `'rejected'`. -/
theorem overlapping_rejection_changes_approved_status :
    ∃ k : Suspended, resolveRead threeStore ReadEnv.ok "2000" = Sum.inr k ∧
      (approveCommit threeStore (approveEnv { success := true, error := none } 4000)
          "2000" "admin" k).store.requests.map (fun r => (r.id, r.status))
        = [("3000", "pending"), ("2000", "approved"), ("1000", "pending")] ∧
      (rejectCommit
          (approveCommit threeStore (approveEnv { success := true, error := none } 4000)
            "2000" "admin" k).store
          (rejectEnv 4001) "2000" "boss" "no" k).result.success = true ∧
      (rejectCommit
          (approveCommit threeStore (approveEnv { success := true, error := none } 4000)
            "2000" "admin" k).store
          (rejectEnv 4001) "2000" "boss" "no" k).store.requests.map (fun r => (r.id, r.status))
        = [("3000", "pending"), ("2000", "rejected"), ("1000", "pending")] := by
  refine ⟨{ requests := [signupRecord "carol" 3000, signupRecord "bob" 2000,
                         signupRecord "alice" 1000],
            request := signupRecord "bob" 2000, trace := [Event.getItem] },
    rfl, by decide, by decide, by decide⟩

/-- Counterexample to C22: two rejections of the pending request of
`aliceStore` both read the store before either writes. The first resumes and
writes the stamp (1001, `admin`); the second resumes with the array it read
and writes the stamp (1002, `boss`) over it. -/
theorem overlapping_rejection_rewrites_stamp :
    ∃ k : Suspended, resolveRead aliceStore ReadEnv.ok "1000" = Sum.inr k ∧
      (rejectCommit aliceStore (rejectEnv 1001) "1000" "admin" "no" k).store.requests.map
          (fun r => (r.status, r.approvedAt, r.approvedBy))
        = [("rejected", some 1001, some "admin")] ∧
      (rejectCommit (rejectCommit aliceStore (rejectEnv 1001) "1000" "admin" "no" k).store
          (rejectEnv 1002) "1000" "boss" "never" k).result.success = true ∧
      (rejectCommit (rejectCommit aliceStore (rejectEnv 1001) "1000" "admin" "no" k).store
          (rejectEnv 1002) "1000" "boss" "never" k).store.requests.map
          (fun r => (r.status, r.approvedAt, r.approvedBy))
        = [("rejected", some 1002, some "boss")] := by
  refine ⟨{ requests := [aliceRequest], request := aliceRequest, trace := [Event.getItem] },
    rfl, by decide, by decide, by decide⟩

end SignupRequests

/-! # Address display -/

namespace Location

/-- Past `maxLength`, the result is the cut address followed by three dots. -/
theorem length_formatAddressForDisplay (exceeds : Nat → Nat → Bool) (address : List Char)
    (maxLength : Nat) (hlong : maxLength < address.length) :
    (formatAddressForDisplay exceeds address maxLength).length
      = min (bestBreak exceeds address maxLength breakPoints) address.length + 3 := by
  have hne : address.isEmpty = false := by
    cases address with
    | nil => simp at hlong
    | cons a l => rfl
  have hnot : ¬ address.length ≤ maxLength := by omega
  simp [formatAddressForDisplay, hne, hnot]

/-- C27, a defect of the code. The docstring calls `maxLength` the maximum
length for display, but past that length the function cuts the address at a
break point that may be as far as `maxLength` itself and then appends `'...'`.
An address of 60 letters `a` displayed at `maxLength` 50 comes out 53 long,
whatever the comparison of line 108 answers; and
`'1600 Amphitheatre Parkway, Mountain View, CA 94043, USA'`, cut at the comma
at index 50, comes out as
`'1600 Amphitheatre Parkway, Mountain View, CA 94043...'`, 53 long. -/
theorem display_exceeds_maxLength :
    (∀ exceeds : Nat → Nat → Bool,
      (formatAddressForDisplay exceeds (List.replicate 60 'a') 50).length = 53) ∧
    formatAddressForDisplay (fun i m => decide (7 * m < 10 * i))
        "1600 Amphitheatre Parkway, Mountain View, CA 94043, USA".data 50
      = "1600 Amphitheatre Parkway, Mountain View, CA 94043...".data ∧
    "1600 Amphitheatre Parkway, Mountain View, CA 94043...".data.length = 53 ∧
    ¬ (53 ≤ 50) := by
  refine ⟨fun _ => rfl, by decide, by decide, by decide⟩

end Location

/-! # The similarity threshold -/

namespace FaceVerification

/-- In range, `setSimilarityThreshold` throws and changes nothing. -/
theorem setSimilarityThreshold_in_range (m : Module) (t : ℚ) (h0 : 0 ≤ t) (h1 : t ≤ 1) :
    setSimilarityThreshold m t = (Completion.typeError, m) := by
  simp [setSimilarityThreshold, h0, h1]

/-- C28, a defect of the code. `setSimilarityThreshold(0.5)` does not set a new
similarity threshold: the assignment to the `const` binding throws a
`TypeError`, and a following `getSimilarityThreshold()` still returns 0.6.
The same holds for every threshold between 0 and 1. -/
theorem threshold_cannot_be_set :
    (setSimilarityThreshold Module.initial (1 / 2)).1 = Completion.typeError ∧
    getSimilarityThreshold (setSimilarityThreshold Module.initial (1 / 2)).2 = 6 / 10 ∧
    getSimilarityThreshold (setSimilarityThreshold Module.initial (1 / 2)).2 ≠ 1 / 2 ∧
    ∀ (m : Module) (t : ℚ), 0 ≤ t → t ≤ 1 →
      (setSimilarityThreshold m t).1 = Completion.typeError ∧
      getSimilarityThreshold (setSimilarityThreshold m t).2 = getSimilarityThreshold m := by
  have h := setSimilarityThreshold_in_range Module.initial (1 / 2) (by norm_num) (by norm_num)
  refine ⟨by rw [h], by rw [h]; rfl, ?_, ?_⟩
  · rw [h]
    show (6 / 10 : ℚ) ≠ 1 / 2
    norm_num
  · intro m t h0 h1
    rw [setSimilarityThreshold_in_range m t h0 h1]
    exact ⟨rfl, rfl⟩

end FaceVerification

namespace MigrateUsers

/-! ## The user list parser -/

theorem splitChars_of_not_mem (sep : Char) :
    ∀ a : List Char, sep ∉ a → splitChars sep a = [a]
  | [], _ => rfl
  | c :: cs, h => by
    have hc : c ≠ sep := fun e => h (by simp [e])
    have ih := splitChars_of_not_mem sep cs (fun m => h (List.mem_cons_of_mem _ m))
    simp [splitChars, hc, ih]

theorem splitChars_append (sep : Char) (rest : List Char) :
    ∀ a : List Char, sep ∉ a → splitChars sep (a ++ sep :: rest) = a :: splitChars sep rest
  | [], _ => by simp [splitChars]
  | c :: cs, h => by
    have hc : c ≠ sep := fun e => h (by simp [e])
    have ih := splitChars_append sep rest cs (fun m => h (List.mem_cons_of_mem _ m))
    simp [splitChars, hc, ih]

theorem dropWhile_isSpace_eq_self :
    ∀ s : List Char, (∀ c, s.head? = some c → isSpace c = false) → s.dropWhile isSpace = s
  | [], _ => rfl
  | c :: cs, h => by
    have hc : isSpace c = false := h c rfl
    simp [List.dropWhile, hc]

theorem trimChars_eq_self (s : List Char) (h₁ : ∀ c, s.head? = some c → isSpace c = false)
    (h₂ : ∀ c, s.getLast? = some c → isSpace c = false) : trimChars s = s := by
  unfold trimChars
  rw [dropWhile_isSpace_eq_self s h₁, dropWhile_isSpace_eq_self s.reverse, List.reverse_reverse]
  intro c hc
  rw [List.head?_reverse] at hc
  exact h₂ c hc

theorem mem_dropWhile_of_false (q : Char → Bool) (c : Char) (hq : q c = false) :
    ∀ s : List Char, c ∈ s → c ∈ s.dropWhile q
  | [], h => h
  | d :: ds, h => by
    by_cases hd : q d = true
    · rw [List.dropWhile_cons_of_pos hd]
      rcases List.mem_cons.1 h with e | m
      · rw [e, hd] at hq; cases hq
      · exact mem_dropWhile_of_false q c hq ds m
    · rw [List.dropWhile_cons_of_neg hd]; exact h

theorem trimChars_ne_nil (s : List Char) (c : Char) (hc : c ∈ s) (hs : isSpace c = false) :
    trimChars s ≠ [] := by
  have h : c ∈ trimChars s := by
    unfold trimChars
    rw [List.mem_reverse]
    apply mem_dropWhile_of_false isSpace c hs
    rw [List.mem_reverse]
    exact mem_dropWhile_of_false isSpace c hs s hc
  exact List.ne_nil_of_mem h

theorem captureChars_key_append (k : Char) (ks p : List Char) (hp : p ≠ [])
    (ht : ∀ c ∈ p, isLineTerminator c = false) :
    captureChars (k :: ks) (k :: ks ++ p) = some p := by
  have hpre : (k :: ks).isPrefixOf (k :: (ks ++ p)) = true := by
    rw [List.isPrefixOf_iff_prefix, ← List.cons_append]
    exact List.prefix_append _ _
  have hdrop : (k :: (ks ++ p)).drop (k :: ks).length = p := by
    rw [← List.cons_append]; exact List.drop_left _ _
  have htake : p.takeWhile (fun x => !isLineTerminator x) = p := by
    rw [List.takeWhile_eq_self_iff]
    intro c hc
    simp [ht c hc]
  rw [List.cons_append]
  unfold captureChars
  rw [hdrop, htake, if_pos ⟨hpre, hp⟩]

theorem trim_eq_self (s : String) (h₁ : startsWithSpace s = false)
    (h₂ : endsWithSpace s = false) : trim s = s := by
  unfold trim
  rw [trimChars_eq_self s.data]
  · intro c hc
    simpa [startsWithSpace, hc] using h₁
  · intro c hc
    simpa [endsWithSpace, hc] using h₂

theorem data_ne_nil (s : String) (h : s ≠ "") : s.data ≠ [] := by
  intro e
  apply h
  cases s
  simp at e
  simp [e]

theorem userLine_data (u p r : String) :
    (userLine u p r).data =
      u.data ++ ',' :: ("password:".data ++ p.data ++ ',' :: ("role:".data ++ r.data)) := by
  simp [userLine, String.data_append]

theorem trim_key_append (k : Char) (ks : List Char) (hk : isSpace k = false) (p : String)
    (hp : p ≠ "") (hpe : endsWithSpace p = false) :
    trimChars (k :: ks ++ p.data) = k :: ks ++ p.data := by
  apply trimChars_eq_self
  · intro c hc
    simp at hc
    rw [← hc]; exact hk
  · intro c hc
    rw [List.getLast?_append_of_ne_nil _ (data_ne_nil p hp)] at hc
    simpa [endsWithSpace, hc] using hpe

theorem capture_key_append (k : Char) (ks : List Char) (hk : isSpace k = false) (p : String)
    (hp : p ≠ "") (hpt : ∀ c ∈ p.data, isLineTerminator c = false)
    (hpe : endsWithSpace p = false) :
    capture (String.mk (k :: ks)) (trim (String.mk (k :: ks ++ p.data))) = some p := by
  unfold capture trim
  simp only []
  rw [trim_key_append k ks hk p hp hpe, captureChars_key_append k ks p.data (data_ne_nil p hp) hpt]
  rfl

theorem split_userLine (u p r : String) (hu : ',' ∉ u.data) (hp : ',' ∉ p.data)
    (hr : ',' ∉ r.data) :
    split (userLine u p r) ',' =
      [u, String.mk ("password:".data ++ p.data), String.mk ("role:".data ++ r.data)] := by
  unfold split
  rw [userLine_data, splitChars_append _ _ _ hu, splitChars_append, splitChars_of_not_mem]
  · rfl
  · intro h
    rcases List.mem_append.1 h with h | h
    · revert h; decide
    · exact hr h
  · intro h
    rcases List.mem_append.1 h with h | h
    · revert h; decide
    · exact hp h

theorem trim_userLine_ne (u p r : String) : trim (userLine u p r) ≠ "" := by
  unfold trim
  intro h
  have h' : trimChars (userLine u p r).data = [] := by
    have := congrArg String.data h
    simpa using this
  refine trimChars_ne_nil _ 'p' ?_ (by decide) h'
  rw [userLine_data]
  simp

theorem parseLine_userLine (today u p r : String)
    (hu : ',' ∉ u.data) (hus : startsWithSpace u = false) (hue : endsWithSpace u = false)
    (hp : p ≠ "") (hpc : ',' ∉ p.data) (hpt : ∀ c ∈ p.data, isLineTerminator c = false)
    (hpe : endsWithSpace p = false)
    (hr : r ≠ "") (hrc : ',' ∉ r.data) (hrt : ∀ c ∈ r.data, isLineTerminator c = false)
    (hre : endsWithSpace r = false) :
    parseLine today (userLine u p r) =
      [{ username := u, password := p, data := employeeData today u r }] := by
  unfold parseLine
  rw [if_neg (trim_userLine_ne u p r), split_userLine u p r hu hpc hrc]
  have h1 := capture_key_append 'p' "assword:".data (by decide) p hp hpt hpe
  have h2 := capture_key_append 'r' "ole:".data (by decide) r hr hrt hre
  have e1 : String.mk ('p' :: "assword:".data) = "password:" := rfl
  have e2 : String.mk ('r' :: "ole:".data) = "role:" := rfl
  have e3 : 'p' :: "assword:".data = "password:".data := rfl
  have e4 : 'r' :: "ole:".data = "role:".data := rfl
  rw [e1, e3] at h1
  rw [e2, e4] at h2
  simp only [h1, h2, trim_eq_self u hus hue]

theorem parseUsers_single (today line : String) (hn : '\n' ∉ line.data)
    (hs : startsWithSpace line = false) (he : endsWithSpace line = false) :
    parseUsers today line = parseLine today line := by
  unfold parseUsers split
  rw [trim_eq_self line hs he, splitChars_of_not_mem _ _ hn]
  simp

theorem lookup_userEmployeeMap (u : String) (entry : Employee)
    (h : (u, entry) ∈ userEmployeeMap) : userEmployeeMap.lookup u = some entry := by
  simp only [userEmployeeMap, List.mem_cons, Prod.mk.injEq, List.mem_singleton,
    List.not_mem_nil, or_false] at h
  rcases h with h | h | h | h | h | h | h | h | h | h | h <;>
    (obtain ⟨rfl, rfl⟩ := h; rfl)

theorem lookup_eq_none_of_not_key (u : String)
    (h : u ∉ userEmployeeMap.map Prod.fst) : userEmployeeMap.lookup u = none := by
  rw [List.lookup_eq_none_iff]
  intro a ha
  rw [bne_iff_ne]
  intro e
  exact h (e ▸ List.mem_map_of_mem _ ha)

theorem parseLine_blank (today line : String) (h : trim line = "") :
    parseLine today line = [] := by
  unfold parseLine
  rw [if_pos h]

theorem parseLine_short (today line : String) (h : (split line ',').length < 3) :
    parseLine today line = [] := by
  unfold parseLine
  split
  · rfl
  · split
    · rename_i e
      rw [e] at h
      simp only [List.length_cons] at h
      omega
    · rfl

theorem parseUsers_blank (today content : String) (h : trim content = "") :
    parseUsers today content = [] := by
  unfold parseUsers
  rw [h]
  rfl

theorem startsWithSpace_userLine (u p r : String) (hus : startsWithSpace u = false) :
    startsWithSpace (userLine u p r) = false := by
  unfold startsWithSpace at hus ⊢
  rw [userLine_data]
  cases hd : u.data with
  | nil => simp; decide
  | cons c cs => rw [hd] at hus; simpa using hus

theorem endsWithSpace_userLine (u p r : String) (hr : r ≠ "")
    (hre : endsWithSpace r = false) : endsWithSpace (userLine u p r) = false := by
  unfold endsWithSpace at hre ⊢
  have e : (userLine u p r).data =
      (u.data ++ ',' :: ("password:".data ++ p.data ++ ',' :: "role:".data)) ++ r.data := by
    rw [userLine_data]; simp
  rw [e, List.getLast?_append_of_ne_nil _ (data_ne_nil r hr)]
  exact hre

theorem newline_not_mem_userLine (u p r : String) (hu : '\n' ∉ u.data)
    (hp : ∀ c ∈ p.data, isLineTerminator c = false)
    (hr : ∀ c ∈ r.data, isLineTerminator c = false) : '\n' ∉ (userLine u p r).data := by
  rw [userLine_data]
  intro h
  simp only [List.mem_append, List.mem_cons] at h
  rcases h with h | h | (h | h) | h | h | h
  · exact hu h
  · revert h; decide
  · revert h; decide
  · have := hp _ h; revert this; decide
  · revert h; decide
  · revert h; decide
  · have := hr _ h; revert this; decide

/-- C30 (counterexample): the parts of a line are trimmed and split at every
comma, and the table lookup also finds inherited properties. With password
`secret ` (a trailing blank) the user's password is `secret`; with username
` bob` the username is `bob`; with username `a,b` the line yields no user;
and with username `constructor` the user has a username and a password and
none of the other properties. -/
theorem line_parts_are_not_taken_verbatim :
    (parseLine "2026-11-04" (userLine "bob" "secret " "employee")).map User.password
        = ["secret"] ∧
    (parseLine "2026-11-04" (userLine " bob" "secret" "employee")).map User.username
        = ["bob"] ∧
    parseLine "2026-11-04" (userLine "a,b" "secret" "employee") = [] ∧
    parseLine "2026-11-04" (userLine "constructor" "secret" "employee")
        = [{ username := "constructor", password := "secret", data := none }] := by
  refine ⟨?_, ?_, ?_, ?_⟩ <;> decide

/-- C30 (amended): let `u`, `p`, `r` be free of commas, `u` free of newlines and
`p`, `r` free of line terminators, `u` without white space at either end, `p`
and `r` non-empty and without white space at the end, and `u` not a property
name inherited from `Object.prototype`. Then the line `u,password:p,role:r`
yields one user with username `u` and password `p` (as a line of the loop and
as the whole content); when `u` is a key of `userEmployeeMap` the other
properties are those of the table entry, and otherwise the role is `r`, the
email `u@company.com`, department and position are empty, the work mode is
`in_office`, the name is derived from `u` and the hire date is today. Blank
lines and lines with fewer than three comma-separated parts yield no user. -/
theorem line_yields_one_user (today u p r blank short : String)
    (hu : ∀ c ∈ u.data, c ≠ ',' ∧ c ≠ '\n')
    (hus : startsWithSpace u = false) (hue : endsWithSpace u = false)
    (hui : u ∉ inheritedKeys)
    (hp : p ≠ "") (hpc : ∀ c ∈ p.data, c ≠ ',' ∧ isLineTerminator c = false)
    (hpe : endsWithSpace p = false)
    (hr : r ≠ "") (hrc : ∀ c ∈ r.data, c ≠ ',' ∧ isLineTerminator c = false)
    (hre : endsWithSpace r = false)
    (hblank : trim blank = "") (hshort : (split short ',').length < 3) :
    (∃ e : Employee,
      parseLine today (userLine u p r) = [{ username := u, password := p, data := some e }] ∧
      parseUsers today (userLine u p r) = [{ username := u, password := p, data := some e }] ∧
      (∀ entry, (u, entry) ∈ userEmployeeMap → e = entry) ∧
      (u ∉ userEmployeeMap.map Prod.fst →
        e = { name := displayName u, email := u ++ "@company.com", role := r,
              department := "", position := "", workMode := "in_office",
              hireDate := today })) ∧
    parseLine today blank = [] ∧ parseUsers today blank = [] ∧
    parseLine today short = [] := by
  have hline := parseLine_userLine today u p r (fun h => (hu _ h).1 rfl) hus hue hp
    (fun h => (hpc _ h).1 rfl) (fun c hc => (hpc c hc).2) hpe hr
    (fun h => (hrc _ h).1 rfl) (fun c hc => (hrc c hc).2) hre
  have hall := parseUsers_single today (userLine u p r)
    (newline_not_mem_userLine u p r (fun h => (hu _ h).2 rfl) (fun c hc => (hpc c hc).2)
      (fun c hc => (hrc c hc).2))
    (startsWithSpace_userLine u p r hus) (endsWithSpace_userLine u p r hr hre)
  refine ⟨?_, parseLine_blank today blank hblank, parseUsers_blank today blank hblank,
    parseLine_short today short hshort⟩
  cases hl : userEmployeeMap.lookup u with
  | some entry =>
    have hd : employeeData today u r = some entry := by
      unfold employeeData; rw [hl]
    refine ⟨entry, ?_, ?_, ?_, ?_⟩
    · rw [hline, hd]
    · rw [hall, hline, hd]
    · intro entry' h'
      have := lookup_userEmployeeMap u entry' h'
      rw [hl] at this
      exact Option.some.inj this
    · intro h'
      rw [lookup_eq_none_of_not_key u h'] at hl
      cases hl
  | none =>
    have hd : employeeData today u r = some (defaultEmployee today u r) := by
      unfold employeeData; rw [hl]; simp only [if_neg hui]
    refine ⟨defaultEmployee today u r, ?_, ?_, ?_, ?_⟩
    · rw [hline, hd]
    · rw [hall, hline, hd]
    · intro entry' h'
      have := lookup_userEmployeeMap u entry' h'
      rw [hl] at this
      cases this
    · intro _
      rfl

/-- C30 (witness): the amended statement at the lines `new.user,password:pass
word,role:employee`, a line of blanks and a line of two parts. -/
theorem line_yields_one_user_witness :
    (∃ e : Employee,
      parseLine "2026-11-04" (userLine "new.user" "pass word" "employee")
        = [{ username := "new.user", password := "pass word", data := some e }] ∧
      parseUsers "2026-11-04" (userLine "new.user" "pass word" "employee")
        = [{ username := "new.user", password := "pass word", data := some e }] ∧
      (∀ entry, ("new.user", entry) ∈ userEmployeeMap → e = entry) ∧
      ("new.user" ∉ userEmployeeMap.map Prod.fst →
        e = { name := displayName "new.user", email := "new.user" ++ "@company.com",
              role := "employee", department := "", position := "", workMode := "in_office",
              hireDate := "2026-11-04" })) ∧
    parseLine "2026-11-04" "  \t" = [] ∧ parseUsers "2026-11-04" "  \t" = [] ∧
    parseLine "2026-11-04" "short,password:x" = [] :=
  line_yields_one_user "2026-11-04" "new.user" "pass word" "employee" "  \t" "short,password:x"
    (by decide) (by decide) (by decide) (by decide) (by decide) (by decide) (by decide)
    (by decide) (by decide) (by decide) (by decide) (by decide)

end MigrateUsers
